import Mathlib

/-!
# Transactional outbox of `product_service`: a shallow embedding

The Go sources under `products/internal`, and the consumer of
`notifications/internal`, are embedded as Lean functions over an explicit state
(`World`).  Every collaborator that the Go code only reaches
through an interface or a driver (the SQL connection, the bus publisher, the
random source, the clock) is an oracle `Env` that answers as a function of the
history of calls made so far, so every theorem that quantifies over `Env`
covers every outcome of `BeginTx`, of the statements, of `Commit`/`Rollback`
and of the publisher.

Conventions
* a Go `error` value is `Option Err`; `none` is `nil`;
* `int` and `time.Duration` are `Int`, wrapped to 64 bits where the Go code
  does arithmetic on them;
* instants (`time.Time`) are nanoseconds since the Unix epoch;
* a Go `string` is a `String` (valid UTF-8) and `len` counts its bytes; a
  `float64` is a `Float64`, whose finite values are rationals;
* JSON documents are flat objects of integers and strings (`JsonObject`);
* logging and metrics calls have no effect on the state and are left out.
-/

namespace ProductSvc

/-! ## Errors (`application/errors.go`, `domain/errors.go`, `fmt.Errorf`) -/

/-- Go error values that the embedded code builds or inspects.
`retryExhaustedNil n` is `&RetryExhaustedError{MaxAttempts: n, LastErr: nil}`. -/
inductive Err where
  | sentinel (msg : String)
  | plain (msg : String)
  | wrap (pre : String) (inner : Err)
  | transaction (operation : String) (inner : Err)
  | eventPublish (productID : Int) (eventType : String) (inner : Err)
  | retryExhausted (maxAttempts : Int) (lastErr : Err)
  | retryExhaustedNil (maxAttempts : Int)
  deriving DecidableEq, Repr

/-- The package-level value `domain.ErrProductNotFound`. -/
def ErrProductNotFound : Err := .sentinel "product not found"

/-- The package-level value `domain.ErrInvalidInput`. -/
def ErrInvalidInput : Err := .sentinel "invalid input"

/-- The value `context.Canceled`. -/
def ctxCanceled : Err := .sentinel "context canceled"

/-- The value `context.DeadlineExceeded`. -/
def ctxDeadlineExceeded : Err := .sentinel "context deadline exceeded"

/-- `NewTransactionError(operation, err)`. -/
def NewTransactionError (operation : String) (err : Err) : Err :=
  .transaction operation err

/-- `NewEventPublishError(productID, eventType, err)`. -/
def NewEventPublishError (productID : Int) (eventType : String) (err : Err) : Err :=
  .eventPublish productID eventType err

/-- `NewRetryExhaustedError(maxAttempts, lastErr)`; `lastErr` may be `nil`. -/
def NewRetryExhaustedError (maxAttempts : Int) (lastErr : Option Err) : Err :=
  match lastErr with
  | some e => .retryExhausted maxAttempts e
  | none => .retryExhaustedNil maxAttempts

/-- The `Unwrap()` method of each error type (`nil` when there is none). -/
def Err.Unwrap : Err → Option Err
  | .sentinel _ => none
  | .plain _ => none
  | .wrap _ e => some e
  | .transaction _ e => some e
  | .eventPublish _ _ e => some e
  | .retryExhausted _ e => some e
  | .retryExhaustedNil _ => none

/-- `errors.Is(err, target)` for a non-nil `err`: `err` or an error in its
`Unwrap` chain equals `target`. -/
def errorsIs : Err → Err → Bool
  | .sentinel m, t => decide (Err.sentinel m = t)
  | .plain m, t => decide (Err.plain m = t)
  | .wrap p e, t => decide (Err.wrap p e = t) || errorsIs e t
  | .transaction o e, t => decide (Err.transaction o e = t) || errorsIs e t
  | .eventPublish i ty e, t => decide (Err.eventPublish i ty e = t) || errorsIs e t
  | .retryExhausted n e, t => decide (Err.retryExhausted n e = t) || errorsIs e t
  | .retryExhaustedNil n, t => decide (Err.retryExhaustedNil n = t)

/-- The `Error()` method: the message of an error, as `fmt` renders it. -/
def Err.Error : Err → String
  | .sentinel m => m
  | .plain m => m
  | .wrap p e => p ++ ": " ++ e.Error
  | .transaction o e =>
      if o ≠ "" then "transaction " ++ o ++ " failed: " ++ e.Error
      else "transaction failed: " ++ e.Error
  | .eventPublish i ty e =>
      if ty ≠ "" then
        "failed to publish " ++ ty ++ " event for product " ++ toString i ++ ": " ++ e.Error
      else "failed to publish event for product " ++ toString i ++ ": " ++ e.Error
  | .retryExhausted n e =>
      "retry exhausted after " ++ toString n ++ " attempts: " ++ e.Error
  | .retryExhaustedNil n =>
      "retry exhausted after " ++ toString n ++ " attempts: <nil>"

/-- `IsRetryExhaustedError(err)`: `errors.As` finds a `*RetryExhaustedError`
in the chain. -/
def IsRetryExhaustedError : Err → Bool
  | .sentinel _ => false
  | .plain _ => false
  | .wrap _ e => IsRetryExhaustedError e
  | .transaction _ e => IsRetryExhaustedError e
  | .eventPublish _ _ e => IsRetryExhaustedError e
  | .retryExhausted _ _ => true
  | .retryExhaustedNil _ => true

/-! ## 64-bit integers -/

/-- The value of an `int64` after an arithmetic operation whose exact result
is `x` (two's complement wrap-around). -/
def wrapInt64 (x : Int) : Int := (x + 2 ^ 63) % 2 ^ 64 - 2 ^ 63

/-- The largest `int` (`math.MaxInt64`). -/
def maxInt64 : Int := 2 ^ 63 - 1

/-! ## Domain (`domain/product.go`, `domain/domain_event.go`) -/

/-- A `float64`, with the finite values as rationals. -/
inductive Float64 where
  | finite (q : Rat)
  | posInf
  | negInf
  | nan
  deriving DecidableEq, Repr

/-- The two concrete `DomainEvent` types. -/
inductive EventKind where
  | created
  | deleted
  deriving DecidableEq, Repr

/-- A `ProductCreatedEvent` or `ProductDeletedEvent`. -/
structure DomainEvent where
  kind : EventKind
  ProductID : Int
  Timestamp : Int
  deriving DecidableEq, Repr

/-- `EventType()`. -/
def DomainEvent.EventType (e : DomainEvent) : String :=
  match e.kind with
  | .created => "PRODUCT_CREATED"
  | .deleted => "PRODUCT_DELETED"

/-- A JSON scalar as it occurs in event payloads. -/
inductive JsonScalar where
  | num (n : Int)
  | str (s : String)
  | time (t : Int)
  deriving DecidableEq, Repr

/-- A flat JSON object (`json.Marshal` writes the keys of a map in sorted order). -/
abbrev JsonObject := List (String × JsonScalar)

/-- First and last instant (in nanoseconds) that `time.Time.MarshalJSON`
accepts: the years 0 to 9999. -/
def minJSONTime : Int := -62167219200 * 1000000000

/-- See `minJSONTime`. -/
def maxJSONTime : Int := 253402300799 * 1000000000 + 999999999

/-- `MarshalJSON()` of both event types: the object
`type, product_id, timestamp`; `json.Marshal` fails when the timestamp cannot
be rendered as RFC 3339. -/
def DomainEvent.MarshalJSON (e : DomainEvent) : Except Err JsonObject :=
  if minJSONTime ≤ e.Timestamp ∧ e.Timestamp ≤ maxJSONTime then
    .ok [("product_id", .num e.ProductID), ("timestamp", .time e.Timestamp),
         ("type", .str e.EventType)]
  else
    .error (.plain "json: error calling MarshalJSON for type time.Time")

/-- The struct `domain.Product`; `Name` and `Price` hold the values of the
value objects. -/
structure Product where
  ID : Int
  Name : String
  Price : Float64
  CreatedAt : Int
  domainEvents : List DomainEvent
  deriving DecidableEq, Repr

/-- `NewProductCreatedEvent(productID, product)`, with `time.Now()` given. -/
def NewProductCreatedEvent (productID : Int) (now : Int) : DomainEvent :=
  { kind := .created, ProductID := productID, Timestamp := now }

/-- `NewProductDeletedEvent(productID)`, with `time.Now()` given. -/
def NewProductDeletedEvent (productID : Int) (now : Int) : DomainEvent :=
  { kind := .deleted, ProductID := productID, Timestamp := now }

/-- `recordDomainEvent`: append to the buffer. -/
def Product.recordDomainEvent (p : Product) (event : DomainEvent) : Product :=
  { p with domainEvents := p.domainEvents ++ [event] }

/-- `RecordCreatedEvent`: the event is bound to the current `p.ID`. -/
def Product.RecordCreatedEvent (p : Product) (now : Int) : Product :=
  p.recordDomainEvent (NewProductCreatedEvent p.ID now)

/-- `RecordDeleteEvent`. -/
def Product.RecordDeleteEvent (p : Product) (now : Int) : Product :=
  p.recordDomainEvent (NewProductDeletedEvent p.ID now)

/-- `DomainEvents()`: a copy of the buffer. -/
def Product.DomainEvents (p : Product) : List DomainEvent := p.domainEvents

/-- `ClearDomainEvents()`. -/
def Product.ClearDomainEvents (p : Product) : Product :=
  { p with domainEvents := [] }

/-! ## The relational store

The store is an external collaborator (PostgreSQL).  Its tables follow the
schema of the specification and each statement does what the SQL text in
`repository/queries.go` says.  A transaction is the list of its pending
writes; they reach the committed tables at `COMMIT`.  Identifiers come from
sequences, which a rollback does not reset. -/

/-- `ports.OutboxStatus`, a Go string type. -/
abbrev OutboxStatus := String

/-- `OutboxStatusPending`. -/
def OutboxStatusPending : OutboxStatus := "pending"

/-- `OutboxStatusPublished`. -/
def OutboxStatusPublished : OutboxStatus := "published"

/-- `OutboxStatusFailed`. -/
def OutboxStatusFailed : OutboxStatus := "failed"

/-- `OutboxStatusDLQ`. -/
def OutboxStatusDLQ : OutboxStatus := "dlq"

/-- Modelled from the spec: the table `products`, whose declaration (a schema
migration) is not among the sources; the columns are those the statements of
`queries.go` name. -/
structure ProductRow where
  id : Int
  name : String
  price : Float64
  createdAt : Int
  deriving DecidableEq, Repr

/-- Modelled from the spec: the table `outbox`, whose declaration is not among
the sources; `idempotency_key` is unique, as `ON CONFLICT (idempotency_key)`
requires, and `idempotencyKey = none` is SQL `NULL`. -/
structure OutboxRow where
  id : Int
  eventType : String
  eventData : JsonObject
  idempotencyKey : Option String
  status : OutboxStatus
  retryCount : Int
  createdAt : Int
  publishedAt : Option Int
  dlqReason : Option String
  deriving DecidableEq, Repr

/-- The two tables. -/
structure Tables where
  products : List ProductRow
  outbox : List OutboxRow
  deriving DecidableEq, Repr

/-- A pending write of an open transaction. -/
inductive Write where
  | insertProduct (row : ProductRow)
  | deleteProduct (id : Int)
  | insertOutbox (row : OutboxRow)
  | updateOutbox (row : OutboxRow)
  deriving DecidableEq, Repr

/-- Apply one write to the tables. -/
def Tables.apply (t : Tables) : Write → Tables
  | .insertProduct row => { t with products := t.products ++ [row] }
  | .deleteProduct id => { t with products := t.products.filter (fun r => r.id ≠ id) }
  | .insertOutbox row => { t with outbox := t.outbox ++ [row] }
  | .updateOutbox row =>
      { t with outbox := t.outbox.map (fun r => if r.id = row.id then row else r) }

/-- Apply writes in order. -/
def Tables.applyAll (t : Tables) (ws : List Write) : Tables :=
  ws.foldl Tables.apply t

/-- The parameters `($1, $2, $3, $4)` of one inserted outbox row:
`(event_type, event_data, idempotency_key, status)`. -/
structure OutboxInsert where
  eventType : String
  eventData : JsonObject
  idempotencyKey : String
  status : OutboxStatus
  deriving DecidableEq, Repr

/-- The statements of `queries.go`, with their arguments. -/
inductive Stmt where
  | createProduct (name : String) (price : Float64)
  | deleteProduct (id : Int)
  | getProductByID (id : Int)
  | saveOutboxEvent (row : OutboxInsert)
  | saveEventsBatch (rows : List OutboxInsert)
  | getPendingEvents (status : OutboxStatus) (limit : Int)
  | markAsPublished (status : OutboxStatus) (id : Int)
  | markAsFailed (status : OutboxStatus) (retryCount : Int) (id : Int)
  | moveToDLQ (status : OutboxStatus) (id : Int) (reason : String)
  deriving DecidableEq, Repr

/-- A call that leaves the embedded code.  `sql inTx stmt` is a statement sent
to the driver, inside the open transaction when `inTx`; `uowBegin`,
`uowCommit`, `uowRollback`, `markAsPublished`, `markAsFailed` and `moveToDLQ`
record the call of the method of that name on the unit of work or on the
outbox repository. -/
inductive Call where
  | uowBegin
  | uowCommit
  | uowRollback
  | sqlBeginTx
  | sqlCommit
  | sqlRollback
  | sqlPrepare (inTx : Bool)
  | sql (inTx : Bool) (stmt : Stmt)
  | randRead (n : Nat)
  | sleep (d : Int)
  | markAsPublished (eventID : Int)
  | markAsFailed (eventID : Int) (retryCount : Int)
  | moveToDLQ (eventID : Int) (reason : String)
  | adaptEvent (eventID : Int)
  | publishProductCreated (productID : Int) (timestamp : Option Int)
  | publishProductDeleted (productID : Int) (timestamp : Option Int)
  | appDeleteProductWithEvent (productID : Int) (idempotencyKey : String)
  deriving DecidableEq, Repr

/-- The state the embedded code runs on.  `tx` holds the pending writes of the
open `sql.Tx`, `trace` the calls made so far, latest first. -/
structure World where
  db : Tables
  tx : Option (List Write)
  productSeq : Int
  outboxSeq : Int
  now : Int
  trace : List Call
  deriving DecidableEq, Repr

/-- The environment: for the call at the head of the history, the error the
driver or the bus answers with (`none` for success), the time the call takes,
and the bytes `crypto/rand` delivers. -/
structure Env where
  fault : List Call → Option Err
  latency : List Call → Nat
  random : List Call → Nat → Nat

/-- An environment in which every call succeeds and takes no time. -/
def Env.calm : Env :=
  { fault := fun _ => none, latency := fun _ => 0, random := fun _ _ => 0 }

/-- Make a call that can fail: it is recorded, takes its time, and the
environment decides its outcome. -/
def perform (env : Env) (c : Call) (w : World) : Option Err × World :=
  (env.fault (c :: w.trace),
   { w with trace := c :: w.trace, now := w.now + env.latency (c :: w.trace) })

/-- Record a call that cannot fail. -/
def note (c : Call) (w : World) : World :=
  { w with trace := c :: w.trace }

/-- What a statement sees: the committed tables plus the pending writes of
its own transaction when it runs inside it. -/
def World.view (w : World) (inTx : Bool) : Tables :=
  match inTx, w.tx with
  | true, some pending => w.db.applyAll pending
  | _, _ => w.db

/-- Record the writes of a statement: pending when it runs inside the open
transaction, committed at once (auto-commit) otherwise. -/
def World.write (w : World) (inTx : Bool) (ws : List Write) : World :=
  match inTx, w.tx with
  | true, some pending => { w with tx := some (pending ++ ws) }
  | _, _ => { w with db := w.db.applyAll ws }

/-- `context.Context`: the instant from which `ctx.Err()` is non-nil (`none`:
never) and the error it then returns. -/
structure Context where
  cancelAt : Option Int
  err : Err
  deriving DecidableEq, Repr

/-- `context.Background()`. -/
def Context.background : Context := { cancelAt := none, err := ctxCanceled }

/-- `ctx.Err()` at the instant `now`. -/
def Context.Err (ctx : Context) (now : Int) : Option Err :=
  match ctx.cancelAt with
  | some t => if t ≤ now then some ctx.err else none
  | none => none

/-- The statement `select` of `ctx.Done()` against `time.After(delay)`:
returns `true` when the context wins.  The clock moves to the cancellation
instant or past the delay. -/
def sleepOrDone (ctx : Context) (delay : Int) (w : World) : Bool × World :=
  let w1 := note (.sleep delay) w
  match ctx.cancelAt with
  | some t =>
      if t ≤ w1.now then (true, w1)
      else if t < w1.now + delay then (true, { w1 with now := t })
      else (false, { w1 with now := w1.now + max delay 0 })
  | none => (false, { w1 with now := w1.now + max delay 0 })

/-! ## Repositories (`repository/postgres_product_repository.go`,
`repository/outbox_repository.go`) -/

/-- The value `sql.ErrNoRows`. -/
def sqlErrNoRows : Err := .sentinel "sql: no rows in result set"

/-- The error of the server for a statement it cannot parse. -/
def sqlSyntaxError : Err := .plain "pq: syntax error"

/-- A run-time panic; it is carried as an error value that no Go code of the
repository builds. -/
def goPanic (msg : String) : Err := .plain ("panic: " ++ msg)

/-- A `ports.ProductRepository` of the repository.  `transactional` says
whether `SetTransaction` reaches it: the plain PostgreSQL repository
implements `ports.TransactionalRepository`, the metrics decorator does not. -/
structure ProductRepo where
  transactional : Bool
  deriving DecidableEq, Repr

/-- The test `r.tx != nil`: the repository is bound and the transaction open. -/
def ProductRepo.inTx (r : ProductRepo) (w : World) : Bool :=
  r.transactional && w.tx.isSome

/-- `Create`: `queryCreateProduct`, then `Scan(&product.ID, &product.CreatedAt)`. -/
def ProductRepo.Create (env : Env) (r : ProductRepo) (product : Product) (w : World) :
    Option Err × Product × World :=
  match perform env (.sql (r.inTx w) (.createProduct product.Name product.Price)) w with
  | (some e, w1) => (some (.wrap "failed to create product" e), product, w1)
  | (none, w1) =>
      let id := w1.productSeq + 1
      let row : ProductRow :=
        { id := id, name := product.Name, price := product.Price, createdAt := w1.now }
      (none, { product with ID := id, CreatedAt := w1.now },
       { (w1.write (r.inTx w) [.insertProduct row]) with productSeq := id })

/-- `Delete`: `queryDeleteProduct`, then the check of `RowsAffected`. -/
def ProductRepo.Delete (env : Env) (r : ProductRepo) (id : Int) (w : World) :
    Option Err × World :=
  match perform env (.sql (r.inTx w) (.deleteProduct id)) w with
  | (some e, w1) => (some (.wrap "failed to execute query" e), w1)
  | (none, w1) =>
      let rowsAffected := ((w1.view (r.inTx w)).products.filter (fun x => x.id = id)).length
      if rowsAffected = 0 then (some (.wrap "product not found" ErrProductNotFound), w1)
      else (none, w1.write (r.inTx w) [.deleteProduct id])

/-- The struct `ports.OutboxEvent`; `EventData = none` is the nil slice. -/
structure OutboxEvent where
  ID : Int
  EventType : String
  EventData : Option JsonObject
  IdempotencyKey : String
  CreatedAt : Int
  PublishedAt : Option Int
  RetryCount : Int
  Status : OutboxStatus
  deriving DecidableEq, Repr

/-- `toPortsOutboxEvent` after `scanEventsWithCapacity` has read a row. -/
def toPortsOutboxEvent (row : OutboxRow) : OutboxEvent :=
  { ID := row.id, EventType := row.eventType, EventData := some row.eventData,
    IdempotencyKey := row.idempotencyKey.getD "", CreatedAt := row.createdAt,
    PublishedAt := row.publishedAt, RetryCount := row.retryCount, Status := row.status }

/-- `DefaultMaxBatchSize`. -/
def DefaultMaxBatchSize : Int := 100

/-- A `postgresOutboxRepository` (or another `ports.OutboxRepository`):
`transactional` as for `ProductRepo`, `batch` says whether the value also
implements `ports.BatchOutboxRepository` (the PostgreSQL one does). -/
structure OutboxRepo where
  transactional : Bool
  maxBatchSize : Int
  batch : Bool
  deriving DecidableEq, Repr

/-- The test `r.tx != nil`. -/
def OutboxRepo.inTx (r : OutboxRepo) (w : World) : Bool :=
  r.transactional && w.tx.isSome

/-- `INSERT INTO outbox ... VALUES rows ON CONFLICT (idempotency_key) DO NOTHING
RETURNING id, created_at` on the tables `t`: the writes, the returned
`(id, created_at)` pairs and the new value of the sequence.  A row whose key is
already present (also: inserted earlier by the same statement) is skipped. -/
def insertOutboxRows (now : Int) : List OutboxInsert → Tables → Int →
    List Write × List (Int × Int) × Int
  | [], _, seq => ([], [], seq)
  | r :: rs, t, seq =>
      if t.outbox.any (fun x => x.idempotencyKey = some r.idempotencyKey) then
        insertOutboxRows now rs t seq
      else
        let row : OutboxRow :=
          { id := seq + 1, eventType := r.eventType, eventData := r.eventData,
            idempotencyKey := some r.idempotencyKey, status := r.status, retryCount := 0,
            createdAt := now, publishedAt := none, dlqReason := none }
        let rest := insertOutboxRows now rs (t.apply (.insertOutbox row)) (seq + 1)
        (.insertOutbox row :: rest.1, (seq + 1, now) :: rest.2.1, rest.2.2)

/-- `SaveEvent`: `querySaveOutboxEvent`, then `Scan(&ID, &CreatedAt)`; no row
back with a non-empty key is the duplicate and counts as success. -/
def OutboxRepo.SaveEvent (env : Env) (r : OutboxRepo) (event : OutboxEvent) (w : World) :
    Option Err × OutboxEvent × World :=
  let ins : OutboxInsert :=
    { eventType := event.EventType, eventData := event.EventData.getD [],
      idempotencyKey := event.IdempotencyKey, status := event.Status }
  let onScanErr (err : Err) : Option Err :=
    if errorsIs err sqlErrNoRows && event.IdempotencyKey ≠ "" then none
    else some (.wrap "failed to save outbox event" err)
  match perform env (.sql (r.inTx w) (.saveOutboxEvent ins)) w with
  | (some e, w1) => (onScanErr e, event, w1)
  | (none, w1) =>
      let res := insertOutboxRows w1.now [ins] (w1.view (r.inTx w)) w1.outboxSeq
      let w2 := { (w1.write (r.inTx w) res.1) with outboxSeq := res.2.2 }
      match res.2.1 with
      | [] => (onScanErr sqlErrNoRows, event, w2)
      | (id, createdAt) :: _ => (none, { event with ID := id, CreatedAt := createdAt }, w2)

/-- The loop over `rows.Next()` of `saveEventsBatchSingle`: the i-th returned
row is scanned into the i-th event. -/
def assignReturned : List OutboxEvent → List (Int × Int) → List OutboxEvent
  | e :: es, (id, createdAt) :: rs =>
      { e with ID := id, CreatedAt := createdAt } :: assignReturned es rs
  | es, _ => es

/-- `PrepareContext(ctx, query)` on the transaction, which the repository
calls only when it is bound to one (`r.tx != nil`); `valid` says whether the
text is a statement the server can parse. -/
def prepareStatement (env : Env) (inTx : Bool) (valid : Bool) (w : World) :
    Option Err × World :=
  if inTx then
    match perform env (.sqlPrepare true) w with
    | (some e, w1) => (some e, w1)
    | (none, w1) => (if valid then none else some sqlSyntaxError, w1)
  else (none, w)

/-- `saveEventsBatchSingle`: one multi-values insert; every row is sent with
status `pending`.  Inside a transaction the statement is prepared first.  A
statement without rows is not valid SQL. -/
def OutboxRepo.saveEventsBatchSingle (env : Env) (r : OutboxRepo) (events : List OutboxEvent)
    (w : World) : Option Err × List OutboxEvent × World :=
  let args : List OutboxInsert := events.map (fun e =>
    { eventType := e.EventType, eventData := e.EventData.getD [],
      idempotencyKey := e.IdempotencyKey, status := OutboxStatusPending })
  match prepareStatement env (r.inTx w) (!events.isEmpty) w with
  | (some prepErr, w1) =>
      (some (.wrap "failed to prepare batch insert statement" prepErr), events, w1)
  | (none, w1) =>
      match perform env (.sql (r.inTx w) (.saveEventsBatch args)) w1 with
      | (some e, w2) => (some (.wrap "failed to execute batch insert" e), events, w2)
      | (none, w2) =>
          if events.isEmpty then
            (some (.wrap "failed to execute batch insert" sqlSyntaxError), events, w2)
          else
            let res := insertOutboxRows w2.now args (w2.view (r.inTx w)) w2.outboxSeq
            (none, assignReturned events res.2.1,
             { (w2.write (r.inTx w) res.1) with outboxSeq := res.2.2 })

/-- The loop of `saveEventsBatchInChunks` from index `i`, with step
`m = maxBatchSize`; `fuel` bounds the number of iterations. -/
def OutboxRepo.chunkLoop (env : Env) (r : OutboxRepo) (m : Nat) :
    Nat → Nat → List OutboxEvent → World → Option Err × List OutboxEvent × World
  | 0, _, events, w => (some (.plain "out of fuel"), events, w)
  | fuel + 1, i, events, w =>
      if i < events.length then
        let stop := min (i + m) events.length
        let chunk := (events.drop i).take (stop - i)
        match r.saveEventsBatchSingle env chunk w with
        | (some err, chunk1, w1) =>
            (some (.wrap ("failed to save events batch chunk [" ++ toString i ++ ":" ++
                toString stop ++ "]") err),
             events.take i ++ chunk1 ++ events.drop stop, w1)
        | (none, chunk1, w1) =>
            r.chunkLoop env m fuel (i + m) (events.take i ++ chunk1 ++ events.drop stop) w1
      else (none, events, w)

/-- `saveEventsBatchInChunks`.  A negative `maxBatchSize` makes the first slice
expression `events[0:end]` panic. -/
def OutboxRepo.saveEventsBatchInChunks (env : Env) (r : OutboxRepo)
    (events : List OutboxEvent) (w : World) : Option Err × List OutboxEvent × World :=
  if r.maxBatchSize < 0 then
    (some (goPanic "runtime error: slice bounds out of range"), events, w)
  else r.chunkLoop env r.maxBatchSize.toNat (events.length + 1) 0 events w

/-- `SaveEventsBatch`. -/
def OutboxRepo.SaveEventsBatch (env : Env) (r : OutboxRepo) (events : List OutboxEvent)
    (w : World) : Option Err × List OutboxEvent × World :=
  if events.length = 0 then (none, events, w)
  else if (events.length : Int) > r.maxBatchSize then r.saveEventsBatchInChunks env events w
  else r.saveEventsBatchSingle env events w

/-- The rows `queryGetPendingEvents` selects: status `pending`, ordered by
`created_at`, the first `limit`. -/
def selectPending (t : Tables) (limit : Int) : List OutboxRow :=
  ((t.outbox.filter (fun x => x.status = OutboxStatusPending)).insertionSort
    (fun a b => a.createdAt ≤ b.createdAt)).take limit.toNat

/-- `GetPendingEvents`: `queryGetPendingEvents` with status `pending`, oldest
first, at most `limit` rows (the server rejects a negative `LIMIT`). -/
def OutboxRepo.GetPendingEvents (env : Env) (r : OutboxRepo) (limit : Int) (w : World) :
    Except Err (List OutboxEvent) × World :=
  match perform env (.sql (r.inTx w) (.getPendingEvents OutboxStatusPending limit)) w with
  | (some e, w1) => (.error (.wrap "failed to get pending events" e), w1)
  | (none, w1) =>
      if limit < 0 then
        (.error (.wrap "failed to get pending events" (.plain "pq: LIMIT must not be negative")),
         w1)
      else (.ok ((selectPending (w1.view (r.inTx w)) limit).map toPortsOutboxEvent), w1)

/-- `checkRowsAffected`. -/
def checkRowsAffected (rowsAffected : Nat) (eventID : Int) : Option Err :=
  if rowsAffected = 0 then
    some (.plain ("event with id " ++ toString eventID ++ " not found"))
  else none

/-- The effect of an `UPDATE outbox SET ... WHERE id = $id`: the number of
rows affected and the writes. -/
def updateOutboxWhereID (t : Tables) (id : Int) (f : OutboxRow → OutboxRow) :
    Nat × List Write :=
  let hit := t.outbox.filter (fun x => x.id = id)
  (hit.length, hit.map (fun x => .updateOutbox (f x)))

/-- `MarkAsPublished`: `queryMarkAsPublished`. -/
def OutboxRepo.MarkAsPublished (env : Env) (r : OutboxRepo) (eventID : Int) (w : World) :
    Option Err × World :=
  match perform env (.sql (r.inTx w) (.markAsPublished OutboxStatusPublished eventID))
      (note (.markAsPublished eventID) w) with
  | (some e, w1) => (some (.wrap "failed to mark event as published" e), w1)
  | (none, w1) =>
      let res := updateOutboxWhereID (w1.view (r.inTx w)) eventID
        (fun x => { x with status := OutboxStatusPublished, publishedAt := some w1.now })
      (checkRowsAffected res.1 eventID, w1.write (r.inTx w) res.2)

/-- `MarkAsFailed`: `queryMarkAsFailed`. -/
def OutboxRepo.MarkAsFailed (env : Env) (r : OutboxRepo) (eventID : Int) (retryCount : Int)
    (w : World) : Option Err × World :=
  match perform env (.sql (r.inTx w) (.markAsFailed OutboxStatusFailed retryCount eventID))
      (note (.markAsFailed eventID retryCount) w) with
  | (some e, w1) => (some (.wrap "failed to mark event as failed" e), w1)
  | (none, w1) =>
      let res := updateOutboxWhereID (w1.view (r.inTx w)) eventID
        (fun x => { x with status := OutboxStatusFailed, retryCount := retryCount })
      (checkRowsAffected res.1 eventID, w1.write (r.inTx w) res.2)

/-- `MoveToDLQ`: `queryMoveToDLQ` through `executeExec`, which prepares the
statement first when inside a transaction. -/
def OutboxRepo.MoveToDLQ (env : Env) (r : OutboxRepo) (eventID : Int) (reason : String)
    (w : World) : Option Err × World :=
  match prepareStatement env (r.inTx w) true (note (.moveToDLQ eventID reason) w) with
  | (some prepErr, w1) => (some (.wrap "failed to prepare statement" prepErr), w1)
  | (none, w1) =>
      match perform env (.sql (r.inTx w) (.moveToDLQ OutboxStatusDLQ eventID reason)) w1 with
      | (some e, w2) => (some (.wrap "failed to execute query" e), w2)
      | (none, w2) =>
          let res := updateOutboxWhereID (w2.view (r.inTx w)) eventID
            (fun x => { x with status := OutboxStatusDLQ, retryCount := x.retryCount + 1,
                               dlqReason := some reason })
          (checkRowsAffected res.1 eventID, w2.write (r.inTx w) res.2)

/-! ## Unit of work (`repository/unit_of_work.go`) -/

/-- A `postgresUnitOfWork`.  `metrics` is `u.metrics != nil`, `hasTx` is
`u.tx != nil`; `batchOutbox` says whether the outbox repository it hands out
implements `ports.BatchOutboxRepository` (true for the PostgreSQL one). -/
structure UnitOfWork where
  metrics : Bool
  batchOutbox : Bool
  inTransaction : Bool
  hasTx : Bool
  deriving DecidableEq, Repr

/-- `Begin`: a no-op when already active; otherwise `db.BeginTx`, then the
repositories are built and bound to the transaction. -/
def UnitOfWork.Begin (env : Env) (u : UnitOfWork) (w : World) :
    Option Err × UnitOfWork × World :=
  if u.inTransaction then (none, u, note .uowBegin w)
  else
    match perform env .sqlBeginTx (note .uowBegin w) with
    | (some e, w1) => (some e, u, w1)
    | (none, w1) =>
        (none, { u with inTransaction := true, hasTx := true }, { w1 with tx := some [] })

/-- `Commit`: a no-op when not active; otherwise `tx.Commit()`, after which
the unit of work is inactive and the repositories unbound, whatever the
outcome.  A commit that fails leaves nothing of the transaction behind. -/
def UnitOfWork.Commit (env : Env) (u : UnitOfWork) (w : World) :
    Option Err × UnitOfWork × World :=
  if !u.inTransaction then (none, u, note .uowCommit w)
  else if !u.hasTx then (none, u, note .uowCommit w)
  else
    match perform env .sqlCommit (note .uowCommit w) with
    | (some e, w1) =>
        (some e, { u with inTransaction := false, hasTx := false }, { w1 with tx := none })
    | (none, w1) =>
        (none, { u with inTransaction := false, hasTx := false },
         { w1 with db := w1.db.applyAll (w1.tx.getD []), tx := none })

/-- `Rollback`: a no-op when not active; otherwise `tx.Rollback()`. -/
def UnitOfWork.Rollback (env : Env) (u : UnitOfWork) (w : World) :
    Option Err × UnitOfWork × World :=
  if !u.inTransaction then (none, u, note .uowRollback w)
  else if !u.hasTx then (none, u, note .uowRollback w)
  else
    match perform env .sqlRollback (note .uowRollback w) with
    | (err, w1) =>
        (err, { u with inTransaction := false, hasTx := false }, { w1 with tx := none })

/-- `ProductRepository()` after `Begin`: with a metrics collector the
repository is wrapped in `MetricsProductRepositoryDecorator`, which
`SetTransaction` does not reach. -/
def UnitOfWork.ProductRepository (u : UnitOfWork) : ProductRepo :=
  { transactional := !u.metrics }

/-- `OutboxRepository()` after `Begin`: `NewPostgresOutboxRepository`. -/
def UnitOfWork.OutboxRepository (u : UnitOfWork) : OutboxRepo :=
  { transactional := true, maxBatchSize := DefaultMaxBatchSize, batch := u.batchOutbox }

/-- A `ports.UoWFactory`. -/
structure UoWFactory where
  metrics : Bool
  batchOutbox : Bool
  deriving DecidableEq, Repr

/-- `CreateUnitOfWork()`. -/
def UoWFactory.CreateUnitOfWork (f : UoWFactory) : UnitOfWork :=
  { metrics := f.metrics, batchOutbox := f.batchOutbox, inTransaction := false, hasTx := false }

/-- The factory that `bootstrap` wires: `repository.NewUoWFactory` with the
Prometheus metrics collector. -/
def UoWFactory.production : UoWFactory := { metrics := true, batchOutbox := true }

/-! ## Retry engine (`infrastructure/retry/retry.go`) -/

/-- `retry.Config` (equally `ports.RetryConfig`). -/
structure Config where
  MaxAttempts : Int
  BaseBackoff : Int
  MaxBackoff : Int
  InitialDelay : Int
  deriving DecidableEq, Repr

/-- One millisecond as a `time.Duration`. -/
def millisecond : Int := 1000000

/-- One second as a `time.Duration`. -/
def second : Int := 1000000000

/-- The conversion `uint(x)` of an `int`. -/
def toUint (x : Int) : Nat := (x % 2 ^ 64).toNat

/-- The expression `time.Duration(1 << s)` for a shift count `s`. -/
def shl1 (s : Nat) : Int := if s < 64 then wrapInt64 (2 ^ s) else 0

/-- `calculateBackoff`. -/
def calculateBackoff (cfg : Config) (attempt : Int) : Int :=
  if attempt = 0 then cfg.InitialDelay
  else
    let delay := wrapInt64 (cfg.BaseBackoff * shl1 (toUint (wrapInt64 (attempt - 1))))
    if delay > cfg.MaxBackoff then cfg.MaxBackoff else delay

/-- The error `Do` returns after the loop:
`fmt.Errorf("failed after %d attempts: %w", cfg.MaxAttempts, lastErr)`. -/
def doExhausted (cfg : Config) (lastErr : Option Err) : Err :=
  match lastErr with
  | some e => .wrap ("failed after " ++ toString cfg.MaxAttempts ++ " attempts") e
  | none => .plain ("failed after " ++ toString cfg.MaxAttempts ++ " attempts: %!w(<nil>)")

/-- The loop of `Do`.  `remaining` is the number of values of `attempt` still
below `cfg.MaxAttempts`; `k` is the state the closure `fn` captures. -/
def Do.loop {κ : Type} (ctx : Context) (cfg : Config)
    (fn : κ → World → Option Err × κ × World) :
    Nat → Int → Option Err → κ → World → Option Err × κ × World
  | 0, _, lastErr, k, w => (some (doExhausted cfg lastErr), k, w)
  | remaining + 1, attempt, _, k, w =>
      match ctx.Err w.now with
      | some ce => (some ce, k, w)
      | none =>
          match fn k w with
          | (none, k1, w1) => (none, k1, w1)
          | (some err, k1, w1) =>
              if attempt = cfg.MaxAttempts - 1 then (some (doExhausted cfg (some err)), k1, w1)
              else
                match sleepOrDone ctx (calculateBackoff cfg attempt) w1 with
                | (true, w2) => (some ctx.err, k1, w2)
                | (false, w2) => Do.loop ctx cfg fn remaining (attempt + 1) (some err) k1 w2

/-- `retry.Do(ctx, cfg, fn)` (and `RetryAdapter.Do`, which forwards to it). -/
def Do {κ : Type} (ctx : Context) (cfg : Config) (fn : κ → World → Option Err × κ × World)
    (k : κ) (w : World) : Option Err × κ × World :=
  Do.loop ctx cfg fn cfg.MaxAttempts.toNat 0 none k w

/-- `DefaultConfig()`. -/
def DefaultConfig : Config :=
  { MaxAttempts := 5, BaseBackoff := 1 * second, MaxBackoff := 30 * second,
    InitialDelay := 100 * millisecond }

/-! ## Transactional event publisher
(`infrastructure/messaging/transactional_event_publisher.go`) -/

/-- The zero `time.Time` (1 January of the year 1). -/
def zeroTime : Int := -62135596800 * 1000000000

/-- One digit of `hex.EncodeToString`. -/
def hexDigit (n : Nat) : Char := "0123456789abcdef".toList.getD n '0'

/-- The characters of `hex.EncodeToString(bytes)`. -/
def hexChars : List Nat → List Char
  | [] => []
  | b :: bs => hexDigit (b % 256 / 16) :: hexDigit (b % 16) :: hexChars bs

/-- `hex.EncodeToString`. -/
def hexEncodeToString (bytes : List Nat) : String := String.mk (hexChars bytes)

/-- `generateIdempotencyKey`: 16 bytes of `crypto/rand`, in hexadecimal. -/
def generateIdempotencyKey (env : Env) (w : World) : Except Err String × World :=
  match perform env (.randRead 16) w with
  | (some e, w1) => (.error (.wrap "failed to generate random bytes" e), w1)
  | (none, w1) =>
      (.ok (hexEncodeToString ((List.range 16).map (fun i => env.random w1.trace i % 256))), w1)

/-- `PublishDomainEventWithIdempotencyKey`. -/
def PublishDomainEventWithIdempotencyKey (env : Env) (event : DomainEvent)
    (idempotencyKey : String) (outboxRepo : OutboxRepo) (w : World) : Option Err × World :=
  match event.MarshalJSON with
  | .error err => (some (.wrap "failed to marshal event data" err), w)
  | .ok eventDataJSON =>
      let gen : Except Err String × World :=
        if idempotencyKey = "" then generateIdempotencyKey env w else (.ok idempotencyKey, w)
      match gen with
      | (.error err, w1) => (some (.wrap "failed to generate idempotency key" err), w1)
      | (.ok key, w1) =>
          let outboxEvent : OutboxEvent :=
            { ID := 0, EventType := event.EventType, EventData := some eventDataJSON,
              IdempotencyKey := key, CreatedAt := zeroTime, PublishedAt := none,
              RetryCount := 0, Status := OutboxStatusPending }
          match outboxRepo.SaveEvent env outboxEvent w1 with
          | (some err, _, w2) => (some err, w2)
          | (none, _, w2) => (none, w2)

/-! ## Application service (`application/product_service.go`) -/

/-- The struct `ProductService`: `retrier` is `s.retrier != nil` (the
`RetryAdapter`, which forwards to `retry.Do`). -/
structure ProductService where
  uowFactory : UoWFactory
  retrier : Bool
  retryConfig : Config
  deriving DecidableEq, Repr

/-- `NewProductService`: the retry configuration is fixed here. -/
def NewProductService (uowFactory : UoWFactory) (retrier : Bool) : ProductService :=
  { uowFactory := uowFactory, retrier := retrier,
    retryConfig := { MaxAttempts := 3, BaseBackoff := 100 * millisecond,
                     MaxBackoff := 1 * second, InitialDelay := 50 * millisecond } }

/-- The deferred function of the branch without retrier.  It reads
`originalErr` and never assigns it. -/
def deferredPlain (env : Env) (uow : UnitOfWork) (originalErr : Option Err) (w : World) :
    World :=
  match originalErr with
  | some _ => (uow.Rollback env w).2.2
  | none =>
      match uow.Commit env w with
      | (some _, uow1, w1) => (uow1.Rollback env w1).2.2
      | (none, _, w1) => w1

/-- The deferred function of the retried closure.  On a failed commit it
assigns the local variable `originalErr`; the first component is the value of
that variable when the deferred function ends. -/
def deferredRetry (env : Env) (uow : UnitOfWork) (originalErr : Option Err) (w : World) :
    Option Err × World :=
  match originalErr with
  | some _ => (originalErr, (uow.Rollback env w).2.2)
  | none =>
      match uow.Commit env w with
      | (some commitErr, uow1, w1) =>
          (some (.wrap "failed to commit transaction" commitErr), (uow1.Rollback env w1).2.2)
      | (none, _, w1) => (none, w1)

/-- The variables the retried closure captures: `lastErr`, `retryAttempts` of
`ExecuteInTransaction` and the state `user` that `fn` itself captures. -/
structure RetryVars (κ : Type) where
  lastErr : Option Err
  retryAttempts : Int
  user : κ

/-- The closure handed to `s.retrier.Do`.  Its result is unnamed, so
`return originalErr` fixes the returned value before the deferred function
runs: what the deferred function assigns to `originalErr` is lost. -/
def ProductService.attempt {κ : Type} (env : Env) (s : ProductService)
    (fn : UnitOfWork → κ → World → Option Err × κ × World) (v : RetryVars κ) (w : World) :
    Option Err × RetryVars κ × World :=
  match s.uowFactory.CreateUnitOfWork.Begin env w with
  | (some err, _, w1) =>
      (some (.wrap "failed to start transaction" err),
       { v with retryAttempts := v.retryAttempts + 1 }, w1)
  | (none, uow, w1) =>
      match fn uow v.user w1 with
      | (originalErr, k, w2) =>
          (originalErr,
           { lastErr := originalErr, retryAttempts := v.retryAttempts + 1, user := k },
           (deferredRetry env uow originalErr w2).2)

/-- `ExecuteInTransaction(ctx, fn)`; `k` is the state that `fn` captures. -/
def ProductService.ExecuteInTransaction {κ : Type} (env : Env) (s : ProductService)
    (ctx : Context) (fn : UnitOfWork → κ → World → Option Err × κ × World) (k : κ)
    (w : World) : Option Err × κ × World :=
  if !s.retrier then
    match s.uowFactory.CreateUnitOfWork.Begin env w with
    | (some err, _, w1) => (some (.wrap "failed to start transaction" err), k, w1)
    | (none, uow, w1) =>
        match fn uow k w1 with
        | (originalErr, k1, w2) => (originalErr, k1, deferredPlain env uow originalErr w2)
  else
    match Do ctx s.retryConfig (s.attempt env fn)
        { lastErr := none, retryAttempts := 0, user := k } w with
    | (some _, v, w1) =>
        (some (NewRetryExhaustedError s.retryConfig.MaxAttempts v.lastErr), v.user, w1)
    | (none, v, w1) => (none, v.user, w1)

/-- The loop of the batch branch of `publishDomainEventsBatch` that builds the
outbox events: the idempotency key is copied as it is. -/
def buildOutboxEvents (idempotencyKey : String) :
    List DomainEvent → Except Err (List OutboxEvent)
  | [] => .ok []
  | event :: rest =>
      match event.MarshalJSON with
      | .error err => .error err
      | .ok eventDataJSON =>
          match buildOutboxEvents idempotencyKey rest with
          | .error err => .error err
          | .ok outboxEvents =>
              .ok ({ ID := 0, EventType := event.EventType, EventData := some eventDataJSON,
                     IdempotencyKey := idempotencyKey, CreatedAt := zeroTime,
                     PublishedAt := none, RetryCount := 0,
                     Status := OutboxStatusPending } :: outboxEvents)

/-- The loop of the per-event branch of `publishDomainEventsBatch`. -/
def publishEach (env : Env) (idempotencyKey : String) (outboxRepo : OutboxRepo) :
    List DomainEvent → World → Option Err × World
  | [], w => (none, w)
  | event :: rest, w =>
      match PublishDomainEventWithIdempotencyKey env event idempotencyKey outboxRepo w with
      | (some err, w1) => (some (NewEventPublishError 0 event.EventType err), w1)
      | (none, w1) => publishEach env idempotencyKey outboxRepo rest w1

/-- `publishDomainEventsBatch`. -/
def publishDomainEventsBatch (env : Env) (events : List DomainEvent) (idempotencyKey : String)
    (outboxRepo : OutboxRepo) (w : World) : Option Err × World :=
  if outboxRepo.batch then
    match buildOutboxEvents idempotencyKey events with
    | .error err => (some (.wrap "failed to marshal event data" err), w)
    | .ok outboxEvents =>
        match outboxRepo.SaveEventsBatch env outboxEvents w with
        | (err, _, w1) => (err, w1)
  else publishEach env idempotencyKey outboxRepo events w

/-- The error returned when `publishDomainEventsBatch` fails. -/
def publishFailure (productID : Int) (events : List DomainEvent) (err : Err) : Err :=
  match events with
  | first :: _ => NewEventPublishError productID first.EventType err
  | [] => NewTransactionError "publish events" err

/-- The closure of `CreateProductWithEvent`; the captured state is the
product the pointer refers to. -/
def createFn (env : Env) (idempotencyKey : String) (uow : UnitOfWork) (product : Product)
    (w : World) : Option Err × Product × World :=
  match uow.ProductRepository.Create env product w with
  | (some err, product1, w1) => (some (NewTransactionError "create product" err), product1, w1)
  | (none, product1, w1) =>
      let product2 := product1.RecordCreatedEvent w1.now
      let events := product2.DomainEvents
      if events.length = 0 then (some (.plain "no domain events found in product"), product2, w1)
      else
        match publishDomainEventsBatch env events idempotencyKey uow.OutboxRepository w1 with
        | (some err, w2) => (some (publishFailure product2.ID events err), product2, w2)
        | (none, w2) => (none, product2.ClearDomainEvents, w2)

/-- `CreateProductWithEvent(ctx, product, idempotencyKey)`. -/
def ProductService.CreateProductWithEvent (env : Env) (s : ProductService) (ctx : Context)
    (product : Product) (idempotencyKey : String) (w : World) : Option Err × Product × World :=
  s.ExecuteInTransaction env ctx (createFn env idempotencyKey) product w

/-- The closure of `DeleteProductWithEvent`. -/
def deleteFn (env : Env) (idempotencyKey : String) (uow : UnitOfWork) (product : Product)
    (w : World) : Option Err × Product × World :=
  match uow.ProductRepository.Delete env product.ID w with
  | (some err, w1) =>
      if errorsIs err ErrProductNotFound then
        (some (.wrap "product not found" ErrProductNotFound), product, w1)
      else (some (NewTransactionError "delete product" err), product, w1)
  | (none, w1) =>
      let events := product.DomainEvents
      if events.length = 0 then
        (some (.plain ("no domain events found in product - " ++
          "event should be recorded in Use Case layer")), product, w1)
      else
        match publishDomainEventsBatch env events idempotencyKey uow.OutboxRepository w1 with
        | (some err, w2) => (some (publishFailure product.ID events err), product, w2)
        | (none, w2) => (none, product.ClearDomainEvents, w2)

/-- `DeleteProductWithEvent(ctx, product, idempotencyKey)`. -/
def ProductService.DeleteProductWithEvent (env : Env) (s : ProductService) (ctx : Context)
    (product : Product) (idempotencyKey : String) (w : World) : Option Err × Product × World :=
  s.ExecuteInTransaction env ctx (deleteFn env idempotencyKey) product w

/-! ## Use case (`usecase/product_usecase.go`) -/

/-- `productDomainService.CanDeleteProduct`; `none` is the nil pointer. -/
def CanDeleteProduct (product : Option Product) : Option Err :=
  match product with
  | none => some (.plain "product is nil")
  | some _ => none

/-- The struct `productUseCase` with its two ports: `GetByID` is
`uc.repo.GetByID`, `appDelete` is `uc.appService.DeleteProductWithEvent`. -/
structure ProductUseCase where
  GetByID : Int → World → Option Product × Option Err × World
  appDelete : Product → String → World → Option Err × World

/-- `DeleteProduct(ctx, id, idempotencyKey)`.  The call of the application
service is recorded in the trace. -/
def ProductUseCase.DeleteProduct (uc : ProductUseCase) (id : Int) (idempotencyKey : String)
    (w : World) : Option Err × World :=
  if id ≤ 0 then (some (.wrap "invalid product id" ErrInvalidInput), w)
  else
    match uc.GetByID id w with
    | (_, some err, w1) =>
        if errorsIs err ErrProductNotFound then
          (some (.wrap "product not found" ErrProductNotFound), w1)
        else (some (.wrap "failed to get product" err), w1)
    | (product, none, w1) =>
        match CanDeleteProduct product, product with
        | some err, _ => (some (.wrap "cannot delete product" err), w1)
        | none, none => (some (goPanic "nil pointer dereference"), w1)
        | none, some p =>
            let p1 := p.RecordDeleteEvent w1.now
            match uc.appDelete p1 idempotencyKey
                (note (.appDeleteProductWithEvent p1.ID idempotencyKey) w1) with
            | (some err, w2) => (some (.wrap "failed to delete product" err), w2)
            | (none, w2) => (none, w2)

/-! ## Outbox dispatcher (`infrastructure/messaging/outbox_worker.go`) -/

/-- `events.EventTypeProductCreated`. -/
def EventTypeProductCreated : String := "PRODUCT_CREATED"

/-- `events.EventTypeProductDeleted`. -/
def EventTypeProductDeleted : String := "PRODUCT_DELETED"

/-- The struct `OutboxWorker`.  `AdaptEvent` is the `eventAdapter` field: from
the outbox event and the current instant to `(eventType, productID, timestamp)`
or an error. -/
structure OutboxWorker where
  outboxRepo : OutboxRepo
  AdaptEvent : OutboxEvent → Int → Except Err (String × Int × Int)
  batchSize : Int
  maxRetries : Int
  baseBackoff : Int
  maxBackoff : Int

/-- `publishEvent`: adapt, then hand to the publisher by event type.  A
non-zero timestamp travels to the publisher in the context. -/
def OutboxWorker.publishEvent (env : Env) (wk : OutboxWorker) (event : OutboxEvent)
    (w : World) : Option Err × World :=
  match wk.AdaptEvent event w.now with
  | .error err => (some (.wrap "failed to adapt event" err), note (.adaptEvent event.ID) w)
  | .ok (eventType, productID, timestamp) =>
      let ts : Option Int := if timestamp = zeroTime then none else some timestamp
      if eventType = EventTypeProductCreated then
        perform env (.publishProductCreated productID ts) (note (.adaptEvent event.ID) w)
      else if eventType = EventTypeProductDeleted then
        perform env (.publishProductDeleted productID ts) (note (.adaptEvent event.ID) w)
      else (some (.plain ("unknown event type: " ++ eventType)), note (.adaptEvent event.ID) w)

/-- The error `publishEventWithRetry` returns after its loop. -/
def publishExhausted (maxRetries : Int) (lastErr : Option Err) : Err :=
  match lastErr with
  | some e => .wrap ("failed after " ++ toString (wrapInt64 (maxRetries + 1)) ++ " attempts") e
  | none =>
      .plain ("failed after " ++ toString (wrapInt64 (maxRetries + 1)) ++
        " attempts: %!w(<nil>)")

/-- The backoff `publishEventWithRetry` sleeps before attempt `attempt > 0`. -/
def OutboxWorker.backoff (wk : OutboxWorker) (attempt : Int) : Int :=
  let backoff := wrapInt64 (wk.baseBackoff * shl1 (toUint (wrapInt64 (attempt - 1))))
  if backoff > wk.maxBackoff then wk.maxBackoff else backoff

/-- The loop of `publishEventWithRetry`; `remaining` is the number of values
of `attempt` still at most `maxRetries`. -/
def OutboxWorker.retryLoop (env : Env) (wk : OutboxWorker) (ctx : Context)
    (event : OutboxEvent) : Nat → Int → Option Err → World → Option Err × World
  | 0, _, lastErr, w => (some (publishExhausted wk.maxRetries lastErr), w)
  | remaining + 1, attempt, _, w =>
      match (if attempt > 0 then sleepOrDone ctx (wk.backoff attempt) w else (false, w)) with
      | (true, w1) => (some ctx.err, w1)
      | (false, w1) =>
          match wk.publishEvent env event w1 with
          | (none, w2) => (none, w2)
          | (some err, w2) => wk.retryLoop env ctx event remaining (attempt + 1) (some err) w2

/-- `publishEventWithRetry`. -/
def OutboxWorker.publishEventWithRetry (env : Env) (wk : OutboxWorker) (ctx : Context)
    (event : OutboxEvent) (w : World) : Option Err × World :=
  wk.retryLoop env ctx event (wk.maxRetries + 1).toNat 0 none w

/-- `markEventAsFailed`: the error of the store is logged only. -/
def OutboxWorker.markEventAsFailed (env : Env) (wk : OutboxWorker) (eventID : Int)
    (retryCount : Int) (w : World) : World :=
  (wk.outboxRepo.MarkAsFailed env eventID retryCount w).2

/-- `markEventAsPublished`. -/
def OutboxWorker.markEventAsPublished (env : Env) (wk : OutboxWorker) (event : OutboxEvent)
    (w : World) : Option Err × World :=
  wk.outboxRepo.MarkAsPublished env event.ID w

/-- The reason `handlePublishFailure` gives to `MoveToDLQ`. -/
def dlqReason (retryCount : Int) (publishErr : Err) : String :=
  "Failed after " ++ toString retryCount ++ " retry attempts: " ++ publishErr.Error

/-- `handlePublishFailure`. -/
def OutboxWorker.handlePublishFailure (env : Env) (wk : OutboxWorker) (event : OutboxEvent)
    (publishErr : Err) (w : World) : World :=
  let retryCount := wrapInt64 (event.RetryCount + 1)
  if retryCount > wk.maxRetries then
    match wk.outboxRepo.MoveToDLQ env event.ID (dlqReason retryCount publishErr) w with
    | (some _, w1) => wk.markEventAsFailed env event.ID retryCount w1
    | (none, w1) => w1
  else wk.markEventAsFailed env event.ID retryCount w

/-- `processEvent`. -/
def OutboxWorker.processEvent (env : Env) (wk : OutboxWorker) (ctx : Context)
    (event : OutboxEvent) (w : World) : World :=
  match ctx.Err w.now with
  | some _ => w
  | none =>
      match wk.publishEventWithRetry env ctx event w with
      | (some err, w1) =>
          match ctx.Err w1.now with
          | some _ => w1
          | none => wk.handlePublishFailure env event err w1
      | (none, w1) =>
          match ctx.Err w1.now with
          | some _ => w1
          | none => (wk.markEventAsPublished env event w1).2

/-- The tasks that `processPendingEvents` launches, in one schedule: each task
runs to its end when it is launched.  No task is launched once the context
is cancelled. -/
def OutboxWorker.processAll (env : Env) (wk : OutboxWorker) (ctx : Context) :
    List OutboxEvent → World → World
  | [], w => w
  | event :: rest, w =>
      match ctx.Err w.now with
      | some _ => w
      | none => wk.processAll env ctx rest (wk.processEvent env ctx event w)

/-- `processPendingEvents`: one poll cycle. -/
def OutboxWorker.processPendingEvents (env : Env) (wk : OutboxWorker) (ctx : Context)
    (w : World) : World :=
  match wk.outboxRepo.GetPendingEvents env wk.batchSize w with
  | (.error _, w1) => w1
  | (.ok events, w1) => if events.length = 0 then w1 else wk.processAll env ctx events w1

/-- The first `n` ticks of `run`: `n` successive poll cycles. -/
def OutboxWorker.cycles (env : Env) (wk : OutboxWorker) (ctx : Context) : Nat → World → World
  | 0, w => w
  | n + 1, w => wk.cycles env ctx n (wk.processPendingEvents env ctx w)

/-! ## Decoding of event payloads (`encoding/json`, `time`)

Payloads are flat JSON objects whose values are integers and strings.  A string
that is an RFC 3339 time is the scalar `.time`, any other string is `.str`. -/

/-- Two digits, with a leading zero. -/
def twoDigits (n : Nat) : String :=
  if n < 10 then "0" ++ toString n else toString n

/-- Year, month and day of the day number `z` (days since 1 January 1970) in
the proleptic Gregorian calendar. -/
def civilFromDays (z : Int) : Int × Int × Int :=
  let z1 := z + 719468
  let era := z1 / 146097
  let doe := z1 - era * 146097
  let yoe := (doe - doe / 1460 + doe / 36524 - doe / 146096) / 365
  let doy := doe - (365 * yoe + yoe / 4 - yoe / 100)
  let mp := (5 * doy + 2) / 153
  let d := doy - (153 * mp + 2) / 5 + 1
  let m := if mp < 10 then mp + 3 else mp - 9
  (if m ≤ 2 then yoe + era * 400 + 1 else yoe + era * 400, m, d)

/-- The fraction of a second as `time.RFC3339Nano` writes it: nothing for 0,
otherwise a point and the nine digits without their trailing zeros. -/
def fractionText (nanos : Nat) : String :=
  if nanos = 0 then ""
  else
    let digits := (toString (1000000000 + nanos)).toList.drop 1
    "." ++ String.mk (digits.reverse.dropWhile (fun c => c = '0')).reverse

/-- The text `time.Time.MarshalJSON` writes for the instant `t` (nanoseconds
since 1 January 1970) in UTC, for the years 0 to 9999. -/
def timeText (t : Int) : String :=
  let secs := t / 1000000000
  let days := secs / 86400
  let rem := (secs % 86400).toNat
  let ymd := civilFromDays days
  let year := ymd.1.toNat
  (if year < 10 then "000" else if year < 100 then "00" else if year < 1000 then "0" else "")
    ++ toString year ++ "-" ++ twoDigits ymd.2.1.toNat ++ "-" ++ twoDigits ymd.2.2.toNat ++ "T"
    ++ twoDigits (rem / 3600) ++ ":" ++ twoDigits (rem % 3600 / 60) ++ ":" ++ twoDigits (rem % 60)
    ++ fractionText (t % 1000000000).toNat ++ "Z"

/-- The fold of one character of a key: `encoding/json` matches a key with a
field name up to Unicode simple case folding, under which the letters of the
three field names are equal to their capitals, and `s` and `k` also to U+017F
and U+212A. -/
def foldKeyChar (c : Char) : Char :=
  if c.toNat = 0x17F then 's'
  else if c.toNat = 0x212A then 'k'
  else if 65 ≤ c.toNat ∧ c.toNat ≤ 90 then Char.ofNat (c.toNat + 32)
  else c

/-- The key `key` of an object selects the struct field with the (lower-case)
JSON name `field`. -/
def keyIs (key field : String) : Bool :=
  key.toList.map foldKeyChar = field.toList

/-- The three fields of `events.InfrastructureEvent`, of `domain.ProductEvent`
of the consumer and of the anonymous struct of `domainEventAdapter`; `Type_` is
the field `Type`. -/
structure EventFields where
  Type_ : String
  ProductID : Int
  Timestamp : Int
  deriving DecidableEq, Repr

/-- The zero value of the struct. -/
def EventFields.zero : EventFields := { Type_ := "", ProductID := 0, Timestamp := zeroTime }

/-- `json.Unmarshal` stores one member of the object: a key that selects no
field is skipped, a value of the wrong JSON type is an error. -/
def setField (s : EventFields) (key : String) (v : JsonScalar) : Except Err EventFields :=
  if keyIs key "type" then
    match v with
    | .str text => .ok { s with Type_ := text }
    | .time t => .ok { s with Type_ := timeText t }
    | .num _ => .error (.plain "json: cannot unmarshal number into Go struct field type of type string")
  else if keyIs key "product_id" then
    match v with
    | .num n =>
        if -(2 ^ 63) ≤ n ∧ n < 2 ^ 63 then .ok { s with ProductID := n }
        else .error (.plain "json: cannot unmarshal number into Go struct field product_id of type int")
    | _ => .error (.plain "json: cannot unmarshal string into Go struct field product_id of type int")
  else if keyIs key "timestamp" then
    match v with
    | .time t => .ok { s with Timestamp := t }
    | .str _ => .error (.plain "parsing time: cannot parse as RFC 3339")
    | .num _ => .error (.plain "Time.UnmarshalJSON: input is not a JSON string")
  else .ok s

/-- The members of an object, stored in their order: a later member with the
same key overwrites; the first error is the error of the whole. -/
def setFields : EventFields → JsonObject → Except Err EventFields
  | s, [] => .ok s
  | s, (key, v) :: rest =>
      match setField s key v with
      | .error err => .error err
      | .ok s1 => setFields s1 rest

/-- `json.Unmarshal(data, &v)` into a zero struct with the three fields;
`data` is `none` for the nil slice. -/
def unmarshalEventFields (data : Option JsonObject) : Except Err EventFields :=
  match data with
  | none => .error (.plain "unexpected end of JSON input")
  | some obj => setFields EventFields.zero obj

/-! ## Event adapters (`infrastructure/messaging/event_adapter.go`) -/

/-- `domainEventAdapter.AdaptEvent`; `now` is what `time.Now()` returns. -/
def domainAdaptEvent (outboxEvent : OutboxEvent) (now : Int) :
    Except Err (String × Int × Int) :=
  match unmarshalEventFields outboxEvent.EventData with
  | .error err => .error (.wrap "failed to unmarshal domain event" err)
  | .ok eventData =>
      if eventData.Type_ = "" then .error (.plain "missing event type in domain event")
      else if (eventData.Type_ = "PRODUCT_CREATED" ∨ eventData.Type_ = "PRODUCT_DELETED") ∧
          eventData.ProductID = 0 then
        .error (.plain "missing product_id in product event")
      else
        .ok (eventData.Type_, eventData.ProductID,
             if eventData.Timestamp = zeroTime then now else eventData.Timestamp)

/-- `infrastructureEventAdapter.AdaptEvent`. -/
def infrastructureAdaptEvent (outboxEvent : OutboxEvent) (now : Int) :
    Except Err (String × Int × Int) :=
  match unmarshalEventFields outboxEvent.EventData with
  | .error err => .error (.wrap "failed to unmarshal infrastructure event" err)
  | .ok infraEvent =>
      .ok (infraEvent.Type_, infraEvent.ProductID,
           if infraEvent.Timestamp = zeroTime then now else infraEvent.Timestamp)

/-- `smartEventAdapter.AdaptEvent`: the payload is first read as an
`InfrastructureEvent`, and returned as such when it has a type; only otherwise
is it handed to the domain adapter. -/
def smartAdaptEvent (outboxEvent : OutboxEvent) (now : Int) :
    Except Err (String × Int × Int) :=
  match unmarshalEventFields outboxEvent.EventData with
  | .ok infraEvent =>
      if infraEvent.Type_ ≠ "" then
        .ok (infraEvent.Type_, infraEvent.ProductID,
             if infraEvent.Timestamp = zeroTime then now else infraEvent.Timestamp)
      else domainAdaptEvent outboxEvent now
  | .error _ => domainAdaptEvent outboxEvent now

/-- `NewOutboxWorker`: the event adapter is `NewSmartEventAdapter()`. -/
def NewOutboxWorker (outboxRepo : OutboxRepo) (batchSize maxRetries baseBackoff maxBackoff : Int) :
    OutboxWorker :=
  { outboxRepo := outboxRepo, AdaptEvent := smartAdaptEvent, batchSize := batchSize,
    maxRetries := maxRetries, baseBackoff := baseBackoff, maxBackoff := maxBackoff }

/-! ## Value objects and the product factory (`domain/value_objects.go`,
`domain/product.go`) -/

/-- The package-level value `domain.ErrInvalidProductName`. -/
def ErrInvalidProductName : Err := .sentinel "product name cannot be empty"

/-- The package-level value `domain.ErrInvalidProductPrice`. -/
def ErrInvalidProductPrice : Err := .sentinel "product price must be greater than zero"

/-- `unicode.IsSpace`. -/
def unicodeIsSpace (c : Char) : Bool :=
  (9 ≤ c.toNat ∧ c.toNat ≤ 13) ∨ c.toNat = 0x20 ∨ c.toNat = 0x85 ∨ c.toNat = 0xA0 ∨
  c.toNat = 0x1680 ∨ (0x2000 ≤ c.toNat ∧ c.toNat ≤ 0x200A) ∨ c.toNat = 0x2028 ∨
  c.toNat = 0x2029 ∨ c.toNat = 0x202F ∨ c.toNat = 0x205F ∨ c.toNat = 0x3000

/-- `strings.TrimSpace`. -/
def TrimSpace (s : String) : String :=
  String.mk ((s.toList.dropWhile unicodeIsSpace).reverse.dropWhile unicodeIsSpace).reverse

/-- The built-in `len` of a Go string: its number of bytes in UTF-8. -/
def len (s : String) : Nat := s.utf8ByteSize

/-- `NewProductName`; the result is the value of the `ProductName`. -/
def NewProductName (name : String) : Except Err String :=
  if TrimSpace name = "" then .error ErrInvalidProductName
  else if len (TrimSpace name) > 255 then
    .error (.plain "product name cannot exceed 255 characters")
  else .ok (TrimSpace name)

/-- The comparison `x <= y` of two `float64`: false when either is NaN. -/
def Float64.le : Float64 → Float64 → Bool
  | .nan, _ => false
  | _, .nan => false
  | .negInf, _ => true
  | _, .posInf => true
  | .finite a, .finite b => decide (a ≤ b)
  | .posInf, _ => false
  | .finite _, .negInf => false

/-- The comparison `x > y` of two `float64`: false when either is NaN. -/
def Float64.gt : Float64 → Float64 → Bool
  | .nan, _ => false
  | _, .nan => false
  | .negInf, _ => false
  | _, .posInf => false
  | .finite a, .finite b => decide (a > b)
  | .posInf, _ => true
  | .finite _, .negInf => true

/-- `NewPrice`; the result is the value of the `Price`. -/
def NewPrice (price : Float64) : Except Err Float64 :=
  if price.le (.finite 0) then .error ErrInvalidProductPrice
  else if price.gt (.finite 1000000000000000) then
    .error (.plain "product price cannot exceed 1e15")
  else .ok price

/-- `domain.NewProduct(name, price)`, with `time.Now()` given. -/
def NewProduct (name : String) (price : Float64) (now : Int) : Except Err Product :=
  match NewProductName name with
  | .error err => .error err
  | .ok productName =>
      match NewPrice price with
      | .error err => .error err
      | .ok productPrice =>
          .ok { ID := 0, Name := productName, Price := productPrice, CreatedAt := now,
                domainEvents := [] }

/-! ## Creation of a product (`usecase/product_usecase.go`,
`handler/http_handler.go`, `handler/validator.go`, `handler/error_mapper.go`) -/

/-- `productUseCase.CreateProduct` over the application service `appService`.
The domain service is built without a validator (`NewProductDomainService(nil)`),
so `ValidateProductForCreation` returns nil. -/
def CreateProduct (env : Env) (appService : ProductService) (ctx : Context) (name : String)
    (price : Float64) (idempotencyKey : String) (w : World) :
    Option Product × Option Err × World :=
  match NewProduct name price w.now with
  | .error err => (none, some (.wrap "failed to create product" err), w)
  | .ok product =>
      match appService.CreateProductWithEvent env ctx product idempotencyKey w with
      | (some err, _, w1) => (none, some (.wrap "failed to create product" err), w1)
      | (none, product1, w1) => (some product1, none, w1)

/-- The struct `dto.CreateProductRequest` after `json.Decode`. -/
structure CreateProductRequest where
  Name : String
  Price : Float64
  deriving DecidableEq, Repr

/-- `ValidateCreateProductRequest`. -/
def ValidateCreateProductRequest (req : CreateProductRequest) : Option Err :=
  if req.Name = "" then some (.plain "name is required")
  else if req.Price.le (.finite 0) then some (.plain "price must be greater than zero")
  else none

/-- The test `s[i:i+len(substr)] == substr` at the start of `s`. -/
def startsWith : List Char → List Char → Bool
  | _, [] => true
  | [], _ :: _ => false
  | c :: cs, d :: ds => c = d && startsWith cs ds

/-- The inner loop of `containsAny`: `substr` occurs in `s`. -/
def occursIn (substr : List Char) : List Char → Bool
  | [] => startsWith [] substr
  | c :: cs => startsWith (c :: cs) substr || occursIn substr cs

/-- `containsAny`. -/
def containsAny (s : String) (substrings : List String) : Bool :=
  substrings.any (fun substr => occursIn substr.toList s.toList)

/-- The value `sql.ErrConnDone`. -/
def sqlErrConnDone : Err := .sentinel "sql: connection is already closed"

/-- The value `sql.ErrTxDone`. -/
def sqlErrTxDone : Err := .sentinel "sql: transaction has already been committed or rolled back"

/-- `http.StatusBadRequest` and the other status codes the handler writes. -/
def StatusBadRequest : Nat := 400

/-- See `StatusBadRequest`. -/
def StatusNotFound : Nat := 404

/-- See `StatusBadRequest`. -/
def StatusRequestTimeout : Nat := 408

/-- See `StatusBadRequest`. -/
def StatusInternalServerError : Nat := 500

/-- See `StatusBadRequest`. -/
def StatusCreated : Nat := 201

/-- `ErrorMapper.MapToHTTPError(w, err, ctx)` for a non-nil `err`: the status
written and the `code` of the response; `now` is the instant of the call. -/
def MapToHTTPError (err : Err) (ctx : Context) (now : Int) : Nat × String :=
  if ctx.Err now = some ctxDeadlineExceeded then (StatusRequestTimeout, "TIMEOUT")
  else if ctx.Err now = some ctxCanceled then (StatusRequestTimeout, "CANCELED")
  else if errorsIs err ErrProductNotFound then (StatusNotFound, "PRODUCT_NOT_FOUND")
  else if errorsIs err ErrInvalidProductName then (StatusBadRequest, "INVALID_PRODUCT_NAME")
  else if errorsIs err ErrInvalidProductPrice then (StatusBadRequest, "INVALID_PRODUCT_PRICE")
  else if errorsIs err sqlErrNoRows then (StatusNotFound, "NOT_FOUND")
  else if errorsIs err sqlErrConnDone || errorsIs err sqlErrTxDone then
    (StatusInternalServerError, "DATABASE_CONNECTION_ERROR")
  else if containsAny err.Error
      ["database", "sql", "connection", "transaction", "postgres", "pgx"] then
    (StatusInternalServerError, "DATABASE_ERROR")
  else (StatusInternalServerError, "INTERNAL_ERROR")

/-- `HTTPProductHandler.CreateProduct`: the status written.  `body` is the
decoded request, `none` when the body does not decode; `ctx` is the context
with the request timeout. -/
def HTTPCreateProduct (env : Env) (appService : ProductService) (ctx : Context)
    (body : Option CreateProductRequest) (idempotencyKey : String) (w : World) : Nat × World :=
  match body with
  | none => (StatusBadRequest, w)
  | some req =>
      match ValidateCreateProductRequest req with
      | some _ => (StatusBadRequest, w)
      | none =>
          match CreateProduct env appService ctx req.Name req.Price idempotencyKey w with
          | (_, some err, w1) =>
              if errorsIs err ctxDeadlineExceeded || errorsIs err ctxCanceled then
                (StatusRequestTimeout, w1)
              else ((MapToHTTPError err ctx w1.now).1, w1)
          | (_, none, w1) => (StatusCreated, w1)

/-! ## Consumer of the notification service
(`notifications/internal/messaging/consumer.go`) -/

/-- The body of a delivered message: bytes that are not JSON, the JSON value
`null`, a JSON value that is neither `null` nor an object (a number, a string,
a boolean, an array), or a flat object. -/
inductive Body where
  | notJSON
  | null
  | other
  | object (members : JsonObject)
  deriving DecidableEq, Repr

/-- `json.Unmarshal(msg.Body, &event)` into a zero `domain.ProductEvent`:
`null` leaves the struct as it is. -/
def unmarshalBody : Body → Except Err EventFields
  | .notJSON => .error (.plain "invalid character looking for beginning of value")
  | .null => .ok EventFields.zero
  | .other => .error (.plain "json: cannot unmarshal value into Go value of type domain.ProductEvent")
  | .object members => setFields EventFields.zero members

/-- The calls `handleMessage` makes on the delivery. -/
inductive Settle where
  | ack (multiple : Bool)
  | nack (multiple : Bool) (requeue : Bool)
  deriving DecidableEq, Repr

/-- `rabbitMQConsumer.handleMessage`: the calls made on the delivery, in
order. -/
def handleMessage (body : Body) : List Settle :=
  match unmarshalBody body with
  | .error _ => [.nack false false]
  | .ok event =>
      if event.Type_ ≠ "PRODUCT_CREATED" ∧ event.Type_ ≠ "PRODUCT_DELETED" then [.ack false]
      else [.ack false]

/-! ## Rate limiter (`middleware/rate_limiter.go`) -/

/-- The struct `RateLimiter`: `requests` maps a client to the instants kept for
it (`none`: no entry). -/
structure RateLimiter where
  requests : String → Option (List Int)
  limit : Int
  window : Int

/-- `NewRateLimiter(limit, window, logger)`. -/
def NewRateLimiter (limit window : Int) : RateLimiter :=
  { requests := fun _ => none, limit := limit, window := window }

/-- The loop that keeps the instants after `windowStart`, in their order. -/
def keepAfter (windowStart : Int) (requests : List Int) : List Int :=
  requests.filter (fun t => t > windowStart)

/-- `allow(clientID)`, with `time.Now()` given: the answer and the limiter
afterwards. -/
def RateLimiter.allow (rl : RateLimiter) (now : Int) (clientID : String) : Bool × RateLimiter :=
  let windowStart := now - rl.window
  match rl.requests clientID with
  | none =>
      (true, { rl with requests := fun c => if c = clientID then some [now] else rl.requests c })
  | some requests =>
      let valid := keepAfter windowStart requests
      if (valid.length : Int) ≥ rl.limit then
        (false, { rl with requests := fun c => if c = clientID then some valid else rl.requests c })
      else
        (true, { rl with
          requests := fun c => if c = clientID then some (valid ++ [now]) else rl.requests c })

/-- One pass of `cleanup` at the instant `now`: expired instants are dropped
and a client left without instants loses its entry. -/
def RateLimiter.cleanup (rl : RateLimiter) (now : Int) : RateLimiter :=
  { rl with requests := fun c =>
      match rl.requests c with
      | none => none
      | some requests =>
          if (keepAfter (now - rl.window) requests).length = 0 then none
          else some (keepAfter (now - rl.window) requests) }

/-- The answers of `allow` to a sequence of requests `(now, clientID)`, in
order. -/
def RateLimiter.answers (rl : RateLimiter) : List (Int × String) → List Bool
  | [] => []
  | (now, clientID) :: rest =>
      (rl.allow now clientID).1 :: (rl.allow now clientID).2.answers rest

/-- What happens to a rate limiter: a request of a client at an instant, or a
pass of `cleanup` at an instant. -/
inductive LimiterStep where
  | request (now : Int) (clientID : String)
  | sweep (now : Int)
  deriving DecidableEq, Repr

/-- The instant of a step. -/
def LimiterStep.time : LimiterStep → Int
  | .request now _ => now
  | .sweep now => now

/-- The requests that `allow` admits in a run of steps, in order. -/
def RateLimiter.admitted (rl : RateLimiter) : List LimiterStep → List (Int × String)
  | [] => []
  | .request now clientID :: rest =>
      if (rl.allow now clientID).1 then (now, clientID) :: (rl.allow now clientID).2.admitted rest
      else (rl.allow now clientID).2.admitted rest
  | .sweep now :: rest => (rl.cleanup now).admitted rest

/-! ## Row locks of the poll (`repository/outbox_repository.go`) -/

/-- The ids of the rows that are still locked when `GetPendingEvents(limit)` has
returned.  `FOR UPDATE SKIP LOCKED` locks the selected rows until the
transaction of the statement ends: inside the transaction the repository is
bound to (`r.tx != nil`) that is its commit or rollback; outside
(`r.stm.GetPendingEvents.QueryContext`) the statement is a transaction of its
own, which ends when the rows have been read. -/
def OutboxRepo.lockedAfterPoll (r : OutboxRepo) (limit : Int) (w : World) : List Int :=
  if r.inTx w then (selectPending (w.view true) limit).map (fun row => row.id) else []

/-! ## Runs of the two retry loops

The states in which the loops make their successive calls, when every earlier
call failed and every earlier sleep ran to its end. -/

/-- The state `(k, w)` in which `Do` makes call number `i` of `fn` (counted from
0): after a failed call number `i` it sleeps `calculateBackoff cfg i`. -/
def Do.before {κ : Type} (ctx : Context) (cfg : Config)
    (fn : κ → World → Option Err × κ × World) (k : κ) (w : World) : Nat → κ × World
  | 0 => (k, w)
  | i + 1 =>
      ((fn (Do.before ctx cfg fn k w i).1 (Do.before ctx cfg fn k w i).2).2.1,
       (sleepOrDone ctx (calculateBackoff cfg i)
          (fn (Do.before ctx cfg fn k w i).1 (Do.before ctx cfg fn k w i).2).2.2).2)

/-- What call number `i` of `fn` returns in that run. -/
def Do.call {κ : Type} (ctx : Context) (cfg : Config)
    (fn : κ → World → Option Err × κ × World) (k : κ) (w : World) (i : Nat) :
    Option Err × κ × World :=
  fn (Do.before ctx cfg fn k w i).1 (Do.before ctx cfg fn k w i).2

/-- The closure `fn` with a counter of its calls next to its captured state. -/
def counting {κ : Type} (fn : κ → World → Option Err × κ × World) :
    Nat × κ → World → Option Err × (Nat × κ) × World :=
  fun nk w => ((fn nk.2 w).1, (nk.1 + 1, (fn nk.2 w).2.1), (fn nk.2 w).2.2)

/-- The world in which `publishEventWithRetry` makes publish attempt number `i`
(counted from 0): before attempt `i + 1` it sleeps `backoff (i + 1)`. -/
def OutboxWorker.beforeAttempt (env : Env) (wk : OutboxWorker) (ctx : Context)
    (event : OutboxEvent) (w : World) : Nat → World
  | 0 => w
  | i + 1 =>
      (sleepOrDone ctx (wk.backoff (i + 1))
        (wk.publishEvent env event (wk.beforeAttempt env ctx event w i)).2).2

/-- What publish attempt number `i` returns in that run. -/
def OutboxWorker.attemptResult (env : Env) (wk : OutboxWorker) (ctx : Context)
    (event : OutboxEvent) (w : World) (i : Nat) : Option Err × World :=
  wk.publishEvent env event (wk.beforeAttempt env ctx event w i)

/-! ## Observations on stores and traces -/

/-- Number of outbox rows whose `idempotency_key` is `key`. -/
def keyCount (key : String) (rows : List OutboxRow) : Nat :=
  (rows.filter (fun r => r.idempotencyKey = some key)).length

/-- The outbox rows a call hands to the store. -/
def Call.rowsHanded : Call → List OutboxInsert
  | .sql _ (.saveOutboxEvent row) => [row]
  | .sql _ (.saveEventsBatch rows) => rows
  | _ => []

/-- All outbox rows handed to the store in a trace (latest statement first). -/
def rowsHanded : List Call → List OutboxInsert
  | [] => []
  | c :: rest => c.rowsHanded ++ rowsHanded rest

/-- The call is an insert into `outbox` (either statement). -/
def Call.isOutboxInsert : Call → Bool
  | .sql _ (.saveOutboxEvent _) => true
  | .sql _ (.saveEventsBatch _) => true
  | _ => false

/-- The call is one of the outcome methods of the outbox repository. -/
def Call.isOutcome : Call → Bool
  | .markAsPublished _ => true
  | .markAsFailed _ _ => true
  | .moveToDLQ _ _ => true
  | _ => false

/-- The call starts a publish attempt of the dispatcher. -/
def Call.isAttempt : Call → Bool
  | .adaptEvent _ => true
  | _ => false

/-- The durations of the sleeps recorded in a trace (latest first). -/
def sleepsOf : List Call → List Int
  | [] => []
  | .sleep d :: rest => d :: sleepsOf rest
  | _ :: rest => sleepsOf rest

/-- A key as `generateIdempotencyKey` makes it: 32 hexadecimal characters. -/
def isGeneratedKey (key : String) : Bool :=
  key.length = 32 && key.toList.all (fun c => "0123456789abcdef".toList.contains c)

/-- The error both layers return for an absent product. -/
def notFoundErr : Err := .wrap "product not found" ErrProductNotFound

/-- The world `w` extends `w0` by calls none of which is an outbox insert, and
holds the same tables. -/
def Good (w0 w : World) : Prop :=
  w.db = w0.db ∧ ∃ added, w.trace = added ++ w0.trace ∧ ∀ c ∈ added, Call.isOutboxInsert c = false

/-- At most one outbox row with the key, in the committed tables and in what the
open transaction sees. -/
def KeyOK (key : String) (w : World) : Prop :=
  keyCount key w.db.outbox ≤ 1 ∧ keyCount key (w.view true).outbox ≤ 1

/-- The parameters `SaveEvent` hands to `querySaveOutboxEvent`. -/
def OutboxEvent.saveArgs (event : OutboxEvent) : OutboxInsert :=
  { eventType := event.EventType, eventData := event.EventData.getD [],
    idempotencyKey := event.IdempotencyKey, status := event.Status }

/-- The parameters `saveEventsBatchSingle` hands over for one event. -/
def OutboxEvent.insertArgs (e : OutboxEvent) : OutboxInsert :=
  { eventType := e.EventType, eventData := e.EventData.getD [],
    idempotencyKey := e.IdempotencyKey, status := OutboxStatusPending }

/-- The batch insert statements of a trace, oldest first, each with its rows. -/
def batchesIssued : List Call → List (List OutboxInsert)
  | [] => []
  | .sql _ (.saveEventsBatch rows) :: rest => batchesIssued rest ++ [rows]
  | _ :: rest => batchesIssued rest

/-- The instants of the requests of `clientID` in a list of admitted requests. -/
def instantsOf (clientID : String) (hist : List (Int × String)) : List Int :=
  (hist.filter (fun p => p.2 = clientID)).map (fun p => p.1)

/-- The number of instants in the window `(a, a + window]`. -/
def inWindow (a window : Int) (instants : List Int) : Nat :=
  (instants.filter (fun t => a < t ∧ t ≤ a + window)).length

/-- The instants a limiter keeps for a client (none without an entry). -/
def RateLimiter.kept (rl : RateLimiter) (clientID : String) : List Int :=
  (rl.requests clientID).getD []

/-- The limiter remembers of the admitted requests `hist` all that can still
count at an instant from `T` on. -/
def Remembers (rl : RateLimiter) (hist : List (Int × String)) (T : Int) : Prop :=
  ∀ c x, T - rl.window ≤ x → keepAfter x (rl.kept c) = keepAfter x (instantsOf c hist)

/-! ## Scenarios -/

/-- An empty store at some instant, nothing called yet. -/
def emptyWorld : World :=
  { db := { products := [], outbox := [] }, tx := none, productSeq := 0, outboxSeq := 0,
    now := 1000, trace := [] }

/-- A product as `domain.NewProduct("Widget", 10)` returns it. -/
def widget : Product :=
  { ID := 0, Name := "Widget", Price := .finite 10, CreatedAt := 1000, domainEvents := [] }

/-- The service over plain PostgreSQL units of work (no metrics collector). -/
def plainService (retrier : Bool) : ProductService :=
  NewProductService { metrics := false, batchOutbox := true } retrier

/-- The service as `bootstrap` wires it. -/
def productionService : ProductService := NewProductService UoWFactory.production true

/-- The service over an outbox repository without the batch method. -/
def perEventService : ProductService :=
  NewProductService { metrics := false, batchOutbox := false } true

/-- A transactional block that does nothing and succeeds. -/
def okFn (_ : UnitOfWork) (k : Unit) (w : World) : Option Err × Unit × World := (none, k, w)

/-- A transactional block that does nothing and fails. -/
def failFn (_ : UnitOfWork) (k : Unit) (w : World) : Option Err × Unit × World :=
  (some (.plain "insufficient stock"), k, w)

/-- Faults: every `tx.Rollback()` fails. -/
def rollbackFailsFault : List Call → Option Err
  | .sqlRollback :: _ => some (.plain "driver: bad connection")
  | _ => none

/-- Environment: every `tx.Rollback()` fails, all else succeeds. -/
def rollbackFails : Env :=
  { fault := rollbackFailsFault, latency := fun _ => 0, random := fun _ _ => 0 }

/-- Faults: every `tx.Commit()` fails. -/
def commitFailsFault : List Call → Option Err
  | .sqlCommit :: _ => some (.plain "driver: bad connection")
  | _ => none

/-- Environment: every `tx.Commit()` fails, all else succeeds. -/
def commitFails : Env :=
  { fault := commitFailsFault, latency := fun _ => 0, random := fun _ _ => 0 }

/-- Faults: every `db.BeginTx` fails. -/
def beginFailsFault : List Call → Option Err
  | .sqlBeginTx :: _ => some (.plain "connection refused")
  | _ => none

/-- Environment: every `db.BeginTx` fails. -/
def beginFails : Env :=
  { fault := beginFailsFault, latency := fun _ => 0, random := fun _ _ => 0 }

/-- Faults: the batch insert of the first transaction fails, later ones succeed. -/
def firstBatchFailsFault : List Call → Option Err
  | .sql _ (.saveEventsBatch _) :: rest =>
      if rest.count .sqlBeginTx = 1 then some (.plain "connection reset") else none
  | _ => none

/-- Environment: the outbox insert of the first attempt fails. -/
def firstBatchFails : Env :=
  { fault := firstBatchFailsFault, latency := fun _ => 0, random := fun _ _ => 0 }

/-- A store that holds product 1, and the product as the use case passes it to
`DeleteProductWithEvent`: loaded and with its delete event recorded. -/
def worldWithProduct : World :=
  { db := { products := [{ id := 1, name := "Widget", price := .finite 10, createdAt := 500 }],
            outbox := [] },
    tx := none, productSeq := 1, outboxSeq := 0, now := 1000, trace := [] }

/-- See `worldWithProduct`. -/
def loadedWidget : Product :=
  { ID := 1, Name := "Widget", Price := .finite 10, CreatedAt := 500,
    domainEvents := [NewProductDeletedEvent 1 1000] }

/-- Faults: every publish on the bus fails. -/
def busDownFault : List Call → Option Err
  | .publishProductCreated _ _ :: _ => some (.plain "bus unavailable")
  | .publishProductDeleted _ _ :: _ => some (.plain "bus unavailable")
  | _ => none

/-- Environment: the publisher always fails, the store always answers. -/
def busDown : Env :=
  { fault := busDownFault, latency := fun _ => 0, random := fun _ _ => 0 }

/-- The outbox row of a product just created with key `k3`. -/
def freshRow : OutboxRow :=
  { id := 1, eventType := "PRODUCT_CREATED",
    eventData := [("product_id", .num 1), ("timestamp", .time 1000),
                  ("type", .str "PRODUCT_CREATED")],
    idempotencyKey := some "k3", status := OutboxStatusPending, retryCount := 0,
    createdAt := 1000, publishedAt := none, dlqReason := none }

/-- A store with one product and its pending outbox row. -/
def worldWithPending : World :=
  { db := { products := [{ id := 1, name := "Widget", price := .finite 10, createdAt := 1000 }],
            outbox := [freshRow] },
    tx := none, productSeq := 1, outboxSeq := 1, now := 2000, trace := [] }

/-- The dispatcher with the default configuration (`max_retries = 3`,
`batch_size = 50`, backoff from 1 s to 30 s) over the auto-commit outbox
repository, with the event adapter `adapt`. -/
def dispatcher (adapt : OutboxEvent → Int → Except Err (String × Int × Int)) : OutboxWorker :=
  { outboxRepo := { transactional := false, maxBatchSize := 100, batch := true },
    AdaptEvent := adapt, batchSize := 50, maxRetries := 3, baseBackoff := 1 * second,
    maxBackoff := 30 * second }

/-- An event adapter that reads the fixed triple of `freshRow`. -/
def fixedAdapter (_ : OutboxEvent) (_ : Int) : Except Err (String × Int × Int) :=
  .ok ("PRODUCT_CREATED", 1, 1000)

/-- The row `freshRow` as the first poll cycle leaves it. -/
def failedRow : OutboxRow := { freshRow with status := OutboxStatusFailed, retryCount := 1 }

/-- A closure that fails on every call. -/
def alwaysFails (_ : Unit) (w : World) : Option Err × Unit × World :=
  (some (.plain "connection refused"), (), w)

/-- A closure that fails on its first two calls and succeeds from the third on;
the captured state is the number of calls made. -/
def failsTwice (n : Nat) (w : World) : Option Err × Nat × World :=
  (if n < 2 then some (.plain "connection refused") else none, n + 1, w)

/-- A context cancelled five nanoseconds after the instant of `emptyWorld`. -/
def cancelledSoon : Context := { cancelAt := some 1005, err := ctxCanceled }

/-- Latencies: each publish on the bus takes 1000 ns. -/
def slowBusLatency : List Call → Nat
  | .publishProductCreated _ _ :: _ => 1000
  | .publishProductDeleted _ _ :: _ => 1000
  | _ => 0

/-- Environment: the bus answers, slowly; the store answers at once. -/
def slowBus : Env :=
  { fault := fun _ => none, latency := slowBusLatency, random := fun _ _ => 0 }

/-- A context whose deadline falls during the publish of `slowBus` that starts
in `worldWithPending`. -/
def deadline2500 : Context := { cancelAt := some 2500, err := ctxDeadlineExceeded }

/-- The row `freshRow` once published. -/
def publishedRow : OutboxRow :=
  { freshRow with status := OutboxStatusPublished, publishedAt := some 1500 }

/-- A store whose only outbox row is published. -/
def worldWithPublished : World :=
  { worldWithPending with db := { products := [], outbox := [publishedRow] } }

/-- An event with the key of `freshRow`, not yet saved. -/
def duplicateEvent : OutboxEvent :=
  { ID := 0, EventType := "PRODUCT_CREATED", EventData := some freshRow.eventData,
    IdempotencyKey := "k3", CreatedAt := 0, PublishedAt := none, RetryCount := 0,
    Status := OutboxStatusPending }

/-- The dispatcher with `max_retries = 0`: one attempt, then the DLQ. -/
def strictDispatcher : OutboxWorker := { dispatcher fixedAdapter with maxRetries := 0 }

/-- The row `freshRow` as `strictDispatcher` leaves it after a failed publish. -/
def deadRow : OutboxRow :=
  { freshRow with
    status := OutboxStatusDLQ, retryCount := 1,
    dlqReason := some "Failed after 1 retry attempts: bus unavailable" }

/-- An outbox repository outside a transaction with `maxBatchSize = 2`. -/
def smallBatchRepo : OutboxRepo := { transactional := false, maxBatchSize := 2, batch := true }

/-- Five events to save, with the keys `a` to `e`. -/
def fiveEvents : List OutboxEvent :=
  ["a", "b", "c", "d", "e"].map (fun key =>
    { ID := 0, EventType := "PRODUCT_CREATED", EventData := none, IdempotencyKey := key,
      CreatedAt := 0, PublishedAt := none, RetryCount := 0, Status := OutboxStatusPending })

/-- A unit of work after a successful `Begin`, without metrics collector. -/
def activeUoW : UnitOfWork :=
  { metrics := false, batchOutbox := true, inTransaction := true, hasTx := true }

/-- The empty store with the transaction of `activeUoW` open. -/
def worldInTx : World := { emptyWorld with tx := some [] }

/-- A payload of type `PRODUCT_CREATED` whose `product_id` is 0. -/
def zeroIdPayload : JsonObject :=
  [("product_id", .num 0), ("timestamp", .time 1000), ("type", .str "PRODUCT_CREATED")]

/-- A payload of type `PRODUCT_DELETED` without `product_id`. -/
def noIdPayload : JsonObject := [("timestamp", .time 1000), ("type", .str "PRODUCT_DELETED")]

/-- The outbox event of row 1 with the payload `data`. -/
def eventWith (data : JsonObject) : OutboxEvent :=
  { toPortsOutboxEvent freshRow with EventData := some data }

/-- The dispatcher as `bootstrap` builds it, with the default configuration,
over the outbox repository outside a transaction. -/
def productionDispatcher : OutboxWorker :=
  NewOutboxWorker { transactional := false, maxBatchSize := 100, batch := true } 50 3
    (1 * second) (30 * second)

/-- A name of 128 Cyrillic letters: 256 bytes. -/
def cyrillicName : String := String.mk (List.replicate 128 'Я')

/-- A name of 256 Latin letters. -/
def longName : String := String.mk (List.replicate 256 'a')

/-- The backoff schedule in the words of the specification:
`min(base_backoff * 2^(attempt-1), max_backoff)` for `attempt ≥ 1`. -/
def backoffSchedule (baseBackoff maxBackoff : Int) (attempt : Nat) : Int :=
  min (baseBackoff * 2 ^ (attempt - 1)) maxBackoff

/-- A created event of product 7. -/
def createdSeven : DomainEvent := { kind := .created, ProductID := 7, Timestamp := 1500 }

/-- The pending event of `worldWithPending` as the poll returns it. -/
def pendingEvent : OutboxEvent := toPortsOutboxEvent freshRow

/-- Dispatcher A has polled `worldWithPending`. -/
def afterPollA : World :=
  (productionDispatcher.outboxRepo.GetPendingEvents Env.calm 50 worldWithPending).2

/-- Dispatcher A has published the event it received and not yet recorded it. -/
def midPublishA : World :=
  (productionDispatcher.publishEventWithRetry Env.calm .background pendingEvent afterPollA).2

/-- Dispatcher B has polled meanwhile. -/
def afterPollB : World :=
  (productionDispatcher.outboxRepo.GetPendingEvents Env.calm 50 midPublishA).2

/-- Dispatcher A has marked its event published, then dispatcher B has
processed what its poll returned. -/
def afterBoth : World :=
  productionDispatcher.processAll Env.calm .background [pendingEvent]
    (productionDispatcher.markEventAsPublished Env.calm pendingEvent afterPollB).2

/-- The call is a publish on the bus. -/
def Call.isPublish : Call → Bool
  | .publishProductCreated _ _ => true
  | .publishProductDeleted _ _ => true
  | _ => false

/-! ## Theorems -/

set_option maxRecDepth 20000

/-! ### Auxiliary lemmas

First the dispatcher with a publisher that always fails, then the traces of
the outcome methods, then the deletion of an absent product, then the
invariant `KeyOK` through every layer of the create path. -/

theorem World.write_trace (w : World) (b : Bool) (ws : List Write) :
    (w.write b ws).trace = w.trace := by
  unfold World.write
  split <;> rfl

theorem Context_Err_never (ctx : Context) (h : ctx.cancelAt = none) (t : Int) :
    ctx.Err t = none := by
  simp [Context.Err, h]

theorem publishEvent_busDown (wk : OutboxWorker) (event : OutboxEvent) (w : World) :
    (wk.publishEvent busDown event w).1 ≠ none ∧
    (wk.publishEvent busDown event w).2.db = w.db ∧
    (wk.publishEvent busDown event w).2.tx = w.tx ∧
    (wk.publishEvent busDown event w).2.trace.filter Call.isAttempt
      = .adaptEvent event.ID :: w.trace.filter Call.isAttempt ∧
    (wk.publishEvent busDown event w).2.trace.filter Call.isOutcome
      = w.trace.filter Call.isOutcome := by
  unfold OutboxWorker.publishEvent
  cases wk.AdaptEvent event w.now with
  | error e => simp [note, Call.isAttempt, Call.isOutcome, List.filter_cons]
  | ok r =>
      obtain ⟨ty, pid, ts⟩ := r
      simp only
      split_ifs <;>
        simp [perform, note, busDown, busDownFault, Call.isAttempt, Call.isOutcome,
          List.filter_cons]

theorem sleepOrDone_background (d : Int) (w : World) :
    sleepOrDone .background d w
      = (false, { w with trace := .sleep d :: w.trace, now := w.now + max d 0 }) := by
  simp [sleepOrDone, Context.background, note]

theorem retryLoop_busDown (wk : OutboxWorker) (event : OutboxEvent) :
    ∀ (fuel : Nat) (attempt : Int) (lastErr : Option Err) (w : World),
      (wk.retryLoop busDown .background event fuel attempt lastErr w).1 ≠ none ∧
      (wk.retryLoop busDown .background event fuel attempt lastErr w).2.db = w.db ∧
      (wk.retryLoop busDown .background event fuel attempt lastErr w).2.tx = w.tx ∧
      ((wk.retryLoop busDown .background event fuel attempt lastErr w).2.trace.filter
          Call.isAttempt).length = fuel + (w.trace.filter Call.isAttempt).length ∧
      (wk.retryLoop busDown .background event fuel attempt lastErr w).2.trace.filter
          Call.isOutcome = w.trace.filter Call.isOutcome := by
  intro fuel
  induction fuel with
  | zero => intro attempt lastErr w; simp [OutboxWorker.retryLoop]
  | succ n ih =>
      intro attempt lastErr w
      unfold OutboxWorker.retryLoop
      by_cases ha : attempt > 0
      · simp only [ha, if_true, sleepOrDone_background]
        obtain ⟨h1, h2, h3, h4, h5⟩ := publishEvent_busDown wk event
          { w with trace := .sleep (wk.backoff attempt) :: w.trace,
                   now := w.now + max (wk.backoff attempt) 0 }
        rcases hp : wk.publishEvent busDown event
          { w with trace := .sleep (wk.backoff attempt) :: w.trace,
                   now := w.now + max (wk.backoff attempt) 0 } with ⟨r, w2⟩
        rw [hp] at h1 h2 h3 h4 h5
        cases r with
        | none => exact absurd rfl h1
        | some e =>
            simp only at h2 h3 h4 h5 ⊢
            obtain ⟨i1, i2, i3, i4, i5⟩ := ih (attempt + 1) (some e) w2
            refine ⟨i1, by rw [i2, h2], by rw [i3, h3], ?_, ?_⟩
            · rw [i4, h4]; simp [Call.isAttempt, List.filter_cons]; omega
            · rw [i5, h5]; simp [Call.isOutcome, List.filter_cons]
      · simp only [ha, if_false]
        obtain ⟨h1, h2, h3, h4, h5⟩ := publishEvent_busDown wk event w
        rcases hp : wk.publishEvent busDown event w with ⟨r, w2⟩
        rw [hp] at h1 h2 h3 h4 h5
        cases r with
        | none => exact absurd rfl h1
        | some e =>
            simp only at h2 h3 h4 h5 ⊢
            obtain ⟨i1, i2, i3, i4, i5⟩ := ih (attempt + 1) (some e) w2
            refine ⟨i1, by rw [i2, h2], by rw [i3, h3], ?_, ?_⟩
            · rw [i4, h4]; simp; omega
            · rw [i5, h5]

theorem background_Err (t : Int) : Context.background.Err t = none := rfl

theorem view_autocommit (w : World) : w.view false = w.db := by
  simp [World.view]

theorem write_autocommit (w : World) (ws : List Write) :
    w.write false ws = { w with db := w.db.applyAll ws } := by
  simp [World.write]

theorem processEvent_busDown (adapt : OutboxEvent → Int → Except Err (String × Int × Int))
    (w : World) (hdb : w.db.outbox = [freshRow]) :
    ((dispatcher adapt).processEvent busDown .background (toPortsOutboxEvent freshRow) w).db.outbox
        = [failedRow] ∧
    (((dispatcher adapt).processEvent busDown .background (toPortsOutboxEvent freshRow)
        w).trace.filter Call.isAttempt).length = 4 + (w.trace.filter Call.isAttempt).length ∧
    ((dispatcher adapt).processEvent busDown .background (toPortsOutboxEvent freshRow)
        w).trace.filter Call.isOutcome = .markAsFailed 1 1 :: w.trace.filter Call.isOutcome := by
  obtain ⟨h1, h2, _, h4, h5⟩ := retryLoop_busDown (dispatcher adapt)
    (toPortsOutboxEvent freshRow) 4 0 none w
  have hfuel : ((dispatcher adapt).maxRetries + 1).toNat = 4 := rfl
  simp only [OutboxWorker.processEvent, background_Err,
    OutboxWorker.publishEventWithRetry, hfuel]
  rcases hp : (dispatcher adapt).retryLoop busDown .background (toPortsOutboxEvent freshRow) 4 0
    none w with ⟨r, w1⟩
  rw [hp] at h1 h2 h4 h5
  cases r with
  | none => exact absurd rfl h1
  | some e =>
      simp only at h2 h4 h5 ⊢
      have hrc : wrapInt64 ((toPortsOutboxEvent freshRow).RetryCount + 1) = 1 := by decide
      have hmax : ¬ ((1 : Int) > (dispatcher adapt).maxRetries) := by
        show ¬ ((1 : Int) > 3)
        decide
      have hin : (dispatcher adapt).outboxRepo.inTx w1 = false := by
        simp [OutboxRepo.inTx, dispatcher]
      have hid : (toPortsOutboxEvent freshRow).ID = 1 := rfl
      simp only [OutboxWorker.handlePublishFailure, hrc, hmax, if_false,
        OutboxWorker.markEventAsFailed, OutboxRepo.MarkAsFailed, hin, perform, note, busDown,
        busDownFault, view_autocommit, write_autocommit, hid]
      refine ⟨?_, ?_, ?_⟩
      · have hf : List.filter (fun x : OutboxRow => decide (x.id = 1)) [freshRow] = [freshRow] := by
          decide
        simp only [updateOutboxWhereID, h2, hdb, Tables.applyAll, hf, List.map, List.foldl,
          Tables.apply]
        decide
      · simp [Call.isAttempt, List.filter_cons, h4]
      · simp [Call.isOutcome, List.filter_cons, h5]

theorem GetPendingEvents_busDown (r : OutboxRepo) (hr : r.transactional = false) (limit : Int)
    (hl : 0 ≤ limit) (w : World) :
    r.GetPendingEvents busDown limit w
      = (.ok ((selectPending w.db limit).map toPortsOutboxEvent),
         { w with trace := .sql false (.getPendingEvents OutboxStatusPending limit) :: w.trace,
                  now := w.now + ((0 : Nat) : Int) }) := by
  have hin : r.inTx w = false := by simp [OutboxRepo.inTx, hr]
  have hl2 : ¬ limit < 0 := by omega
  simp [OutboxRepo.GetPendingEvents, hin, perform, busDown, busDownFault, hl2, view_autocommit]

theorem selectPending_fresh (t : Tables) (h : t.outbox = [freshRow]) :
    (selectPending t 50).map toPortsOutboxEvent = [toPortsOutboxEvent freshRow] := by
  simp only [selectPending, h]
  decide

theorem selectPending_failed (t : Tables) (h : t.outbox = [failedRow]) :
    (selectPending t 50).map toPortsOutboxEvent = [] := by
  simp only [selectPending, h]
  decide

theorem cycle_fresh (adapt : OutboxEvent → Int → Except Err (String × Int × Int))
    (w : World) (hdb : w.db.outbox = [freshRow]) :
    ((dispatcher adapt).processPendingEvents busDown .background w).db.outbox = [failedRow] ∧
    (((dispatcher adapt).processPendingEvents busDown .background w).trace.filter
        Call.isAttempt).length = 4 + (w.trace.filter Call.isAttempt).length ∧
    ((dispatcher adapt).processPendingEvents busDown .background w).trace.filter Call.isOutcome
        = .markAsFailed 1 1 :: w.trace.filter Call.isOutcome := by
  have hg := GetPendingEvents_busDown (dispatcher adapt).outboxRepo rfl 50 (by decide) w
  have hb : (dispatcher adapt).batchSize = 50 := rfl
  simp only [OutboxWorker.processPendingEvents, hb, hg, selectPending_fresh w.db hdb,
    OutboxWorker.processAll, background_Err]
  have := processEvent_busDown adapt
    { w with trace := .sql false (.getPendingEvents OutboxStatusPending 50) :: w.trace,
             now := w.now + ((0 : Nat) : Int) } hdb
  simpa [Call.isAttempt, Call.isOutcome, List.filter_cons] using this

theorem cycle_failed (adapt : OutboxEvent → Int → Except Err (String × Int × Int))
    (w : World) (hdb : w.db.outbox = [failedRow]) :
    ((dispatcher adapt).processPendingEvents busDown .background w).db.outbox = [failedRow] ∧
    ((dispatcher adapt).processPendingEvents busDown .background w).trace.filter Call.isAttempt
        = w.trace.filter Call.isAttempt ∧
    ((dispatcher adapt).processPendingEvents busDown .background w).trace.filter Call.isOutcome
        = w.trace.filter Call.isOutcome := by
  have hg := GetPendingEvents_busDown (dispatcher adapt).outboxRepo rfl 50 (by decide) w
  have hb : (dispatcher adapt).batchSize = 50 := rfl
  simp [OutboxWorker.processPendingEvents, hb, hg, selectPending_failed w.db hdb, hdb,
    Call.isAttempt, Call.isOutcome, List.filter_cons]

theorem cycles_failed (adapt : OutboxEvent → Int → Except Err (String × Int × Int)) :
    ∀ (n : Nat) (w : World), w.db.outbox = [failedRow] →
      ((dispatcher adapt).cycles busDown .background n w).db.outbox = [failedRow] ∧
      ((dispatcher adapt).cycles busDown .background n w).trace.filter Call.isAttempt
          = w.trace.filter Call.isAttempt ∧
      ((dispatcher adapt).cycles busDown .background n w).trace.filter Call.isOutcome
          = w.trace.filter Call.isOutcome := by
  intro n
  induction n with
  | zero => intro w h; exact ⟨h, rfl, rfl⟩
  | succ n ih =>
      intro w h
      obtain ⟨c1, c2, c3⟩ := cycle_failed adapt w h
      obtain ⟨i1, i2, i3⟩ := ih _ c1
      exact ⟨i1, by rw [OutboxWorker.cycles, i2, c2], by rw [OutboxWorker.cycles, i3, c3]⟩

theorem MarkAsFailed_trace (env : Env) (r : OutboxRepo) (id rc : Int) (w : World) :
    (r.MarkAsFailed env id rc w).2.trace
      = .sql (r.inTx w) (.markAsFailed OutboxStatusFailed rc id) ::
          .markAsFailed id rc :: w.trace := by
  unfold OutboxRepo.MarkAsFailed perform note
  cases h : env.fault (.sql (r.inTx w) (.markAsFailed OutboxStatusFailed rc id) ::
      .markAsFailed id rc :: w.trace) <;>
    simp [h, World.write_trace]

theorem MoveToDLQ_trace (env : Env) (r : OutboxRepo) (id : Int) (reason : String) (w : World) :
    ∃ pre, (r.MoveToDLQ env id reason w).2.trace = pre ++ .moveToDLQ id reason :: w.trace ∧
      pre.filter Call.isOutcome = [] := by
  unfold OutboxRepo.MoveToDLQ prepareStatement perform note
  cases hin : r.inTx w
  · simp only [Bool.false_eq_true, if_false]
    cases h : env.fault (.sql false (.moveToDLQ OutboxStatusDLQ id reason) ::
        .moveToDLQ id reason :: w.trace)
    · exact ⟨[.sql false (.moveToDLQ OutboxStatusDLQ id reason)],
        by simp [h, World.write_trace], rfl⟩
    · exact ⟨[.sql false (.moveToDLQ OutboxStatusDLQ id reason)], by simp [h], rfl⟩
  · simp only [if_true]
    cases hp : env.fault (.sqlPrepare true :: .moveToDLQ id reason :: w.trace)
    · simp only []
      cases h : env.fault (.sql true (.moveToDLQ OutboxStatusDLQ id reason) ::
          .sqlPrepare true :: .moveToDLQ id reason :: w.trace)
      · exact ⟨[.sql true (.moveToDLQ OutboxStatusDLQ id reason), .sqlPrepare true],
          by simp [h, World.write_trace], rfl⟩
      · exact ⟨[.sql true (.moveToDLQ OutboxStatusDLQ id reason), .sqlPrepare true],
          by simp [h], rfl⟩
    · exact ⟨[.sqlPrepare true], by simp, rfl⟩

theorem wrapInt64_id (x : Int) (h1 : -(2 ^ 63) ≤ x) (h2 : x < 2 ^ 63) : wrapInt64 x = x := by
  unfold wrapInt64
  norm_num at h1 h2 ⊢
  omega

theorem Good_refl (w : World) : Good w w := ⟨rfl, [], rfl, by simp⟩

theorem Good_step (w0 w w1 : World) (c : List Call) (h : Good w0 w) (hdb : w1.db = w.db)
    (htr : w1.trace = c ++ w.trace) (hc : ∀ x ∈ c, Call.isOutboxInsert x = false) :
    Good w0 w1 := by
  obtain ⟨h1, added, h2, h3⟩ := h
  refine ⟨by rw [hdb, h1], c ++ added, by rw [htr, h2, List.append_assoc], ?_⟩
  intro x hx
  rcases List.mem_append.mp hx with hx | hx
  · exact hc x hx
  · exact h3 x hx

theorem sleepOrDone_Good (ctx : Context) (d : Int) (w0 w : World) (h : Good w0 w) :
    Good w0 (sleepOrDone ctx d w).2 := by
  apply Good_step w0 w _ [.sleep d] h
  · unfold sleepOrDone note
    cases ctx.cancelAt
    · simp
    · simp only []
      split_ifs <;> rfl
  · unfold sleepOrDone note
    cases ctx.cancelAt
    · simp
    · simp only []
      split_ifs <;> rfl
  · simp [Call.isOutboxInsert]

theorem attempt_absent (env : Env) (f : UoWFactory) (r : Bool) (key : String) (pid : Int)
    (w0 : World)
    (hBegin : ∀ tr, env.fault (.sqlBeginTx :: tr) = none)
    (hDel : ∀ tr b, env.fault (.sql b (.deleteProduct pid) :: tr) = none)
    (hAbsent : ∀ row ∈ w0.db.products, row.id ≠ pid)
    (v : RetryVars Product) (w : World) (hv : v.user.ID = pid) (hw : Good w0 w) :
    ((NewProductService f r).attempt env (deleteFn env key) v w).1 = some notFoundErr ∧
    ((NewProductService f r).attempt env (deleteFn env key) v w).2.1.lastErr
      = some notFoundErr ∧
    ((NewProductService f r).attempt env (deleteFn env key) v w).2.1.user = v.user ∧
    Good w0 ((NewProductService f r).attempt env (deleteFn env key) v w).2.2 := by
  have hfil : ∀ t : Tables, t = w.db →
      (t.products.filter (fun x => decide (x.id = pid))).length = 0 := by
    intro t ht
    rw [ht, hw.1, List.length_eq_zero, List.filter_eq_nil_iff]
    intro row hrow
    simpa using hAbsent row hrow
  have hnf : errorsIs (.wrap "product not found" ErrProductNotFound) ErrProductNotFound = true := by
    decide
  simp only [ProductService.attempt, NewProductService, UoWFactory.CreateUnitOfWork,
    UnitOfWork.Begin, perform, note, hBegin, Bool.false_eq_true, if_false, deleteFn,
    UnitOfWork.ProductRepository, ProductRepo.Delete, hv, hDel, ProductRepo.inTx]
  cases hm : f.metrics
  · simp only [Bool.not_false, Bool.true_and, Option.isSome_some, World.view, Tables.applyAll,
      List.foldl_nil, hfil _ rfl, if_true, hnf, deferredRetry, UnitOfWork.Rollback, perform, note,
      Bool.not_true, Bool.false_eq_true, if_false, notFoundErr, true_and]
    exact Good_step w0 w _ [.sqlRollback, .uowRollback, .sql true (.deleteProduct pid),
      .sqlBeginTx, .uowBegin] hw rfl rfl (by simp [Call.isOutboxInsert])
  · simp only [Bool.not_true, Bool.false_and, World.view, hfil _ rfl, if_true, hnf,
      deferredRetry, UnitOfWork.Rollback, perform, note,
      Bool.not_true, Bool.false_eq_true, if_false, notFoundErr, true_and]
    exact Good_step w0 w _ [.sqlRollback, .uowRollback, .sql false (.deleteProduct pid),
      .sqlBeginTx, .uowBegin] hw rfl rfl (by simp [Call.isOutboxInsert])

theorem Do_loop_absent (ctx : Context) (cfg : Config) (w0 : World) (pid : Int)
    (fn : RetryVars Product → World → Option Err × RetryVars Product × World)
    (hfn : ∀ v w, v.user.ID = pid → Good w0 w → (fn v w).1 = some notFoundErr ∧
      (fn v w).2.1.lastErr = some notFoundErr ∧ (fn v w).2.1.user = v.user ∧
      Good w0 (fn v w).2.2) :
    ∀ (fuel : Nat) (attempt : Int) (lastErr : Option Err) (v : RetryVars Product) (w : World),
      v.user.ID = pid → Good w0 w →
      (v.lastErr = some notFoundErr ∨ (0 < fuel ∧ ctx.Err w.now = none)) →
      (Do.loop ctx cfg fn fuel attempt lastErr v w).1 ≠ none ∧
      (Do.loop ctx cfg fn fuel attempt lastErr v w).2.1.lastErr = some notFoundErr ∧
      Good w0 (Do.loop ctx cfg fn fuel attempt lastErr v w).2.2 := by
  intro fuel
  induction fuel with
  | zero =>
      intro attempt lastErr v w _ hw hv
      rcases hv with hv | hv
      · exact ⟨by simp [Do.loop], by simpa [Do.loop] using hv, by simpa [Do.loop] using hw⟩
      · exact absurd hv.1 (by decide)
  | succ n ih =>
      intro attempt lastErr v w hu hw hv
      unfold Do.loop
      cases hc : ctx.Err w.now with
      | some ce =>
          rcases hv with hv | hv
          · exact ⟨by simp, by simpa using hv, by simpa using hw⟩
          · rw [hc] at hv; exact absurd hv.2 (by simp)
      | none =>
          obtain ⟨f1, f2, fu, f3⟩ := hfn v w hu hw
          rcases hf : fn v w with ⟨r, v1, w1⟩
          rw [hf] at f1 f2 f3 fu
          simp only at f1 f2 f3 fu
          subst f1
          simp only
          by_cases hlast : attempt = cfg.MaxAttempts - 1
          · simp only [hlast, if_true]
            exact ⟨by simp, f2, f3⟩
          · simp only [hlast, if_false]
            have hs := sleepOrDone_Good ctx (calculateBackoff cfg attempt) w0 w1 f3
            rcases hsl : sleepOrDone ctx (calculateBackoff cfg attempt) w1 with ⟨b, w2⟩
            rw [hsl] at hs
            cases b with
            | true => exact ⟨by simp, f2, hs⟩
            | false =>
                exact ih (attempt + 1) (some notFoundErr) v1 w2 (by rw [fu, hu]) hs (Or.inl f2)

theorem Delete_absent (env : Env) (f : UoWFactory) (r : Bool) (ctx : Context)
    (product : Product) (key : String) (w : World)
    (hctx : ctx.Err w.now = none)
    (hBegin : ∀ tr, env.fault (.sqlBeginTx :: tr) = none)
    (hDel : ∀ tr b, env.fault (.sql b (.deleteProduct product.ID) :: tr) = none)
    (hAbsent : ∀ row ∈ w.db.products, row.id ≠ product.ID) :
    (∃ e, ((NewProductService f r).DeleteProductWithEvent env ctx product key w).1 = some e ∧
      errorsIs e ErrProductNotFound = true) ∧
    Good w ((NewProductService f r).DeleteProductWithEvent env ctx product key w).2.2 := by
  cases r with
  | true =>
      obtain ⟨d1, d2, d3⟩ := Do_loop_absent ctx (NewProductService f true).retryConfig w product.ID
        ((NewProductService f true).attempt env (deleteFn env key))
        (fun v w1 hv hw => attempt_absent env f true key product.ID w hBegin hDel hAbsent v w1 hv hw)
        3 0 none { lastErr := none, retryAttempts := 0, user := product } w rfl (Good_refl w)
        (Or.inr ⟨by decide, hctx⟩)
      have hfuel : (NewProductService f true).retryConfig.MaxAttempts.toNat = 3 := rfl
      simp only [ProductService.DeleteProductWithEvent, ProductService.ExecuteInTransaction, Do,
        hfuel]
      have hr : (NewProductService f true).retrier = true := rfl
      simp only [hr, Bool.not_true, Bool.false_eq_true, if_false]
      rcases hd : Do.loop ctx (NewProductService f true).retryConfig
        ((NewProductService f true).attempt env (deleteFn env key)) 3 0 none
        { lastErr := none, retryAttempts := 0, user := product } w with ⟨e, v1, w1⟩
      rw [hd] at d1 d2 d3
      simp only at d1 d2 d3
      cases e with
      | none => exact absurd rfl d1
      | some e =>
          simp only [d2, NewRetryExhaustedError]
          refine ⟨⟨_, rfl, ?_⟩, d3⟩
          show errorsIs (Err.retryExhausted 3 notFoundErr) ErrProductNotFound = true
          decide
  | false =>
      have hfil : (w.db.products.filter (fun x => decide (x.id = product.ID))).length = 0 := by
        rw [List.length_eq_zero, List.filter_eq_nil_iff]
        intro row hrow
        simpa using hAbsent row hrow
      have hnf : errorsIs (.wrap "product not found" ErrProductNotFound) ErrProductNotFound
          = true := by decide
      simp only [ProductService.DeleteProductWithEvent, ProductService.ExecuteInTransaction,
        NewProductService, Bool.not_false, if_true, UoWFactory.CreateUnitOfWork,
        UnitOfWork.Begin, perform, note, hBegin, Bool.false_eq_true, if_false, deleteFn,
        UnitOfWork.ProductRepository, ProductRepo.Delete, hDel, ProductRepo.inTx]
      cases hm : f.metrics
      · simp only [Bool.not_false, Bool.true_and, Option.isSome_some, World.view,
          Tables.applyAll, List.foldl_nil, hfil, if_true, hnf, deferredPlain,
          UnitOfWork.Rollback, perform, note, Bool.not_true, Bool.false_eq_true, if_false]
        exact ⟨⟨_, rfl, hnf⟩, Good_step w w _ [.sqlRollback, .uowRollback,
          .sql true (.deleteProduct product.ID), .sqlBeginTx, .uowBegin] (Good_refl w) rfl rfl
          (by simp [Call.isOutboxInsert])⟩
      · simp only [Bool.not_true, Bool.false_and, World.view, hfil, if_true, hnf,
          deferredPlain, UnitOfWork.Rollback, perform, note, Bool.false_eq_true, if_false]
        exact ⟨⟨_, rfl, hnf⟩, Good_step w w _ [.sqlRollback, .uowRollback,
          .sql false (.deleteProduct product.ID), .sqlBeginTx, .uowBegin] (Good_refl w) rfl rfl
          (by simp [Call.isOutboxInsert])⟩

theorem applyAll_outbox_congr (ws : List Write) :
    ∀ t t2 : Tables, t.outbox = t2.outbox → (t.applyAll ws).outbox = (t2.applyAll ws).outbox := by
  induction ws with
  | nil => intro t t2 h; simpa [Tables.applyAll] using h
  | cons x xs ih =>
      intro t t2 h
      simp only [Tables.applyAll, List.foldl_cons]
      apply ih
      cases x <;> simp [Tables.apply, h]

theorem applyAll_append (t : Tables) (a b : List Write) :
    t.applyAll (a ++ b) = (t.applyAll a).applyAll b := by
  simp [Tables.applyAll, List.foldl_append]

theorem keyCount_append (key : String) (a b : List OutboxRow) :
    keyCount key (a ++ b) = keyCount key a + keyCount key b := by
  simp [keyCount, List.filter_append]

theorem keyCount_zero_of_not_any (key : String) (rows : List OutboxRow)
    (h : rows.any (fun x => x.idempotencyKey = some key) = false) : keyCount key rows = 0 := by
  unfold keyCount
  rw [List.length_eq_zero, List.filter_eq_nil_iff]
  intro row hrow
  have := List.any_eq_false.mp h row hrow
  simpa using this

theorem insertOutboxRows_keyCount (key : String) (now : Int) (rows : List OutboxInsert) :
    ∀ (t : Tables) (seq : Int), keyCount key t.outbox ≤ 1 →
      keyCount key (t.applyAll (insertOutboxRows now rows t seq).1).outbox ≤ 1 := by
  induction rows with
  | nil => intro t seq h; simpa [insertOutboxRows, Tables.applyAll] using h
  | cons r rs ih =>
      intro t seq h
      unfold insertOutboxRows
      split_ifs with hc
      · exact ih t seq h
      · simp only [Tables.applyAll, List.foldl_cons]
        apply ih
        simp only [Tables.apply, keyCount_append]
        by_cases hk : r.idempotencyKey = key
        · subst hk
          have h0 := keyCount_zero_of_not_any r.idempotencyKey t.outbox (by simpa using hc)
          rw [h0]
          simp [keyCount]
        · have hrow : ∀ row : OutboxRow, row.idempotencyKey = some r.idempotencyKey →
              keyCount key [row] = 0 := by
            intro row hr
            simp [keyCount, hr, hk]
          rw [hrow _ rfl]
          omega

theorem KeyOK_of_eq (key : String) (w w1 : World) (hdb : w1.db = w.db) (htx : w1.tx = w.tx)
    (h : KeyOK key w) : KeyOK key w1 := by
  unfold KeyOK World.view at *
  rw [hdb, htx]
  exact h

theorem KeyOK_perform (key : String) (env : Env) (c : Call) (w : World) (h : KeyOK key w) :
    KeyOK key (perform env c w).2 :=
  KeyOK_of_eq key w _ rfl rfl h

theorem KeyOK_note (key : String) (c : Call) (w : World) (h : KeyOK key w) :
    KeyOK key (note c w) :=
  KeyOK_of_eq key w _ rfl rfl h

theorem KeyOK_closed (key : String) (w : World) (h : KeyOK key w) :
    KeyOK key { w with tx := none } := by
  unfold KeyOK World.view at *
  exact ⟨h.1, h.1⟩

theorem KeyOK_opened (key : String) (w : World) (h : KeyOK key w) :
    KeyOK key { w with tx := some [] } := by
  unfold KeyOK World.view at *
  exact ⟨h.1, by simpa [Tables.applyAll] using h.1⟩

theorem KeyOK_committed (key : String) (w : World) (h : KeyOK key w) :
    KeyOK key { w with db := w.db.applyAll (w.tx.getD []), tx := none } := by
  unfold KeyOK World.view at *
  cases htx : w.tx with
  | none => simp only [Option.getD_none, Tables.applyAll, List.foldl_nil]; exact ⟨h.1, h.1⟩
  | some p => rw [htx] at h; simp only [Option.getD_some]; exact ⟨h.2, h.2⟩

theorem KeyOK_write_product (key : String) (w : World) (b : Bool) (x : Write)
    (hx : ∀ t : Tables, (t.apply x).outbox = t.outbox) (h : KeyOK key w) :
    KeyOK key (w.write b [x]) := by
  unfold KeyOK World.view World.write at *
  cases b <;> cases htx : w.tx <;> rw [htx] at h <;>
    simp only [Tables.applyAll, List.foldl_cons, List.foldl_nil, hx, List.foldl_append] at h ⊢
  · exact h
  · refine ⟨h.1, ?_⟩
    have := applyAll_outbox_congr ‹List Write› (w.db.apply x) w.db (hx w.db)
    simp only [Tables.applyAll] at this
    rw [this]; exact h.2
  · exact h
  · exact h

theorem KeyOK_write_outbox (key : String) (w : World) (now seq : Int)
    (rows : List OutboxInsert) (h : KeyOK key w) :
    KeyOK key (w.write w.tx.isSome (insertOutboxRows now rows (w.view w.tx.isSome) seq).1) := by
  unfold KeyOK World.view World.write at *
  cases htx : w.tx with
  | none =>
      rw [htx] at h
      simp only [Option.isSome_none]
      have := insertOutboxRows_keyCount key now rows w.db seq h.1
      exact ⟨this, this⟩
  | some p =>
      rw [htx] at h
      simp only [Option.isSome_some]
      refine ⟨h.1, ?_⟩
      have := insertOutboxRows_keyCount key now rows (w.db.applyAll p) seq h.2
      rw [← applyAll_append] at this
      exact this

theorem Create_KeyOK (key : String) (env : Env) (r : ProductRepo) (product : Product) (w : World)
    (h : KeyOK key w) : KeyOK key (r.Create env product w).2.2 := by
  unfold ProductRepo.Create
  rcases hp : perform env (.sql (r.inTx w) (.createProduct product.Name product.Price)) w
    with ⟨e, w1⟩
  have h1 : KeyOK key w1 := by
    have := KeyOK_perform key env (.sql (r.inTx w) (.createProduct product.Name product.Price)) w h
    rwa [hp] at this
  cases e with
  | some e => exact h1
  | none =>
      exact KeyOK_of_eq key (w1.write (r.inTx w) _) _ rfl rfl
        (KeyOK_write_product key w1 _ _ (fun _ => rfl) h1)

theorem inTx_transactional (r : OutboxRepo) (hr : r.transactional = true) (w : World) :
    r.inTx w = w.tx.isSome := by
  simp [OutboxRepo.inTx, hr]

theorem KeyOK_prepare (key : String) (env : Env) (b v : Bool) (w : World) (h : KeyOK key w) :
    KeyOK key (prepareStatement env b v w).2 ∧ (prepareStatement env b v w).2.tx = w.tx := by
  unfold prepareStatement perform
  cases b
  · exact ⟨h, rfl⟩
  · simp only [if_true]
    cases env.fault (.sqlPrepare true :: w.trace) <;>
      exact ⟨KeyOK_of_eq key w _ rfl rfl h, rfl⟩

theorem saveEventsBatchSingle_KeyOK (key : String) (env : Env) (r : OutboxRepo)
    (hr : r.transactional = true) (events : List OutboxEvent) (w : World) (h : KeyOK key w) :
    KeyOK key (r.saveEventsBatchSingle env events w).2.2 ∧
    (r.saveEventsBatchSingle env events w).2.2.tx.isSome = w.tx.isSome := by
  unfold OutboxRepo.saveEventsBatchSingle
  rw [inTx_transactional r hr]
  obtain ⟨h1, t1⟩ := KeyOK_prepare key env w.tx.isSome (!events.isEmpty) w h
  rcases hprep : prepareStatement env w.tx.isSome (!events.isEmpty) w with ⟨pe, w1⟩
  rw [hprep] at h1 t1
  simp only at h1 t1
  cases pe with
  | some e => exact ⟨h1, by rw [t1]⟩
  | none =>
      simp only [perform]
      cases env.fault (.sql w.tx.isSome (.saveEventsBatch (events.map (fun e =>
        { eventType := e.EventType, eventData := e.EventData.getD [],
          idempotencyKey := e.IdempotencyKey, status := OutboxStatusPending }))) :: w1.trace) with
      | some e => exact ⟨KeyOK_of_eq key w1 _ rfl rfl h1, by rw [← t1]⟩
      | none =>
          simp only
          split_ifs
          · exact ⟨KeyOK_of_eq key w1 _ rfl rfl h1, by rw [← t1]⟩
          · rw [← t1]
            refine ⟨KeyOK_of_eq key
              (World.write { w1 with trace := _, now := _ } w1.tx.isSome _) _ rfl rfl
              (KeyOK_write_outbox key { w1 with trace := _, now := _ } _ _ _
                (KeyOK_of_eq key w1 _ rfl rfl h1)), ?_⟩
            simp only [World.write]
            cases w1.tx <;> rfl

theorem chunkLoop_KeyOK (key : String) (env : Env) (r : OutboxRepo)
    (hr : r.transactional = true) (m : Nat) :
    ∀ (fuel i : Nat) (events : List OutboxEvent) (w : World), KeyOK key w →
      KeyOK key (r.chunkLoop env m fuel i events w).2.2 := by
  intro fuel
  induction fuel with
  | zero => intro i events w h; exact h
  | succ n ih =>
      intro i events w h
      unfold OutboxRepo.chunkLoop
      split_ifs
      · simp only []
        have hs := (saveEventsBatchSingle_KeyOK key env r hr
          ((events.drop i).take (min (i + m) events.length - i)) w h).1
        rcases hsv : r.saveEventsBatchSingle env
          ((events.drop i).take (min (i + m) events.length - i)) w with ⟨e, c1, w1⟩
        rw [hsv] at hs
        cases e with
        | some e => exact hs
        | none => exact ih _ _ _ hs
      · exact h

theorem SaveEventsBatch_KeyOK (key : String) (env : Env) (r : OutboxRepo)
    (hr : r.transactional = true) (events : List OutboxEvent) (w : World) (h : KeyOK key w) :
    KeyOK key (r.SaveEventsBatch env events w).2.2 := by
  unfold OutboxRepo.SaveEventsBatch OutboxRepo.saveEventsBatchInChunks
  split_ifs
  · exact h
  · exact h
  · exact chunkLoop_KeyOK key env r hr _ _ _ _ _ h
  · exact (saveEventsBatchSingle_KeyOK key env r hr events w h).1

theorem SaveEvent_KeyOK (key : String) (env : Env) (r : OutboxRepo)
    (hr : r.transactional = true) (event : OutboxEvent) (w : World) (h : KeyOK key w) :
    KeyOK key (r.SaveEvent env event w).2.2 := by
  unfold OutboxRepo.SaveEvent
  rw [inTx_transactional r hr]
  simp only [perform]
  cases env.fault (.sql w.tx.isSome (.saveOutboxEvent
      { eventType := event.EventType, eventData := event.EventData.getD [],
        idempotencyKey := event.IdempotencyKey, status := event.Status }) :: w.trace) with
  | some e => exact KeyOK_of_eq key w _ rfl rfl h
  | none =>
      simp only
      split <;>
        exact KeyOK_of_eq key
          (World.write { w with trace := _, now := _ } w.tx.isSome _) _ rfl rfl
          (KeyOK_write_outbox key { w with trace := _, now := _ } _ _ _
            (KeyOK_of_eq key w _ rfl rfl h))

theorem PublishOne_KeyOK (key : String) (env : Env) (event : DomainEvent) (k : String)
    (r : OutboxRepo) (hr : r.transactional = true) (w : World) (h : KeyOK key w) :
    KeyOK key (PublishDomainEventWithIdempotencyKey env event k r w).2 := by
  unfold PublishDomainEventWithIdempotencyKey
  cases event.MarshalJSON with
  | error e => exact h
  | ok data =>
      simp only
      have hg : KeyOK key
          (if k = "" then generateIdempotencyKey env w else (Except.ok k, w)).2 := by
        split_ifs
        · unfold generateIdempotencyKey perform
          cases env.fault (.randRead 16 :: w.trace) <;> exact KeyOK_of_eq key w _ rfl rfl h
        · exact h
      rcases hgen : (if k = "" then generateIdempotencyKey env w else (Except.ok k, w))
        with ⟨g, w1⟩
      rw [hgen] at hg
      cases g with
      | error e => exact hg
      | ok k1 =>
          simp only
          have hs := SaveEvent_KeyOK key env r hr
            { ID := 0, EventType := event.EventType, EventData := some data,
              IdempotencyKey := k1, CreatedAt := zeroTime, PublishedAt := none,
              RetryCount := 0, Status := OutboxStatusPending } w1 hg
          rcases hsv : r.SaveEvent env
            { ID := 0, EventType := event.EventType, EventData := some data,
              IdempotencyKey := k1, CreatedAt := zeroTime, PublishedAt := none,
              RetryCount := 0, Status := OutboxStatusPending } w1 with ⟨e, ev, w2⟩
          rw [hsv] at hs
          cases e <;> exact hs

theorem publishEach_KeyOK (key : String) (env : Env) (k : String) (r : OutboxRepo)
    (hr : r.transactional = true) :
    ∀ (events : List DomainEvent) (w : World), KeyOK key w →
      KeyOK key (publishEach env k r events w).2 := by
  intro events
  induction events with
  | nil => intro w h; exact h
  | cons e es ih =>
      intro w h
      unfold publishEach
      have hp := PublishOne_KeyOK key env e k r hr w h
      rcases hpe : PublishDomainEventWithIdempotencyKey env e k r w with ⟨err, w1⟩
      rw [hpe] at hp
      cases err with
      | some x => exact hp
      | none => exact ih w1 hp

theorem publishDomainEventsBatch_KeyOK (key : String) (env : Env) (events : List DomainEvent)
    (k : String) (r : OutboxRepo) (hr : r.transactional = true) (w : World) (h : KeyOK key w) :
    KeyOK key (publishDomainEventsBatch env events k r w).2 := by
  unfold publishDomainEventsBatch
  split_ifs
  · cases buildOutboxEvents k events with
    | error e => exact h
    | ok oe => exact SaveEventsBatch_KeyOK key env r hr oe w h
  · exact publishEach_KeyOK key env k r hr events w h

theorem createFn_KeyOK (key : String) (env : Env) (k : String) (uow : UnitOfWork)
    (product : Product) (w : World) (h : KeyOK key w) :
    KeyOK key (createFn env k uow product w).2.2 := by
  unfold createFn
  have hc := Create_KeyOK key env uow.ProductRepository product w h
  rcases hcr : uow.ProductRepository.Create env product w with ⟨e, p1, w1⟩
  rw [hcr] at hc
  cases e with
  | some x => exact hc
  | none =>
      simp only
      split_ifs
      · exact hc
      · have hp := publishDomainEventsBatch_KeyOK key env
          (p1.RecordCreatedEvent w1.now).DomainEvents k uow.OutboxRepository rfl w1 hc
        rcases hpb : publishDomainEventsBatch env (p1.RecordCreatedEvent w1.now).DomainEvents k
          uow.OutboxRepository w1 with ⟨e2, w2⟩
        rw [hpb] at hp
        cases e2 <;> exact hp

theorem Begin_KeyOK (key : String) (env : Env) (u : UnitOfWork) (w : World) (h : KeyOK key w) :
    KeyOK key (u.Begin env w).2.2 := by
  unfold UnitOfWork.Begin perform note
  split_ifs
  · exact KeyOK_of_eq key w _ rfl rfl h
  · cases env.fault (.sqlBeginTx :: .uowBegin :: w.trace)
    · exact KeyOK_opened key _ (KeyOK_of_eq key w _ rfl rfl h)
    · exact KeyOK_of_eq key w _ rfl rfl h

theorem Commit_KeyOK (key : String) (env : Env) (u : UnitOfWork) (w : World) (h : KeyOK key w) :
    KeyOK key (u.Commit env w).2.2 := by
  unfold UnitOfWork.Commit perform note
  split_ifs
  · exact KeyOK_of_eq key w _ rfl rfl h
  · exact KeyOK_of_eq key w _ rfl rfl h
  · cases env.fault (.sqlCommit :: .uowCommit :: w.trace)
    · exact KeyOK_committed key _ (KeyOK_of_eq key w
        { w with trace := _, now := _ } rfl rfl h)
    · exact KeyOK_closed key _ (KeyOK_of_eq key w { w with trace := _, now := _ } rfl rfl h)

theorem Rollback_KeyOK (key : String) (env : Env) (u : UnitOfWork) (w : World)
    (h : KeyOK key w) : KeyOK key (u.Rollback env w).2.2 := by
  unfold UnitOfWork.Rollback perform note
  split_ifs
  · exact KeyOK_of_eq key w _ rfl rfl h
  · exact KeyOK_of_eq key w _ rfl rfl h
  · exact KeyOK_closed key _ (KeyOK_of_eq key w { w with trace := _, now := _ } rfl rfl h)

theorem deferredPlain_KeyOK (key : String) (env : Env) (u : UnitOfWork) (e : Option Err)
    (w : World) (h : KeyOK key w) : KeyOK key (deferredPlain env u e w) := by
  unfold deferredPlain
  cases e with
  | some x => exact Rollback_KeyOK key env u w h
  | none =>
      simp only
      have hc := Commit_KeyOK key env u w h
      rcases hcm : u.Commit env w with ⟨ce, u1, w1⟩
      rw [hcm] at hc
      cases ce with
      | some x => exact Rollback_KeyOK key env u1 w1 hc
      | none => exact hc

theorem deferredRetry_KeyOK (key : String) (env : Env) (u : UnitOfWork) (e : Option Err)
    (w : World) (h : KeyOK key w) : KeyOK key (deferredRetry env u e w).2 := by
  unfold deferredRetry
  cases e with
  | some x => exact Rollback_KeyOK key env u w h
  | none =>
      simp only
      have hc := Commit_KeyOK key env u w h
      rcases hcm : u.Commit env w with ⟨ce, u1, w1⟩
      rw [hcm] at hc
      cases ce with
      | some x => exact Rollback_KeyOK key env u1 w1 hc
      | none => exact hc

theorem attempt_KeyOK {κ : Type} (key : String) (env : Env) (s : ProductService)
    (fn : UnitOfWork → κ → World → Option Err × κ × World)
    (hfn : ∀ u k w, KeyOK key w → KeyOK key (fn u k w).2.2)
    (v : RetryVars κ) (w : World) (h : KeyOK key w) :
    KeyOK key (s.attempt env fn v w).2.2 := by
  unfold ProductService.attempt
  have hb := Begin_KeyOK key env s.uowFactory.CreateUnitOfWork w h
  rcases hbg : s.uowFactory.CreateUnitOfWork.Begin env w with ⟨e, u1, w1⟩
  rw [hbg] at hb
  cases e with
  | some x => exact hb
  | none =>
      simp only
      have hf := hfn u1 v.user w1 hb
      rcases hfr : fn u1 v.user w1 with ⟨oe, k, w2⟩
      rw [hfr] at hf
      exact deferredRetry_KeyOK key env u1 oe w2 hf

theorem sleepOrDone_KeyOK (key : String) (ctx : Context) (d : Int) (w : World)
    (h : KeyOK key w) : KeyOK key (sleepOrDone ctx d w).2 := by
  unfold sleepOrDone note
  cases ctx.cancelAt with
  | none => exact KeyOK_of_eq key w _ rfl rfl h
  | some t =>
      simp only
      split_ifs <;> exact KeyOK_of_eq key w _ rfl rfl h

theorem Do_loop_KeyOK {κ : Type} (key : String) (ctx : Context) (cfg : Config)
    (fn : κ → World → Option Err × κ × World)
    (hfn : ∀ k w, KeyOK key w → KeyOK key (fn k w).2.2) :
    ∀ (fuel : Nat) (attempt : Int) (lastErr : Option Err) (k : κ) (w : World),
      KeyOK key w → KeyOK key (Do.loop ctx cfg fn fuel attempt lastErr k w).2.2 := by
  intro fuel
  induction fuel with
  | zero => intro attempt lastErr k w h; exact h
  | succ n ih =>
      intro attempt lastErr k w h
      unfold Do.loop
      cases ctx.Err w.now with
      | some ce => exact h
      | none =>
          simp only
          have hf := hfn k w h
          rcases hfr : fn k w with ⟨e, k1, w1⟩
          rw [hfr] at hf
          cases e with
          | none => exact hf
          | some err =>
              simp only
              split_ifs
              · exact hf
              · have hs := sleepOrDone_KeyOK key ctx (calculateBackoff cfg attempt) w1 hf
                rcases hsl : sleepOrDone ctx (calculateBackoff cfg attempt) w1 with ⟨b, w2⟩
                rw [hsl] at hs
                cases b with
                | true => exact hs
                | false => exact ih _ _ _ _ hs

theorem ExecuteInTransaction_KeyOK {κ : Type} (key : String) (env : Env) (s : ProductService)
    (ctx : Context) (fn : UnitOfWork → κ → World → Option Err × κ × World)
    (hfn : ∀ u k w, KeyOK key w → KeyOK key (fn u k w).2.2) (k : κ) (w : World)
    (h : KeyOK key w) : KeyOK key (s.ExecuteInTransaction env ctx fn k w).2.2 := by
  unfold ProductService.ExecuteInTransaction
  split_ifs
  · have hb := Begin_KeyOK key env s.uowFactory.CreateUnitOfWork w h
    rcases hbg : s.uowFactory.CreateUnitOfWork.Begin env w with ⟨e, u1, w1⟩
    rw [hbg] at hb
    cases e with
    | some x => exact hb
    | none =>
        simp only
        have hf := hfn u1 k w1 hb
        rcases hfr : fn u1 k w1 with ⟨oe, k1, w2⟩
        rw [hfr] at hf
        exact deferredPlain_KeyOK key env u1 oe w2 hf
  · have hd := Do_loop_KeyOK key ctx s.retryConfig (s.attempt env fn)
      (fun v w1 h1 => attempt_KeyOK key env s fn hfn v w1 h1) s.retryConfig.MaxAttempts.toNat 0
      none { lastErr := none, retryAttempts := 0, user := k } w h
    unfold Do
    rcases hdo : Do.loop ctx s.retryConfig (s.attempt env fn) s.retryConfig.MaxAttempts.toNat 0
      none { lastErr := none, retryAttempts := 0, user := k } w with ⟨e, v, w1⟩
    rw [hdo] at hd
    cases e <;> exact hd

theorem CreateProductWithEvent_KeyOK (key : String) (env : Env) (s : ProductService)
    (ctx : Context) (product : Product) (k : String) (w : World) (h : KeyOK key w) :
    KeyOK key (s.CreateProductWithEvent env ctx product k w).2.2 :=
  ExecuteInTransaction_KeyOK key env s ctx (createFn env k)
    (fun u p w1 h1 => createFn_KeyOK key env k u p w1 h1) product w h

/-- A context that is never cancelled never wins the `select`. -/
theorem sleepOrDone_never (ctx : Context) (h : ctx.cancelAt = none) (d : Int) (w : World) :
    (sleepOrDone ctx d w).1 = false := by
  simp [sleepOrDone, h]

/-- Every `select` records its sleep, whoever wins. -/
theorem sleepOrDone_sleeps (ctx : Context) (d : Int) (w : World) :
    sleepsOf (sleepOrDone ctx d w).2.trace = d :: sleepsOf w.trace := by
  unfold sleepOrDone note
  cases ctx.cancelAt with
  | none => rfl
  | some t =>
      simp only
      split_ifs <;> rfl

/-- Unrolling of `Do.loop`: `n` iterations that fail, are not the last one and
whose sleep is not interrupted. -/
theorem Do_loop_unroll {κ : Type} (ctx : Context) (cfg : Config)
    (fn : κ → World → Option Err × κ × World) (k : κ) (w : World) :
    ∀ (n fuel : Nat) (lastErr : Option Err),
      (∀ i < n, ctx.Err (Do.before ctx cfg fn k w i).2.now = none ∧
        (Do.call ctx cfg fn k w i).1 ≠ none ∧ (i : Int) ≠ cfg.MaxAttempts - 1 ∧
        (sleepOrDone ctx (calculateBackoff cfg i) (Do.call ctx cfg fn k w i).2.2).1 = false) →
      ∃ le, Do.loop ctx cfg fn (fuel + n) 0 lastErr k w
        = Do.loop ctx cfg fn fuel n le
            (Do.before ctx cfg fn k w n).1 (Do.before ctx cfg fn k w n).2 := by
  intro n
  induction n with
  | zero => intro fuel lastErr _; exact ⟨lastErr, rfl⟩
  | succ n ih =>
      intro fuel lastErr h
      obtain ⟨le, h1⟩ := ih (fuel + 1) lastErr (fun i hi => h i (Nat.lt_succ_of_lt hi))
      refine ⟨(Do.call ctx cfg fn k w n).1, ?_⟩
      rw [show fuel + (n + 1) = fuel + 1 + n by omega, h1]
      obtain ⟨hc, hf, hl, hs⟩ := h n (Nat.lt_succ_self n)
      rw [Do.loop]
      simp only [hc]
      unfold Do.call at hf hs
      rcases hfn : fn (Do.before ctx cfg fn k w n).1 (Do.before ctx cfg fn k w n).2
        with ⟨r, k1, w1⟩
      rw [hfn] at hf hs
      cases r with
      | none => exact absurd rfl hf
      | some e =>
          simp only [hl, if_false]
          rcases hsl : sleepOrDone ctx (calculateBackoff cfg n) w1 with ⟨b, w2⟩
          rw [hsl] at hs
          simp only at hs
          subst hs
          simp only [Do.before, Do.call, hfn, hsl]
          push_cast
          rfl

/-- With a context that is never cancelled, the first `n` calls failing and
`n` below the last attempt, `Do` reaches call number `n`. -/
theorem Do_reaches {κ : Type} (ctx : Context) (cfg : Config)
    (fn : κ → World → Option Err × κ × World) (k : κ) (w : World)
    (hctx : ctx.cancelAt = none) (n : Nat) (hn : n < cfg.MaxAttempts.toNat)
    (hfail : ∀ i < n, (Do.call ctx cfg fn k w i).1 ≠ none) :
    ∃ le, Do ctx cfg fn k w
      = Do.loop ctx cfg fn (cfg.MaxAttempts.toNat - n) n le
          (Do.before ctx cfg fn k w n).1 (Do.before ctx cfg fn k w n).2 := by
  have hpos : 0 ≤ cfg.MaxAttempts := by
    by_contra hneg
    have : cfg.MaxAttempts.toNat = 0 := Int.toNat_eq_zero.mpr (by omega)
    omega
  have hM : (cfg.MaxAttempts.toNat : Int) = cfg.MaxAttempts := Int.toNat_of_nonneg hpos
  obtain ⟨le, this⟩ := Do_loop_unroll ctx cfg fn k w n (cfg.MaxAttempts.toNat - n) none
    (fun i hi => ⟨Context_Err_never ctx hctx _, hfail i hi, by omega,
      sleepOrDone_never ctx hctx _ _⟩)
  rw [show cfg.MaxAttempts.toNat - n + n = cfg.MaxAttempts.toNat by omega] at this
  exact ⟨le, this⟩

/-- First success at call number `j`. -/
theorem Do_first_success {κ : Type} (ctx : Context) (cfg : Config)
    (fn : κ → World → Option Err × κ × World) (k : κ) (w : World)
    (hctx : ctx.cancelAt = none) (j : Nat) (hj : j < cfg.MaxAttempts.toNat)
    (hfail : ∀ i < j, (Do.call ctx cfg fn k w i).1 ≠ none)
    (hok : (Do.call ctx cfg fn k w j).1 = none) :
    Do ctx cfg fn k w = (none, (Do.call ctx cfg fn k w j).2) := by
  obtain ⟨le, hr⟩ := Do_reaches ctx cfg fn k w hctx j hj hfail
  rw [hr]
  obtain ⟨f, hf⟩ : ∃ f, cfg.MaxAttempts.toNat - j = f + 1 := ⟨cfg.MaxAttempts.toNat - j - 1, by omega⟩
  rw [hf, Do.loop]
  simp only [Context_Err_never ctx hctx]
  unfold Do.call at hok ⊢
  rcases hfn : fn (Do.before ctx cfg fn k w j).1 (Do.before ctx cfg fn k w j).2
    with ⟨r, k1, w1⟩
  rw [hfn] at hok
  simp only at hok
  subst hok
  rfl

/-- Every call fails: the result after the last attempt. -/
theorem Do_all_fail {κ : Type} (ctx : Context) (cfg : Config)
    (fn : κ → World → Option Err × κ × World) (k : κ) (w : World)
    (hctx : ctx.cancelAt = none) (hmax : 1 ≤ cfg.MaxAttempts)
    (hfail : ∀ i < cfg.MaxAttempts.toNat, (Do.call ctx cfg fn k w i).1 ≠ none) :
    ∃ e, (Do.call ctx cfg fn k w (cfg.MaxAttempts.toNat - 1)).1 = some e ∧
      Do ctx cfg fn k w
        = (some (.wrap ("failed after " ++ toString cfg.MaxAttempts ++ " attempts") e),
           (Do.call ctx cfg fn k w (cfg.MaxAttempts.toNat - 1)).2) := by
  have hM : (cfg.MaxAttempts.toNat : Int) = cfg.MaxAttempts := Int.toNat_of_nonneg (by omega)
  have hlt : cfg.MaxAttempts.toNat - 1 < cfg.MaxAttempts.toNat := by omega
  obtain ⟨le, hr⟩ := Do_reaches ctx cfg fn k w hctx (cfg.MaxAttempts.toNat - 1) hlt
    (fun i hi => hfail i (by omega))
  rw [hr]
  have hlast := hfail (cfg.MaxAttempts.toNat - 1) hlt
  rw [show cfg.MaxAttempts.toNat - (cfg.MaxAttempts.toNat - 1) = 0 + 1 by omega, Do.loop]
  simp only [Context_Err_never ctx hctx]
  unfold Do.call at hlast ⊢
  rcases hfn : fn (Do.before ctx cfg fn k w (cfg.MaxAttempts.toNat - 1)).1
    (Do.before ctx cfg fn k w (cfg.MaxAttempts.toNat - 1)).2 with ⟨r, k1, w1⟩
  rw [hfn] at hlast
  cases r with
  | none => exact absurd rfl hlast
  | some e =>
      have hl : ((cfg.MaxAttempts.toNat - 1 : Nat) : Int) = cfg.MaxAttempts - 1 := by omega
      simp only [hl, if_true, doExhausted]
      exact ⟨e, rfl, rfl⟩

/-- The sleeps taken before call number `j`, when `fn` does not sleep. -/
theorem Do_before_sleeps {κ : Type} (ctx : Context) (cfg : Config)
    (fn : κ → World → Option Err × κ × World) (k : κ) (w : World)
    (hfn : ∀ k1 w1, sleepsOf (fn k1 w1).2.2.trace = sleepsOf w1.trace) :
    ∀ j : Nat, sleepsOf (Do.before ctx cfg fn k w j).2.trace
      = ((List.range j).map (fun i : Nat => calculateBackoff cfg i)).reverse
          ++ sleepsOf w.trace := by
  intro j
  induction j with
  | zero => simp [Do.before]
  | succ j ih =>
      simp only [Do.before, sleepOrDone_sleeps, hfn, ih, List.range_succ, List.map_append,
        List.reverse_append, List.map_cons, List.map_nil, List.reverse_cons, List.reverse_nil,
        List.nil_append, List.singleton_append, List.cons_append]

/-- The counter before call number `i` is `i`. -/
theorem counting_before {κ : Type} (ctx : Context) (cfg : Config)
    (fn : κ → World → Option Err × κ × World) (k : κ) (w : World) :
    ∀ i : Nat, Do.before ctx cfg (counting fn) (0, k) w i
      = ((i, (Do.before ctx cfg fn k w i).1), (Do.before ctx cfg fn k w i).2) := by
  intro i
  induction i with
  | zero => rfl
  | succ i ih =>
      rw [Do.before, ih]
      simp [counting, Do.before]

/-- The counter after call number `i` is `i + 1`; the rest is the run of `fn`. -/
theorem counting_call {κ : Type} (ctx : Context) (cfg : Config)
    (fn : κ → World → Option Err × κ × World) (k : κ) (w : World) (i : Nat) :
    Do.call ctx cfg (counting fn) (0, k) w i
      = ((Do.call ctx cfg fn k w i).1, (i + 1, (Do.call ctx cfg fn k w i).2.1),
         (Do.call ctx cfg fn k w i).2.2) := by
  unfold Do.call
  rw [counting_before]
  simp [counting]

/-- Without an open transaction no repository runs inside one. -/
theorem inTx_noTx (r : OutboxRepo) (w : World) (h : w.tx = none) : r.inTx w = false := by
  simp [OutboxRepo.inTx, h]

/-- An update replaces every row of its id. -/
theorem apply_update_rows (t : Tables) (y : OutboxRow) (P : OutboxRow → Prop) (hy : P y) :
    ∀ row ∈ (t.apply (.updateOutbox y)).outbox, row.id = y.id → P row := by
  intro row hrow hid
  simp only [Tables.apply, List.mem_map] at hrow
  obtain ⟨x, _, hx⟩ := hrow
  by_cases hxy : x.id = y.id
  · rw [if_pos hxy] at hx
    exact hx ▸ hy
  · rw [if_neg hxy] at hx
    exact absurd (hx ▸ hid) hxy

/-- After a run of updates of rows of one id that all satisfy `P`, every row of
that id satisfies `P`, provided there was an update or it was so before. -/
theorem applyAll_updates (P : OutboxRow → Prop) (id0 : Int) :
    ∀ (ys : List OutboxRow) (t : Tables), (∀ y ∈ ys, y.id = id0 ∧ P y) →
      ((∀ row ∈ t.outbox, row.id = id0 → P row) ∨ ys ≠ []) →
      ∀ row ∈ (t.applyAll (ys.map Write.updateOutbox)).outbox, row.id = id0 → P row := by
  intro ys
  induction ys with
  | nil =>
      intro t _ h
      rcases h with h | h
      · exact h
      · exact absurd rfl h
  | cons y ys ih =>
      intro t hys _
      have hy := hys y (List.mem_cons_self y ys)
      show ∀ row ∈ ((t.apply (.updateOutbox y)).applyAll (ys.map Write.updateOutbox)).outbox, _
      refine ih _ (fun z hz => hys z (List.mem_cons_of_mem y hz)) (Or.inl ?_)
      intro row hrow hid
      exact apply_update_rows t y P hy.2 row hrow (hid.trans hy.1.symm)

/-- The effect of `UPDATE outbox SET ... WHERE id = $id` on the rows of that
id: each is the image of a row that had the id. -/
theorem update_all (t : Tables) (id : Int) (f : OutboxRow → OutboxRow) (P : OutboxRow → Prop)
    (hf : ∀ x, (f x).id = x.id) (hP : ∀ x ∈ t.outbox, x.id = id → P (f x)) :
    ∀ row ∈ (t.applyAll (updateOutboxWhereID t id f).2).outbox, row.id = id → P row := by
  unfold updateOutboxWhereID
  simp only []
  rw [show (t.outbox.filter (fun x => decide (x.id = id))).map (fun x => Write.updateOutbox (f x))
      = ((t.outbox.filter (fun x => decide (x.id = id))).map f).map Write.updateOutbox by
    simp [List.map_map, Function.comp]]
  by_cases hne : (t.outbox.filter (fun x => decide (x.id = id))).map f = []
  · rw [hne]
    intro row hrow hid
    have : row ∈ t.outbox.filter (fun x => decide (x.id = id)) :=
      List.mem_filter.mpr ⟨hrow, by simpa using hid⟩
    simp only [List.map_eq_nil_iff] at hne
    rw [hne] at this
    exact absurd this (List.not_mem_nil row)
  · refine applyAll_updates P id _ t ?_ (Or.inr hne)
    intro y hy
    obtain ⟨x, hx, rfl⟩ := List.mem_map.mp hy
    have hx2 := List.mem_filter.mp hx
    have hxid : x.id = id := by simpa using hx2.2
    exact ⟨(hf x).trans hxid, hP x hx2.1 hxid⟩

/-- The rows an `UPDATE ... WHERE id` of `MarkAsPublished` leaves. -/
theorem MarkAsPublished_db (env : Env) (r : OutboxRepo) (id : Int) (w : World)
    (htx : w.tx = none) :
    (r.MarkAsPublished env id w).2.tx = none ∧
    ((r.MarkAsPublished env id w).2.db = w.db ∨
      env.fault (.sql false (.markAsPublished OutboxStatusPublished id)
        :: .markAsPublished id :: w.trace) = none) ∧
    (env.fault (.sql false (.markAsPublished OutboxStatusPublished id)
        :: .markAsPublished id :: w.trace) = none →
      ∃ now, (r.MarkAsPublished env id w).2.db
        = w.db.applyAll (updateOutboxWhereID w.db id
            (fun x => { x with status := OutboxStatusPublished, publishedAt := some now })).2) := by
  have hin := inTx_noTx r w htx
  unfold OutboxRepo.MarkAsPublished perform note
  rw [hin]
  cases h : env.fault (.sql false (.markAsPublished OutboxStatusPublished id)
      :: .markAsPublished id :: w.trace)
  · exact ⟨htx, Or.inr rfl, fun _ => ⟨_, rfl⟩⟩
  · exact ⟨htx, Or.inl rfl, fun hc => absurd hc (by simp)⟩

/-- The rows an `UPDATE ... WHERE id` of `MarkAsFailed` leaves. -/
theorem MarkAsFailed_db (env : Env) (r : OutboxRepo) (id rc : Int) (w : World)
    (htx : w.tx = none) :
    (r.MarkAsFailed env id rc w).2.tx = none ∧
    ((r.MarkAsFailed env id rc w).2.db = w.db ∨
      (r.MarkAsFailed env id rc w).2.db
        = w.db.applyAll (updateOutboxWhereID w.db id
            (fun x => { x with status := OutboxStatusFailed, retryCount := rc })).2) ∧
    (env.fault (.sql false (.markAsFailed OutboxStatusFailed rc id)
        :: .markAsFailed id rc :: w.trace) = none →
      (r.MarkAsFailed env id rc w).2.db
        = w.db.applyAll (updateOutboxWhereID w.db id
            (fun x => { x with status := OutboxStatusFailed, retryCount := rc })).2) := by
  have hin := inTx_noTx r w htx
  unfold OutboxRepo.MarkAsFailed perform note
  rw [hin]
  cases h : env.fault (.sql false (.markAsFailed OutboxStatusFailed rc id)
      :: .markAsFailed id rc :: w.trace)
  · exact ⟨htx, Or.inr rfl, fun _ => rfl⟩
  · exact ⟨htx, Or.inl rfl, fun hc => absurd hc (by simp)⟩

/-- The rows an `UPDATE ... WHERE id` of `MoveToDLQ` leaves; they are changed
only when the method returns nil or finds no row. -/
theorem MoveToDLQ_db (env : Env) (r : OutboxRepo) (id : Int) (reason : String) (w : World)
    (htx : w.tx = none) :
    (r.MoveToDLQ env id reason w).2.tx = none ∧
    ((r.MoveToDLQ env id reason w).2.db = w.db ∨
      (r.MoveToDLQ env id reason w).2.db
        = w.db.applyAll (updateOutboxWhereID w.db id
            (fun x => { x with status := OutboxStatusDLQ, retryCount := x.retryCount + 1,
                               dlqReason := some reason })).2) ∧
    (env.fault (.sql false (.moveToDLQ OutboxStatusDLQ id reason)
        :: .moveToDLQ id reason :: w.trace) = none →
      (r.MoveToDLQ env id reason w).2.db
        = w.db.applyAll (updateOutboxWhereID w.db id
            (fun x => { x with status := OutboxStatusDLQ, retryCount := x.retryCount + 1,
                               dlqReason := some reason })).2) := by
  have hin := inTx_noTx r w htx
  unfold OutboxRepo.MoveToDLQ prepareStatement perform note
  rw [hin]
  simp only [Bool.false_eq_true, if_false]
  cases h : env.fault (.sql false (.moveToDLQ OutboxStatusDLQ id reason)
      :: .moveToDLQ id reason :: w.trace)
  · exact ⟨htx, Or.inr rfl, fun _ => rfl⟩
  · exact ⟨htx, Or.inl rfl, fun hc => absurd hc (by simp)⟩

/-- The poll selects rows in status `pending` only. -/
theorem selectPending_status (t : Tables) (limit : Int) :
    ∀ row ∈ selectPending t limit, row.status = OutboxStatusPending := by
  intro row hrow
  unfold selectPending at hrow
  have h1 := List.mem_of_mem_take hrow
  have h2 := (List.perm_insertionSort _ _).mem_iff.mp h1
  simpa using (List.mem_filter.mp h2).2

/-- The reason handed to `MoveToDLQ` is never the empty string. -/
theorem dlqReason_ne_empty (retryCount : Int) (publishErr : Err) :
    dlqReason retryCount publishErr ≠ "" := by
  intro h
  have h2 := congrArg String.length h
  simp only [dlqReason, String.length_append] at h2
  have h3 : "Failed after ".length = 13 := by decide
  have h4 : "".length = 0 := by decide
  omega

/-- Each call of `publishEvent` is one attempt. -/
theorem publishEvent_attempts (env : Env) (wk : OutboxWorker) (event : OutboxEvent) (w : World) :
    (wk.publishEvent env event w).2.trace.countP Call.isAttempt
      = w.trace.countP Call.isAttempt + 1 := by
  unfold OutboxWorker.publishEvent
  cases wk.AdaptEvent event w.now with
  | error err => simp [note, Call.isAttempt]
  | ok t =>
      obtain ⟨eventType, productID, timestamp⟩ := t
      simp only
      split_ifs <;> simp [perform, note, Call.isAttempt, List.countP_cons]

/-- A sleep is not an attempt. -/
theorem sleepOrDone_attempts (ctx : Context) (d : Int) (w : World) :
    (sleepOrDone ctx d w).2.trace.countP Call.isAttempt = w.trace.countP Call.isAttempt := by
  unfold sleepOrDone note
  cases ctx.cancelAt with
  | none => simp [Call.isAttempt, List.countP_cons]
  | some t =>
      simp only
      split_ifs <;> simp [Call.isAttempt, List.countP_cons]

/-- Attempt number `i` is the `(i + 1)`-th. -/
theorem attemptResult_attempts (env : Env) (wk : OutboxWorker) (ctx : Context)
    (event : OutboxEvent) (w : World) :
    ∀ i : Nat, (wk.attemptResult env ctx event w i).2.trace.countP Call.isAttempt
      = w.trace.countP Call.isAttempt + (i + 1) := by
  intro i
  induction i with
  | zero => simp [OutboxWorker.attemptResult, OutboxWorker.beforeAttempt, publishEvent_attempts]
  | succ i ih =>
      unfold OutboxWorker.attemptResult at ih ⊢
      rw [publishEvent_attempts, OutboxWorker.beforeAttempt, sleepOrDone_attempts, ih]
      omega

/-- Unrolling of `retryLoop`: attempts `0 .. n` fail and no sleep is
interrupted. -/
theorem retryLoop_unroll (env : Env) (wk : OutboxWorker) (ctx : Context) (event : OutboxEvent)
    (w : World) (hctx : ctx.cancelAt = none) :
    ∀ (n fuel : Nat) (lastErr : Option Err),
      (∀ i ≤ n, (wk.attemptResult env ctx event w i).1 ≠ none) →
      wk.retryLoop env ctx event (fuel + (n + 1)) 0 lastErr w
        = wk.retryLoop env ctx event fuel ((n : Int) + 1)
            (wk.attemptResult env ctx event w n).1 (wk.attemptResult env ctx event w n).2 := by
  intro n
  induction n with
  | zero =>
      intro fuel lastErr h
      have h0 := h 0 (Nat.le_refl 0)
      unfold OutboxWorker.attemptResult OutboxWorker.beforeAttempt at h0 ⊢
      rw [show fuel + (0 + 1) = fuel + 1 by omega, OutboxWorker.retryLoop]
      simp only [gt_iff_lt, lt_self_iff_false, if_false]
      rcases hp : wk.publishEvent env event w with ⟨r, w2⟩
      rw [hp] at h0
      cases r with
      | none => exact absurd rfl h0
      | some e => simp
  | succ n ih =>
      intro fuel lastErr h
      rw [show fuel + (n + 1 + 1) = fuel + 1 + (n + 1) by omega,
        ih (fuel + 1) lastErr (fun i hi => h i (Nat.le_succ_of_le hi)), OutboxWorker.retryLoop]
      have hpos : (n : Int) + 1 > 0 := by omega
      have hs := sleepOrDone_never ctx hctx (wk.backoff ((n : Int) + 1))
        (wk.attemptResult env ctx event w n).2
      have hn := h (n + 1) (Nat.le_refl _)
      unfold OutboxWorker.attemptResult at hn hs ⊢
      rw [OutboxWorker.beforeAttempt] at hn ⊢
      push_cast at hn ⊢
      simp only [hpos, if_true]
      rcases hsl : sleepOrDone ctx (wk.backoff ((n : Int) + 1))
        (wk.publishEvent env event (wk.beforeAttempt env ctx event w n)).2 with ⟨b, w1⟩
      rw [hsl] at hs hn
      simp only at hs hn
      subst hs
      simp only
      rcases hp : wk.publishEvent env event w1 with ⟨r, w2⟩
      rw [hp] at hn
      cases r with
      | none => exact absurd rfl hn
      | some e => rfl

/-- First success of `retryLoop` at attempt number `n`. -/
theorem retryLoop_success (env : Env) (wk : OutboxWorker) (ctx : Context) (event : OutboxEvent)
    (w : World) (hctx : ctx.cancelAt = none) (n fuel : Nat) (lastErr : Option Err)
    (hfail : ∀ i < n, (wk.attemptResult env ctx event w i).1 ≠ none)
    (hok : (wk.attemptResult env ctx event w n).1 = none) :
    wk.retryLoop env ctx event (fuel + (n + 1)) 0 lastErr w
      = (none, (wk.attemptResult env ctx event w n).2) := by
  cases n with
  | zero =>
      unfold OutboxWorker.attemptResult OutboxWorker.beforeAttempt at hok ⊢
      rw [show fuel + (0 + 1) = fuel + 1 by omega, OutboxWorker.retryLoop]
      simp only [gt_iff_lt, lt_self_iff_false, if_false]
      rcases hp : wk.publishEvent env event w with ⟨r, w2⟩
      rw [hp] at hok
      simp only at hok
      subst hok
      rfl
  | succ n =>
      rw [show fuel + (n + 1 + 1) = fuel + 1 + (n + 1) by omega,
        retryLoop_unroll env wk ctx event w hctx n (fuel + 1) lastErr
          (fun i hi => hfail i (by omega)), OutboxWorker.retryLoop]
      have hpos : (n : Int) + 1 > 0 := by omega
      have hs := sleepOrDone_never ctx hctx (wk.backoff ((n : Int) + 1))
        (wk.attemptResult env ctx event w n).2
      unfold OutboxWorker.attemptResult at hok hs ⊢
      rw [OutboxWorker.beforeAttempt] at hok ⊢
      simp only [hpos, if_true]
      rcases hsl : sleepOrDone ctx (wk.backoff ((n : Int) + 1))
        (wk.publishEvent env event (wk.beforeAttempt env ctx event w n)).2 with ⟨b, w1⟩
      rw [hsl] at hs hok
      simp only at hs hok
      subst hs
      simp only
      rcases hp : wk.publishEvent env event w1 with ⟨r, w2⟩
      rw [hp] at hok
      simp only at hok
      subst hok
      rfl

/-- Scanning the returned rows changes `ID` and `CreatedAt` only. -/
theorem assignReturned_args : ∀ (es : List OutboxEvent) (rs : List (Int × Int)),
    (assignReturned es rs).map OutboxEvent.insertArgs = es.map OutboxEvent.insertArgs ∧
    (assignReturned es rs).length = es.length := by
  intro es
  induction es with
  | nil => intro rs; cases rs <;> simp [assignReturned]
  | cons e es ih =>
      intro rs
      cases rs with
      | nil => simp [assignReturned]
      | cons p rs =>
          obtain ⟨id, createdAt⟩ := p
          simp [assignReturned, ih rs, OutboxEvent.insertArgs]

/-- One batch insert that the driver runs: nil, one statement with the rows of
the events in order, and the events keep their parameters. -/
theorem saveEventsBatchSingle_ok (env : Env) (r : OutboxRepo) (chunk : List OutboxEvent)
    (w : World) (hne : chunk ≠ [])
    (hprep : ∀ tr, env.fault (.sqlPrepare true :: tr) = none)
    (hins : ∀ b rows tr, env.fault (.sql b (.saveEventsBatch rows) :: tr) = none) :
    (r.saveEventsBatchSingle env chunk w).1 = none ∧
    (r.saveEventsBatchSingle env chunk w).2.1.map OutboxEvent.insertArgs
      = chunk.map OutboxEvent.insertArgs ∧
    (r.saveEventsBatchSingle env chunk w).2.1.length = chunk.length ∧
    batchesIssued (r.saveEventsBatchSingle env chunk w).2.2.trace
      = batchesIssued w.trace ++ [chunk.map OutboxEvent.insertArgs] := by
  have hemp : chunk.isEmpty = false := by
    cases chunk with
    | nil => exact absurd rfl hne
    | cons _ _ => rfl
  unfold OutboxRepo.saveEventsBatchSingle prepareStatement perform
  cases hin : r.inTx w <;>
    simp [hprep, hins, hemp, World.write_trace, batchesIssued, assignReturned_args,
      OutboxEvent.insertArgs]

/-- A list is its first `i` elements, the slice `[i:stop]` and the rest. -/
theorem slice_splice {α : Type} (l : List α) (i stop : Nat) (h : i ≤ stop) :
    l.take i ++ (l.drop i).take (stop - i) ++ l.drop stop = l := by
  have hd : l.drop stop = (l.drop i).drop (stop - i) := by
    rw [List.drop_drop, show i + (stop - i) = stop by omega]
  rw [hd, List.append_assoc, List.take_append_drop, List.take_append_drop]

/-- The slice `[i:min (i + m) len]` followed by what starts at `i + m` is what
starts at `i`. -/
theorem slice_then_rest {α : Type} (l : List α) (i m : Nat) :
    (l.drop i).take (min (i + m) l.length - i) ++ l.drop (i + m) = l.drop i := by
  by_cases h : i + m ≤ l.length
  · rw [show min (i + m) l.length - i = m by omega, ← List.drop_drop, List.take_append_drop]
  · have hd : l.drop (i + m) = [] := List.drop_eq_nil_of_le (by omega)
    rw [hd, List.append_nil]
    exact List.take_of_length_le (by rw [List.length_drop]; omega)

/-- The number of chunks left from index `i`. -/
theorem chunks_left (len i m : Nat) (hm : 1 ≤ m) (hi : i < len) :
    (len - (i + m) + m - 1) / m + 1 = (len - i + m - 1) / m := by
  by_cases h : i + m ≤ len
  · rw [← Nat.add_div_right _ (by omega : 0 < m)]
    congr 1
    omega
  · rw [show len - i + m - 1 = (len - i - 1) + m by omega, Nat.add_div_right _ (by omega : 0 < m),
      Nat.div_eq_of_lt (by omega : len - (i + m) + m - 1 < m),
      Nat.div_eq_of_lt (by omega : len - i - 1 < m)]

/-- The loop of `saveEventsBatchInChunks` with enough iterations left, when the
driver runs every statement: nil, and the statements issued are the
consecutive slices of at most `m` rows from index `i` on. -/
theorem chunkLoop_ok (env : Env) (r : OutboxRepo) (m : Nat) (hm : 1 ≤ m)
    (hprep : ∀ tr, env.fault (.sqlPrepare true :: tr) = none)
    (hins : ∀ b rows tr, env.fault (.sql b (.saveEventsBatch rows) :: tr) = none) :
    ∀ (fuel i : Nat) (events : List OutboxEvent) (w : World),
      events.length ≤ i + fuel * m →
      (r.chunkLoop env m (fuel + 1) i events w).1 = none ∧
      ∃ chunks : List (List OutboxInsert),
        batchesIssued (r.chunkLoop env m (fuel + 1) i events w).2.2.trace
          = batchesIssued w.trace ++ chunks ∧
        (∀ c ∈ chunks, 1 ≤ c.length ∧ c.length ≤ m) ∧
        chunks.flatten = (events.map OutboxEvent.insertArgs).drop i ∧
        chunks.length = (events.length - i + m - 1) / m := by
  have hdone : ∀ (fuel i : Nat) (events : List OutboxEvent) (w : World),
      ¬ i < events.length →
      (r.chunkLoop env m (fuel + 1) i events w).1 = none ∧
      ∃ chunks : List (List OutboxInsert),
        batchesIssued (r.chunkLoop env m (fuel + 1) i events w).2.2.trace
          = batchesIssued w.trace ++ chunks ∧
        (∀ c ∈ chunks, 1 ≤ c.length ∧ c.length ≤ m) ∧
        chunks.flatten = (events.map OutboxEvent.insertArgs).drop i ∧
        chunks.length = (events.length - i + m - 1) / m := by
    intro fuel i events w hge
    rw [OutboxRepo.chunkLoop]
    simp only [hge, if_false]
    refine ⟨trivial, [], by simp, by simp, ?_, ?_⟩
    · rw [List.drop_eq_nil_of_le (by rw [List.length_map]; omega)]
      rfl
    · rw [Nat.div_eq_of_lt (by omega)]
      rfl
  intro fuel
  induction fuel with
  | zero =>
      intro i events w hlen
      exact hdone 0 i events w (by omega)
  | succ f ih =>
      intro i events w hlen
      by_cases hlt : i < events.length
      · have hne : (events.drop i).take (min (i + m) events.length - i) ≠ [] := by
          intro h
          have := congrArg List.length h
          simp only [List.length_take, List.length_drop, List.length_nil] at this
          omega
        obtain ⟨s1, s2, s3, s4⟩ := saveEventsBatchSingle_ok env r
          ((events.drop i).take (min (i + m) events.length - i)) w hne hprep hins
        rw [OutboxRepo.chunkLoop]
        simp only [hlt, if_true]
        rcases hs : r.saveEventsBatchSingle env
            ((events.drop i).take (min (i + m) events.length - i)) w with ⟨e, chunk1, w1⟩
        rw [hs] at s1 s2 s3 s4
        simp only at s1 s2 s3 s4
        subst s1
        simp only
        have hargs : (events.take i ++ chunk1 ++ events.drop (min (i + m) events.length)).map
            OutboxEvent.insertArgs = events.map OutboxEvent.insertArgs := by
          rw [List.map_append, List.map_append, s2, ← List.map_append, ← List.map_append,
            slice_splice events i _ (by omega)]
        have hlen2 : (events.take i ++ chunk1 ++ events.drop (min (i + m) events.length)).length
            = events.length := by
          have := congrArg List.length hargs
          simpa only [List.length_map] using this
        obtain ⟨h1, chunks, hb, hc, hf, hl⟩ := ih (i + m)
          (events.take i ++ chunk1 ++ events.drop (min (i + m) events.length)) w1
          (by rw [hlen2]; rw [Nat.succ_mul] at hlen; omega)
        refine ⟨h1, ((events.drop i).take (min (i + m) events.length - i)).map
          OutboxEvent.insertArgs :: chunks, ?_, ?_, ?_, ?_⟩
        · rw [hb, s4, List.append_assoc]
          rfl
        · intro c hcm
          rcases List.mem_cons.mp hcm with rfl | hcm
          · simp only [List.length_map, List.length_take, List.length_drop]
            omega
          · exact hc c hcm
        · rw [List.flatten_cons, hf, hargs, List.map_take, List.map_drop]
          have := slice_then_rest (events.map OutboxEvent.insertArgs) i m
          rw [List.length_map] at this
          exact this
        · rw [List.length_cons, hl, hlen2]
          exact chunks_left events.length i m hm hlt
      · exact hdone (f + 1) i events w hlt

/-- The backoff of the dispatcher before retry `n ≥ 1` is the delay of the
retry engine for the same base and cap. -/
theorem backoff_eq_calculateBackoff (wk : OutboxWorker) (cfg : Config) (n : Int) (hn : n ≠ 0)
    (hbase : wk.baseBackoff = cfg.BaseBackoff) (hmax : wk.maxBackoff = cfg.MaxBackoff) :
    wk.backoff n = calculateBackoff cfg n := by
  simp [OutboxWorker.backoff, calculateBackoff, hn, hbase, hmax]

/-- The keys of the payload select their own field only. -/
theorem keyIs_names :
    keyIs "product_id" "type" = false ∧ keyIs "product_id" "product_id" = true ∧
    keyIs "timestamp" "type" = false ∧ keyIs "timestamp" "product_id" = false ∧
    keyIs "timestamp" "timestamp" = true ∧ keyIs "type" "type" = true := by
  decide

/-- Decoding what `MarshalJSON` wrote gives the three values back. -/
theorem unmarshal_MarshalJSON (e : DomainEvent) (data : JsonObject)
    (hdata : e.MarshalJSON = .ok data)
    (hid : -(2 ^ 63) ≤ e.ProductID ∧ e.ProductID < 2 ^ 63) :
    unmarshalEventFields (some data)
      = .ok { Type_ := e.EventType, ProductID := e.ProductID, Timestamp := e.Timestamp } := by
  unfold DomainEvent.MarshalJSON at hdata
  split_ifs at hdata
  injection hdata with hdata
  subst hdata
  obtain ⟨k1, k2, k3, k4, k5, k6⟩ := keyIs_names
  have hr : -9223372036854775808 ≤ e.ProductID ∧ e.ProductID < 9223372036854775808 := by
    norm_num at hid
    exact hid
  simp [unmarshalEventFields, setFields, setField, k1, k2, k3, k4, k5, k6, hr,
    EventFields.zero]

/-- The type of an event is never the empty string. -/
theorem EventType_ne_empty (e : DomainEvent) : e.EventType ≠ "" := by
  unfold DomainEvent.EventType
  cases e.kind <;> decide

/-- Keeping what is after `y` and then what is after `x ≥ y` keeps what is after `x`. -/
theorem keepAfter_keepAfter (x y : Int) (h : y ≤ x) (l : List Int) :
    keepAfter x (keepAfter y l) = keepAfter x l := by
  unfold keepAfter
  rw [List.filter_filter]
  congr 1
  funext t
  have : t > x → t > y := fun ht => by omega
  by_cases ht : t > x <;> simp [ht, this]

/-- `keepAfter` goes through `++`. -/
theorem keepAfter_append (x : Int) (a b : List Int) :
    keepAfter x (a ++ b) = keepAfter x a ++ keepAfter x b := by
  simp [keepAfter]

/-- `instantsOf` goes through `++`. -/
theorem instantsOf_append (c : String) (a b : List (Int × String)) :
    instantsOf c (a ++ b) = instantsOf c a ++ instantsOf c b := by
  simp [instantsOf]

/-- `inWindow` adds up over `++`. -/
theorem inWindow_append (a w : Int) (x y : List Int) :
    inWindow a w (x ++ y) = inWindow a w x + inWindow a w y := by
  simp [inWindow]

/-- The instants in a window that starts at `a ≥ x` are among those after `x`. -/
theorem inWindow_le_keepAfter (a w x : Int) (h : x ≤ a) (l : List Int) :
    inWindow a w l ≤ (keepAfter x l).length := by
  unfold inWindow keepAfter
  refine (List.monotone_filter_right l ?_).length_le
  intro t ht
  simp only [decide_eq_true_eq] at ht ⊢
  omega

/-- The instants of one admitted request. -/
theorem instantsOf_single (c cl : String) (now : Int) :
    instantsOf c [(now, cl)] = if cl = c then [now] else [] := by
  unfold instantsOf
  by_cases h : cl = c <;> simp [h]

/-- Admitting a request at `now` keeps every window within the limit when
fewer than `limit` admitted instants are after `now - window`. -/
theorem window_after_admit (limit W now : Int) (cl : String) (hist : List (Int × String))
    (hP : ∀ c a, (inWindow a W (instantsOf c hist) : Int) ≤ limit)
    (hroom : ((keepAfter (now - W) (instantsOf cl hist)).length : Int) < limit) :
    ∀ c a, (inWindow a W (instantsOf c (hist ++ [(now, cl)])) : Int) ≤ limit := by
  intro c a
  rw [instantsOf_append, inWindow_append, instantsOf_single]
  by_cases hc : cl = c
  · subst hc
    simp only [if_true]
    by_cases hin : a < now ∧ now ≤ a + W
    · have h1 := inWindow_le_keepAfter a W (now - W) (by omega) (instantsOf cl hist)
      have h2 : inWindow a W [now] = 1 := by simp [inWindow, hin]
      rw [h2]
      push_cast
      omega
    · have h2 : inWindow a W [now] = 0 := by simp [inWindow, hin]
      rw [h2]
      simpa using hP cl a
  · simp only [hc, if_false]
    simpa [inWindow] using hP c a

/-- Replacing the instants kept for `cl` by a list that agrees with the
admitted requests from `now - window` on keeps the memory of the limiter. -/
theorem Remembers_update (rl : RateLimiter) (hist hist1 : List (Int × String)) (T now : Int)
    (cl : String) (entry : Option (List Int)) (hT : T ≤ now) (hR : Remembers rl hist T)
    (hother : ∀ c, c ≠ cl → instantsOf c hist1 = instantsOf c hist)
    (hcl : ∀ x, now - rl.window ≤ x →
      keepAfter x (entry.getD []) = keepAfter x (instantsOf cl hist1)) :
    Remembers { rl with requests := fun c => if c = cl then entry else rl.requests c }
      hist1 now := by
  intro c x hx
  simp only [RateLimiter.kept] at hx ⊢
  by_cases hc : c = cl
  · subst hc
    simp only [if_true]
    exact hcl x hx
  · simp only [hc, if_false]
    rw [hother c hc]
    exact hR c x (by omega)

/-- A pass of `cleanup` keeps the memory of the limiter. -/
theorem Remembers_cleanup (rl : RateLimiter) (hist : List (Int × String)) (T now : Int)
    (hT : T ≤ now) (hR : Remembers rl hist T) : Remembers (rl.cleanup now) hist now := by
  intro c x hx
  have hx1 : now - rl.window ≤ x := hx
  have h0 := hR c x (by omega)
  unfold RateLimiter.kept at h0 ⊢
  unfold RateLimiter.cleanup
  simp only
  cases hreq : rl.requests c with
  | none =>
      rw [hreq] at h0
      exact h0
  | some requests =>
      rw [hreq] at h0
      simp only [Option.getD_some] at h0
      by_cases hempty : (keepAfter (now - rl.window) requests).length = 0
      · simp only [hempty, if_true, Option.getD_none]
        rw [← h0, ← keepAfter_keepAfter x (now - rl.window) hx1 requests,
          List.length_eq_zero.mp hempty]
      · simp only [hempty, if_false, Option.getD_some]
        rw [keepAfter_keepAfter x (now - rl.window) hx1, h0]

/-- With a limit of at least 1 and a clock that does not run backwards, every
window `(a, a + window]` holds at most `limit` admitted requests of a client,
whatever the other clients request and whenever `cleanup` runs. -/
theorem admitted_within_limit (limit W : Int) (hlimit : 1 ≤ limit) :
    ∀ (steps : List LimiterStep) (rl : RateLimiter) (hist : List (Int × String)) (T : Int),
      rl.limit = limit → rl.window = W → Remembers rl hist T →
      List.Chain (fun s t => s ≤ t) T (steps.map LimiterStep.time) →
      (∀ c a, (inWindow a W (instantsOf c hist) : Int) ≤ limit) →
      ∀ c a, (inWindow a W (instantsOf c (hist ++ rl.admitted steps)) : Int) ≤ limit := by
  intro steps
  induction steps with
  | nil =>
      intro rl hist T _ _ _ _ hP c a
      simpa [RateLimiter.admitted] using hP c a
  | cons step rest ih =>
      intro rl hist T hl hw hR hchain hP
      subst hl hw
      rw [List.map_cons, List.chain_cons] at hchain
      obtain ⟨hT, hrest⟩ := hchain
      cases step with
      | sweep now =>
          simp only [RateLimiter.admitted]
          exact ih (rl.cleanup now) hist now rfl rfl (Remembers_cleanup rl hist T now hT hR)
            hrest hP
      | request now cl =>
          simp only [LimiterStep.time] at hT hrest
          have hmem := hR cl (now - rl.window) (by omega)
          unfold RateLimiter.kept at hmem
          simp only [RateLimiter.admitted, RateLimiter.allow]
          cases hreq : rl.requests cl with
          | none =>
              rw [hreq] at hmem
              simp only [if_true]
              rw [show hist ++ (now, cl) :: RateLimiter.admitted
                    { rl with requests := fun c => if c = cl then some [now] else rl.requests c }
                    rest
                  = (hist ++ [(now, cl)]) ++ RateLimiter.admitted
                    { rl with requests := fun c => if c = cl then some [now] else rl.requests c }
                    rest by simp]
              refine ih _ (hist ++ [(now, cl)]) now rfl rfl ?_ hrest ?_
              · refine Remembers_update rl hist _ T now cl (some [now]) hT hR ?_ ?_
                · intro c hc
                  rw [instantsOf_append, instantsOf_single, if_neg (Ne.symm hc),
                    List.append_nil]
                · intro x hx
                  rw [instantsOf_append, instantsOf_single, if_pos rfl, keepAfter_append,
                    ← keepAfter_keepAfter x (now - rl.window) hx
                      (instantsOf cl hist), ← hmem]
                  simp [keepAfter]
              · refine window_after_admit rl.limit rl.window now cl hist hP ?_
                rw [← hmem]
                simp only [Option.getD_none, keepAfter, List.filter_nil, List.length_nil]
                omega
          | some requests =>
              rw [hreq] at hmem
              simp only [Option.getD_some] at hmem
              by_cases hfull : ((keepAfter (now - rl.window) requests).length : Int) ≥ rl.limit
              · simp only [hfull, if_true, Bool.false_eq_true, if_false]
                refine ih _ hist now rfl rfl ?_ hrest hP
                refine Remembers_update rl hist hist T now cl _ hT hR (fun _ _ => rfl) ?_
                intro x hx
                rw [Option.getD_some, keepAfter_keepAfter x (now - rl.window) hx,
                  ← keepAfter_keepAfter x (now - rl.window) hx (instantsOf cl hist), ← hmem,
                  keepAfter_keepAfter x (now - rl.window) hx]
              · simp only [hfull, if_false, if_true]
                rw [show hist ++ (now, cl) :: RateLimiter.admitted
                      { rl with requests := fun c =>
                          if c = cl then some (keepAfter (now - rl.window) requests ++ [now])
                          else rl.requests c } rest
                    = (hist ++ [(now, cl)]) ++ RateLimiter.admitted
                      { rl with requests := fun c =>
                          if c = cl then some (keepAfter (now - rl.window) requests ++ [now])
                          else rl.requests c } rest by simp]
                refine ih _ (hist ++ [(now, cl)]) now rfl rfl ?_ hrest ?_
                · refine Remembers_update rl hist _ T now cl _ hT hR ?_ ?_
                  · intro c hc
                    rw [instantsOf_append, instantsOf_single, if_neg (Ne.symm hc),
                      List.append_nil]
                  · intro x hx
                    rw [Option.getD_some, instantsOf_append, instantsOf_single, if_pos rfl,
                      keepAfter_append, keepAfter_append, keepAfter_keepAfter x (now - rl.window) hx,
                      ← keepAfter_keepAfter x (now - rl.window) hx (instantsOf cl hist), ← hmem,
                      keepAfter_keepAfter x (now - rl.window) hx]
                · refine window_after_admit rl.limit rl.window now cl hist hP ?_
                  rw [← hmem]
                  omega

/-- The bound for a limiter as `NewRateLimiter` returns it. -/
theorem NewRateLimiter_within_limit (limit W : Int) (hlimit : 1 ≤ limit)
    (steps : List LimiterStep) (T : Int)
    (hclock : List.Chain (fun s t => s ≤ t) T (steps.map LimiterStep.time))
    (c : String) (a : Int) :
    (inWindow a W (instantsOf c ((NewRateLimiter limit W).admitted steps)) : Int) ≤ limit := by
  have h := admitted_within_limit limit W hlimit steps (NewRateLimiter limit W) [] T rfl rfl
    (fun _ _ _ => rfl) hclock (fun c a => by simp [inWindow, instantsOf]; omega) c a
  simpa using h

/-- Whatever decodes with a type passes the smart adapter unchecked. -/
theorem smartAdaptEvent_of_type (outboxEvent : OutboxEvent) (now : Int) (fields : EventFields)
    (hdecode : unmarshalEventFields outboxEvent.EventData = .ok fields)
    (htype : fields.Type_ ≠ "") :
    smartAdaptEvent outboxEvent now
      = .ok (fields.Type_, fields.ProductID,
             if fields.Timestamp = zeroTime then now else fields.Timestamp) := by
  simp [smartAdaptEvent, hdecode, htype]

/-- `NewProductName` succeeds exactly when the trimmed name is not empty and
takes at most 255 bytes, and then returns the trimmed name. -/
theorem NewProductName_ok_iff (name : String) :
    (NewProductName name = .ok (TrimSpace name) ↔
      TrimSpace name ≠ "" ∧ len (TrimSpace name) ≤ 255) ∧
    (∀ value, NewProductName name = .ok value → value = TrimSpace name) := by
  unfold NewProductName
  by_cases h1 : TrimSpace name = ""
  · simp [h1]
  · by_cases h2 : len (TrimSpace name) > 255
    · simp [h1, h2]
    · simp [h1, h2]
      omega

/-- For every price that is not NaN, `NewPrice` succeeds exactly when
`0 < p ≤ 1e15`; it returns the price as it is, and fails with
`ErrInvalidProductPrice` for `p ≤ 0`. -/
theorem NewPrice_not_nan (p : Float64) :
    (p ≠ .nan → (NewPrice p = .ok p ↔
      p.gt (.finite 0) = true ∧ p.le (.finite 1000000000000000) = true)) ∧
    (p.le (.finite 0) = true → NewPrice p = .error ErrInvalidProductPrice) ∧
    (∀ value, NewPrice p = .ok value → value = p) := by
  have hvalue : ∀ value, NewPrice p = .ok value → value = p := by
    intro value h
    unfold NewPrice at h
    split_ifs at h
    injection h with h
    exact h.symm
  refine ⟨?_, fun h => by simp [NewPrice, h], hvalue⟩
  intro hnan
  cases p with
  | nan => exact absurd rfl hnan
  | posInf => simp [NewPrice, Float64.le, Float64.gt]
  | negInf => simp [NewPrice, Float64.le, Float64.gt]
  | finite q =>
      by_cases h1 : q ≤ 0
      · simp [NewPrice, Float64.le, Float64.gt, h1]
      · by_cases h2 : q > 1000000000000000
        · simp [NewPrice, Float64.le, Float64.gt, h1, h2]
        · simp [NewPrice, Float64.le, Float64.gt, h1, h2]
          exact ⟨not_le.mp h1, not_lt.mp h2⟩

/-- Outside a transaction a poll locks nothing beyond its end, and a second
poll that the driver runs returns what the first returned. -/
theorem poll_twice (env : Env) (r : OutboxRepo) (limit : Int) (w : World) (htx : w.tx = none)
    (hfirst : env.fault (.sql false (.getPendingEvents OutboxStatusPending limit) :: w.trace)
      = none)
    (hsecond : env.fault (.sql false (.getPendingEvents OutboxStatusPending limit)
      :: .sql false (.getPendingEvents OutboxStatusPending limit) :: w.trace) = none) :
    r.lockedAfterPoll limit w = [] ∧
    (r.GetPendingEvents env limit (r.GetPendingEvents env limit w).2).1
      = (r.GetPendingEvents env limit w).1 := by
  have hin := inTx_noTx r w htx
  constructor
  · simp [OutboxRepo.lockedAfterPoll, hin]
  · have hin2 : ∀ w1 : World, w1.tx = none → r.inTx w1 = false := fun w1 h => inTx_noTx r w1 h
    unfold OutboxRepo.GetPendingEvents perform
    rw [hin]
    simp only [hfirst]
    by_cases hl : limit < 0
    · simp [hl, OutboxRepo.inTx, htx, hsecond]
    · simp [hl, OutboxRepo.inTx, htx, hsecond, World.view]

/-! ### The claims -/

/-- C1 (code defect, the one of C3): `CreateProductWithEvent` returns success
although `tx.Commit()` failed; the store then holds neither the product row nor
an outbox row with the key, without a retrier and with one.  With the wiring
of `bootstrap` (the product repository wrapped in the metrics decorator, which
`SetTransaction` does not reach) the product row is written outside the
transaction and stays, while the outbox row is lost. -/
theorem C1_success_without_commit :
    ((plainService false).CreateProductWithEvent commitFails .background widget "k1"
        emptyWorld).1 = none ∧
    ((plainService false).CreateProductWithEvent commitFails .background widget "k1"
        emptyWorld).2.2.db = { products := [], outbox := [] } ∧
    ((plainService true).CreateProductWithEvent commitFails .background widget "k1"
        emptyWorld).1 = none ∧
    ((plainService true).CreateProductWithEvent commitFails .background widget "k1"
        emptyWorld).2.2.db = { products := [], outbox := [] } ∧
    keyCount "k1" ((plainService true).CreateProductWithEvent commitFails .background widget
        "k1" emptyWorld).2.2.db.outbox = 0 ∧
    (productionService.CreateProductWithEvent commitFails .background widget "k1"
        emptyWorld).1 = none ∧
    (productionService.CreateProductWithEvent commitFails .background widget "k1"
        emptyWorld).2.2.db.products.length = 1 ∧
    keyCount "k1" (productionService.CreateProductWithEvent commitFails .background widget "k1"
        emptyWorld).2.2.db.outbox = 0 := by
  decide

/-- C2 (counterexample): two calls in sequence with the same non-empty key and
the same payload both succeed and leave two product rows (and one outbox
row): nothing de-duplicates the insert into `products`. -/
theorem C2_two_product_rows_counterexample :
    "k1" ≠ "" ∧
    (productionService.CreateProductWithEvent Env.calm .background widget "k1" emptyWorld).1
      = none ∧
    (productionService.CreateProductWithEvent Env.calm .background widget "k1"
      (productionService.CreateProductWithEvent Env.calm .background widget "k1"
        emptyWorld).2.2).1 = none ∧
    (productionService.CreateProductWithEvent Env.calm .background widget "k1"
      (productionService.CreateProductWithEvent Env.calm .background widget "k1"
        emptyWorld).2.2).2.2.db.products.length = 2 ∧
    keyCount "k1" (productionService.CreateProductWithEvent Env.calm .background widget "k1"
      (productionService.CreateProductWithEvent Env.calm .background widget "k1"
        emptyWorld).2.2).2.2.db.outbox = 1 := by
  decide

/-- C2 (amended): on a store that holds at most one outbox row with key `key`
and has no transaction open, two calls of `CreateProductWithEvent` in sequence
with that key leave at most one outbox row with it: for every environment
(every outcome of `BeginTx`, of the statements, of `Commit` and `Rollback`),
every service (with and without retrier, batch and per-event path) and every
pair of products. -/
theorem C2_at_most_one_outbox_row (env : Env) (s : ProductService) (ctx1 ctx2 : Context)
    (p1 p2 : Product) (key : String) (w : World)
    (h0 : keyCount key w.db.outbox ≤ 1) (htx : w.tx = none) :
    keyCount key (s.CreateProductWithEvent env ctx2 p2 key
      (s.CreateProductWithEvent env ctx1 p1 key w).2.2).2.2.db.outbox ≤ 1 := by
  have hw : KeyOK key w := by
    unfold KeyOK World.view
    rw [htx]
    exact ⟨h0, h0⟩
  exact (CreateProductWithEvent_KeyOK key env s ctx2 p2 key _
    (CreateProductWithEvent_KeyOK key env s ctx1 p1 key w hw)).1

/-- Witness of C2: the two calls of the counterexample, on the empty store. -/
theorem C2_at_most_one_outbox_row_witness :
    keyCount "k1" emptyWorld.db.outbox ≤ 1 ∧ emptyWorld.tx = none ∧
    keyCount "k1" (productionService.CreateProductWithEvent Env.calm .background widget "k1"
      (productionService.CreateProductWithEvent Env.calm .background widget "k1"
        emptyWorld).2.2).2.2.db.outbox ≤ 1 :=
  ⟨by decide, rfl,
   C2_at_most_one_outbox_row Env.calm productionService .background .background widget widget
     "k1" emptyWorld (by decide) rfl⟩

/-- C3 (code defect): with `fn` succeeding and `tx.Commit()` failing,
`ExecuteInTransaction` returns nil, without a retrier and with one.  The commit
was attempted and failed (it is in the trace, followed by the rollback
attempt), and the returned value was fixed by `return originalErr` before the
deferred function ran. -/
theorem C3_failed_commit_returns_nil :
    commitFails.fault [.sqlCommit, .uowCommit, .sqlBeginTx, .uowBegin]
        = some (.plain "driver: bad connection") ∧
    (plainService false).ExecuteInTransaction commitFails .background okFn () emptyWorld
      = (none, (), { emptyWorld with
          trace := [.uowRollback, .sqlCommit, .uowCommit, .sqlBeginTx, .uowBegin] }) ∧
    (plainService true).ExecuteInTransaction commitFails .background okFn () emptyWorld
      = (none, (), { emptyWorld with
          trace := [.uowRollback, .sqlCommit, .uowCommit, .sqlBeginTx, .uowBegin] }) := by
  decide

/-- C4 (counterexample): without a retrier, `Begin` succeeding and `fn`
returning success, a failing commit is followed by a call of `Rollback`: both
`Commit` and `Rollback` are called in a run in which `fn` succeeded. -/
theorem C4_rollback_after_success_counterexample :
    ((plainService false).uowFactory.CreateUnitOfWork.Begin commitFails emptyWorld).1 = none ∧
    (okFn ((plainService false).uowFactory.CreateUnitOfWork.Begin commitFails emptyWorld).2.1 ()
      ((plainService false).uowFactory.CreateUnitOfWork.Begin commitFails emptyWorld).2.2).1
        = none ∧
    Call.uowCommit ∈ ((plainService false).ExecuteInTransaction commitFails .background okFn ()
      emptyWorld).2.2.trace ∧
    Call.uowRollback ∈ ((plainService false).ExecuteInTransaction commitFails .background okFn
      () emptyWorld).2.2.trace := by
  decide

/-- C4 (amended): without a retrier and with `Begin` succeeding.  When `fn`
succeeds `ExecuteInTransaction` calls `Commit`, and after it `Rollback` exactly
when that commit failed; when `fn` fails it calls `Rollback` and not `Commit`,
and returns the error of `fn` unchanged, whatever `Rollback` answers.  The
calls are those added to the trace that `fn` left. -/
theorem C4_commit_or_rollback {κ : Type} (env : Env) (s : ProductService) (ctx : Context)
    (fn : UnitOfWork → κ → World → Option Err × κ × World) (k : κ) (w : World)
    (hs : s.retrier = false)
    (hBegin : (s.uowFactory.CreateUnitOfWork.Begin env w).1 = none) :
    ((fn (s.uowFactory.CreateUnitOfWork.Begin env w).2.1 k
        (s.uowFactory.CreateUnitOfWork.Begin env w).2.2).1 = none →
      (s.ExecuteInTransaction env ctx fn k w).2.2.trace =
        (if env.fault (.sqlCommit :: .uowCommit ::
            (fn (s.uowFactory.CreateUnitOfWork.Begin env w).2.1 k
              (s.uowFactory.CreateUnitOfWork.Begin env w).2.2).2.2.trace) = none
         then [Call.sqlCommit, .uowCommit] else [Call.uowRollback, .sqlCommit, .uowCommit])
        ++ (fn (s.uowFactory.CreateUnitOfWork.Begin env w).2.1 k
              (s.uowFactory.CreateUnitOfWork.Begin env w).2.2).2.2.trace) ∧
    ((fn (s.uowFactory.CreateUnitOfWork.Begin env w).2.1 k
        (s.uowFactory.CreateUnitOfWork.Begin env w).2.2).1 ≠ none →
      (s.ExecuteInTransaction env ctx fn k w).1
        = (fn (s.uowFactory.CreateUnitOfWork.Begin env w).2.1 k
            (s.uowFactory.CreateUnitOfWork.Begin env w).2.2).1 ∧
      (s.ExecuteInTransaction env ctx fn k w).2.2.trace =
        [Call.sqlRollback, .uowRollback]
        ++ (fn (s.uowFactory.CreateUnitOfWork.Begin env w).2.1 k
              (s.uowFactory.CreateUnitOfWork.Begin env w).2.2).2.2.trace) := by
  have hb : ∃ w1, s.uowFactory.CreateUnitOfWork.Begin env w
      = (none, { s.uowFactory.CreateUnitOfWork with inTransaction := true, hasTx := true }, w1) := by
    revert hBegin
    simp only [UnitOfWork.Begin, UoWFactory.CreateUnitOfWork]
    cases hf : (perform env .sqlBeginTx (note .uowBegin w)).1 with
    | none =>
        intro _
        refine ⟨{ (perform env .sqlBeginTx (note .uowBegin w)).2 with tx := some [] }, ?_⟩
        rcases hp : perform env .sqlBeginTx (note .uowBegin w) with ⟨e, w1⟩
        rw [hp] at hf
        simp at hf
        simp [hf]
    | some e =>
        rcases hp : perform env .sqlBeginTx (note .uowBegin w) with ⟨e1, w1⟩
        rw [hp] at hf
        simp at hf
        simp [hf]
  obtain ⟨w1, hb⟩ := hb
  simp only [ProductService.ExecuteInTransaction, hs, hb]
  rcases hfn : fn { s.uowFactory.CreateUnitOfWork with inTransaction := true, hasTx := true } k w1
    with ⟨r, k1, w2⟩
  cases r with
  | none =>
      cases hc : env.fault (.sqlCommit :: .uowCommit :: w2.trace) with
      | none =>
          simp [deferredPlain, UnitOfWork.Commit, UnitOfWork.Rollback, perform, note, hc,
            UoWFactory.CreateUnitOfWork]
      | some ce =>
          simp [deferredPlain, UnitOfWork.Commit, UnitOfWork.Rollback, perform, note, hc,
            UoWFactory.CreateUnitOfWork]
  | some e =>
      simp [deferredPlain, UnitOfWork.Rollback, perform, note, UoWFactory.CreateUnitOfWork]

/-- Witness of C4: `fn` fails and the rollback fails too: the result is the
error of `fn` and the calls are `Begin`, `Rollback`; and `fn` succeeds while the
commit fails: the calls are `Begin`, `Commit`, `Rollback`. -/
theorem C4_commit_or_rollback_witness :
    (plainService false).retrier = false ∧
    ((plainService false).uowFactory.CreateUnitOfWork.Begin rollbackFails emptyWorld).1 = none ∧
    ((plainService false).ExecuteInTransaction rollbackFails .background failFn () emptyWorld).1
      = some (.plain "insufficient stock") ∧
    ((plainService false).ExecuteInTransaction rollbackFails .background failFn ()
        emptyWorld).2.2.trace
      = [.sqlRollback, .uowRollback, .sqlBeginTx, .uowBegin] ∧
    ((plainService false).ExecuteInTransaction commitFails .background okFn ()
        emptyWorld).2.2.trace
      = [.uowRollback, .sqlCommit, .uowCommit, .sqlBeginTx, .uowBegin] :=
  ⟨rfl, by decide,
   ((C4_commit_or_rollback rollbackFails (plainService false) .background failFn () emptyWorld
      rfl (by decide)).2 (by decide)).1,
   ((C4_commit_or_rollback rollbackFails (plainService false) .background failFn () emptyWorld
      rfl (by decide)).2 (by decide)).2,
   (C4_commit_or_rollback commitFails (plainService false) .background okFn () emptyWorld rfl
      (by decide)).1 rfl⟩

/-- C5 (code defect): when `Begin` fails in every attempt, the last attempt
returns "failed to start transaction: connection refused", yet
`ExecuteInTransaction` returns a `RetryExhaustedError` whose `LastErr` is nil:
the closure records `lastErr` only after `fn`. -/
theorem C5_begin_error_not_recorded :
    ((plainService true).attempt beginFails (createFn beginFails "k1")
        { lastErr := none, retryAttempts := 2, user := widget } emptyWorld).1
      = some (.wrap "failed to start transaction" (.plain "connection refused")) ∧
    ((plainService true).CreateProductWithEvent beginFails .background widget "k1"
        emptyWorld).1 = some (.retryExhaustedNil 3) ∧
    (Err.retryExhaustedNil 3).Unwrap = none := by
  decide

/-- C6 (code defect): with an empty idempotency key the batch path hands the
row to the store with the empty string as its key, for create and for delete;
the per-event path generates a key of 32 hexadecimal characters.  As a
consequence a second create with an empty key succeeds and leaves a second
product row, but its outbox row conflicts with the first one on the key and is
dropped. -/
theorem C6_batch_path_keeps_empty_key :
    (rowsHanded (productionService.CreateProductWithEvent Env.calm .background widget ""
        emptyWorld).2.2.trace).map (fun r => r.idempotencyKey) = [""] ∧
    (rowsHanded (productionService.DeleteProductWithEvent Env.calm .background loadedWidget ""
        worldWithProduct).2.2.trace).map (fun r => r.idempotencyKey) = [""] ∧
    isGeneratedKey "" = false ∧
    (rowsHanded (perEventService.CreateProductWithEvent Env.calm .background widget ""
        emptyWorld).2.2.trace).map (fun r => isGeneratedKey r.idempotencyKey) = [true] ∧
    (productionService.CreateProductWithEvent Env.calm .background widget ""
      (productionService.CreateProductWithEvent Env.calm .background widget ""
        emptyWorld).2.2).1 = none ∧
    (productionService.CreateProductWithEvent Env.calm .background widget ""
      (productionService.CreateProductWithEvent Env.calm .background widget ""
        emptyWorld).2.2).2.2.db.products.length = 2 ∧
    (productionService.CreateProductWithEvent Env.calm .background widget ""
      (productionService.CreateProductWithEvent Env.calm .background widget ""
        emptyWorld).2.2).2.2.db.outbox.length = 1 := by
  decide

/-- C7 (code defect): when the outbox insert of the first attempt fails and the
second attempt commits, the call succeeds, the committing attempt hands two
events to the outbox (the one recorded in the failed attempt, bound to id 1,
and the new one, bound to id 2), the product row has id 2 and the outbox row
that is kept carries product id 1. -/
theorem C7_retry_accumulates_events :
    ((plainService true).CreateProductWithEvent firstBatchFails .background widget "k1"
        emptyWorld).1 = none ∧
    (((plainService true).CreateProductWithEvent firstBatchFails .background widget "k1"
        emptyWorld).2.2.trace.drop 2).head?.map
          (fun c => c.rowsHanded.map (fun r => r.eventData.lookup "product_id"))
      = some [some (.num 1), some (.num 2)] ∧
    ((plainService true).CreateProductWithEvent firstBatchFails .background widget "k1"
        emptyWorld).2.2.db.products.map (fun r => r.id) = [2] ∧
    ((plainService true).CreateProductWithEvent firstBatchFails .background widget "k1"
        emptyWorld).2.2.db.outbox.map (fun r => r.eventData.lookup "product_id")
      = [some (.num 1)] := by
  decide

/-- C8: deleting an absent product.  (a) If `GetByID` (called for a positive
id) returns an error matching `ErrProductNotFound`, `usecase.DeleteProduct`
returns "product not found: ErrProductNotFound" and leaves the world as
`GetByID` left it: the application service is not called.  (b) If the store
holds no product with the id, the context is not cancelled at the call and the
driver executes `BeginTx` and the delete statement, `DeleteProductWithEvent`
returns an error matching `ErrProductNotFound` under `errors.Is`, without a
retrier and with one (inside the `RetryExhaustedError`); the tables are
unchanged and none of the calls it made is an outbox insert. -/
theorem C8_delete_absent_product (uc : ProductUseCase) (id : Int) (key : String) (w0 : World)
    (e : Err) (env : Env) (f : UoWFactory) (r : Bool) (ctx : Context) (product : Product)
    (w : World)
    (hid : 0 < id)
    (hget : (uc.GetByID id w0).2.1 = some e)
    (hnf : errorsIs e ErrProductNotFound = true)
    (hctx : ctx.Err w.now = none)
    (hBegin : ∀ tr, env.fault (.sqlBeginTx :: tr) = none)
    (hDel : ∀ tr b, env.fault (.sql b (.deleteProduct product.ID) :: tr) = none)
    (hAbsent : ∀ row ∈ w.db.products, row.id ≠ product.ID) :
    (uc.DeleteProduct id key w0
        = (some (.wrap "product not found" ErrProductNotFound), (uc.GetByID id w0).2.2) ∧
      errorsIs (.wrap "product not found" ErrProductNotFound) ErrProductNotFound = true) ∧
    ((∃ err, ((NewProductService f r).DeleteProductWithEvent env ctx product key w).1 = some err ∧
        errorsIs err ErrProductNotFound = true) ∧
      ((NewProductService f r).DeleteProductWithEvent env ctx product key w).2.2.db = w.db ∧
      ∃ added, ((NewProductService f r).DeleteProductWithEvent env ctx product key w).2.2.trace
          = added ++ w.trace ∧ ∀ c ∈ added, Call.isOutboxInsert c = false) := by
  refine ⟨⟨?_, by decide⟩, Delete_absent env f r ctx product key w hctx hBegin hDel hAbsent⟩
  have hid2 : ¬ id ≤ 0 := by omega
  rcases hg : uc.GetByID id w0 with ⟨p, ge, w1⟩
  rw [hg] at hget
  simp only at hget
  subst hget
  simp [ProductUseCase.DeleteProduct, hid2, hg, hnf]

/-- Witness of C8: the repository port of the test (`GetByID` returns
`ErrProductNotFound`), and `DeleteProductWithEvent` for product 9999 on the
empty store, with the retrier. -/
theorem C8_delete_absent_product_witness :
    (0 : Int) < 999 ∧ Context.background.Err emptyWorld.now = none ∧
    (ProductUseCase.DeleteProduct
        { GetByID := fun _ w => (none, some ErrProductNotFound, w),
          appDelete := fun _ _ w => (none, w) } 999 "" emptyWorld).1
      = some (.wrap "product not found" ErrProductNotFound) ∧
    (productionService.DeleteProductWithEvent Env.calm .background
        { loadedWidget with ID := 9999 } "k4" emptyWorld).2.2.db = emptyWorld.db :=
  ⟨by decide, rfl, congrArg Prod.fst (C8_delete_absent_product
      { GetByID := fun _ w => (none, some ErrProductNotFound, w),
        appDelete := fun _ _ w => (none, w) } 999 "" emptyWorld ErrProductNotFound Env.calm
      UoWFactory.production true .background { loadedWidget with ID := 9999 } emptyWorld
      (by decide) rfl (by decide) rfl (fun _ => rfl) (fun _ _ => rfl)
      (by intro row h; cases h)).1.1,
   (C8_delete_absent_product
      { GetByID := fun _ w => (none, some ErrProductNotFound, w),
        appDelete := fun _ _ w => (none, w) } 999 "" emptyWorld ErrProductNotFound Env.calm
      UoWFactory.production true .background { loadedWidget with ID := 9999 } emptyWorld
      (by decide) rfl (by decide) rfl (fun _ => rfl) (fun _ _ => rfl)
      (by intro row h; cases h)).2.2.1⟩

/-- C9: when `publishEventWithRetry` ends with an error and the context is
never cancelled, `processEvent` hands the event to `handlePublishFailure`,
which computes `retry_count + 1` (the stored count is a value of the INT
column) and calls `MoveToDLQ(id, reason)` exactly when that number exceeds
`max_retries`, `MarkAsFailed(id, retry_count + 1)` otherwise (and also after a
`MoveToDLQ` that failed).  The outcome calls added to the trace are listed
latest first; there is at least one in every case, and `processEvent` has no
error result. -/
theorem C9_exhausted_publish_resolved (env : Env) (wk : OutboxWorker) (ctx : Context)
    (event : OutboxEvent) (w : World) (perr : Err)
    (hctx : ctx.cancelAt = none)
    (hrc : -(2 ^ 31) ≤ event.RetryCount ∧ event.RetryCount < 2 ^ 31)
    (hpub : (wk.publishEventWithRetry env ctx event w).1 = some perr) :
    ∃ added, (wk.processEvent env ctx event w).trace
        = added ++ (wk.publishEventWithRetry env ctx event w).2.trace ∧
      added.filter Call.isOutcome =
        if event.RetryCount + 1 > wk.maxRetries then
          if (wk.outboxRepo.MoveToDLQ env event.ID (dlqReason (event.RetryCount + 1) perr)
                (wk.publishEventWithRetry env ctx event w).2).1 = none
          then [Call.moveToDLQ event.ID (dlqReason (event.RetryCount + 1) perr)]
          else [Call.markAsFailed event.ID (event.RetryCount + 1),
                Call.moveToDLQ event.ID (dlqReason (event.RetryCount + 1) perr)]
        else [Call.markAsFailed event.ID (event.RetryCount + 1)] := by
  have hw : wrapInt64 (event.RetryCount + 1) = event.RetryCount + 1 := by
    apply wrapInt64_id <;> norm_num at hrc ⊢ <;> omega
  rcases hp : wk.publishEventWithRetry env ctx event w with ⟨r, w1⟩
  rw [hp] at hpub
  simp only at hpub
  subst hpub
  simp only [OutboxWorker.processEvent, Context_Err_never ctx hctx, hp,
    OutboxWorker.handlePublishFailure, hw, OutboxWorker.markEventAsFailed]
  by_cases hgt : event.RetryCount + 1 > wk.maxRetries
  · simp only [hgt, if_true]
    obtain ⟨pre, hpre, hfil⟩ := MoveToDLQ_trace env wk.outboxRepo event.ID
      (dlqReason (event.RetryCount + 1) perr) w1
    rcases hm : wk.outboxRepo.MoveToDLQ env event.ID (dlqReason (event.RetryCount + 1) perr) w1
      with ⟨me, w2⟩
    rw [hm] at hpre
    simp only at hpre
    cases me with
    | none =>
        refine ⟨pre ++ [.moveToDLQ event.ID (dlqReason (event.RetryCount + 1) perr)], ?_, ?_⟩
        · simp [hpre]
        · simp [List.filter_append, hfil, Call.isOutcome]
    | some e =>
        refine ⟨.sql (wk.outboxRepo.inTx w2)
            (.markAsFailed OutboxStatusFailed (event.RetryCount + 1) event.ID)
          :: .markAsFailed event.ID (event.RetryCount + 1) :: pre
            ++ [.moveToDLQ event.ID (dlqReason (event.RetryCount + 1) perr)], ?_, ?_⟩
        · simp [MarkAsFailed_trace, hpre]
        · simp [List.filter_append, hfil, Call.isOutcome, List.filter_cons]
  · simp only [hgt, if_false]
    exact ⟨[.sql (wk.outboxRepo.inTx w1)
        (.markAsFailed OutboxStatusFailed (event.RetryCount + 1) event.ID),
      .markAsFailed event.ID (event.RetryCount + 1)], by simp [MarkAsFailed_trace],
      by simp [Call.isOutcome, List.filter_cons]⟩

/-- Witness of C9: the fresh row of `worldWithPending`, a publisher that
always fails and `max_retries = 3`: the one outcome call is
`MarkAsFailed(1, 1)`. -/
theorem C9_exhausted_publish_resolved_witness :
    Context.background.cancelAt = none ∧
    (-(2 ^ 31) ≤ (toPortsOutboxEvent freshRow).RetryCount ∧
      (toPortsOutboxEvent freshRow).RetryCount < 2 ^ 31) ∧
    ((dispatcher fixedAdapter).publishEventWithRetry busDown .background
        (toPortsOutboxEvent freshRow) worldWithPending).1
      = some (.wrap "failed after 4 attempts" (.plain "bus unavailable")) ∧
    ∃ added, ((dispatcher fixedAdapter).processEvent busDown .background
          (toPortsOutboxEvent freshRow) worldWithPending).trace
        = added ++ ((dispatcher fixedAdapter).publishEventWithRetry busDown .background
            (toPortsOutboxEvent freshRow) worldWithPending).2.trace ∧
      added.filter Call.isOutcome = [Call.markAsFailed 1 1] :=
  ⟨rfl, by decide, by decide,
   C9_exhausted_publish_resolved busDown (dispatcher fixedAdapter) .background
     (toPortsOutboxEvent freshRow) worldWithPending
     (.wrap "failed after 4 attempts" (.plain "bus unavailable")) rfl (by decide) (by decide)⟩

/-- C10 (code defect): with `max_retries = 3` and a publisher that always fails,
the fresh pending row is attempted four times in the first poll cycle, after
which `handlePublishFailure` marks it `failed` with `retry_count = 1`; no later
cycle selects it (the poll reads status `pending` only), so after any number
of cycles it is `failed`, never `dlq`, and `MoveToDLQ` was never called.  For
every event adapter. -/
theorem C10_row_stranded_in_failed
    (adapt : OutboxEvent → Int → Except Err (String × Int × Int)) (n : Nat) :
    ((dispatcher adapt).cycles busDown .background (n + 1) worldWithPending).db.outbox
        = [{ freshRow with status := OutboxStatusFailed, retryCount := 1 }] ∧
    (((dispatcher adapt).cycles busDown .background (n + 1) worldWithPending).trace.filter
        Call.isAttempt).length = 4 ∧
    ((dispatcher adapt).cycles busDown .background (n + 1) worldWithPending).trace.filter
        Call.isOutcome = [.markAsFailed 1 1] := by
  obtain ⟨c1, c2, c3⟩ := cycle_fresh adapt worldWithPending rfl
  obtain ⟨i1, i2, i3⟩ := cycles_failed adapt n _ c1
  refine ⟨i1, ?_, ?_⟩
  · rw [OutboxWorker.cycles, i2, c2]; rfl
  · rw [OutboxWorker.cycles, i3, c3]; rfl

/-- C11: outside a transaction, when the event carries the `retry_count` of its
row (within the range of the column) and the row is not yet in `dlq`, every row
of that id that `handlePublishFailure` leaves in status `dlq` has a stored
`retry_count` above `max_retries` and a non-empty `dlq_reason`. -/
theorem C11_dlq_invariant (env : Env) (wk : OutboxWorker) (event : OutboxEvent)
    (publishErr : Err) (w : World) (htx : w.tx = none)
    (hrc : -(2 ^ 31) ≤ event.RetryCount ∧ event.RetryCount < 2 ^ 31)
    (hcur : ∀ row ∈ w.db.outbox, row.id = event.ID →
      row.retryCount = event.RetryCount ∧ row.status ≠ OutboxStatusDLQ) :
    ∀ row ∈ (wk.handlePublishFailure env event publishErr w).db.outbox, row.id = event.ID →
      row.status = OutboxStatusDLQ →
      wk.maxRetries < row.retryCount ∧ ∃ reason, row.dlqReason = some reason ∧ reason ≠ "" := by
  have hw : wrapInt64 (event.RetryCount + 1) = event.RetryCount + 1 := by
    apply wrapInt64_id <;> norm_num at hrc ⊢ <;> omega
  have hfailed : ∀ (w1 : World), w1.tx = none →
      (∀ row ∈ w1.db.outbox, row.id = event.ID → row.status = OutboxStatusDLQ →
        wk.maxRetries < row.retryCount ∧ ∃ reason, row.dlqReason = some reason ∧ reason ≠ "") →
      ∀ row ∈ (wk.outboxRepo.MarkAsFailed env event.ID (event.RetryCount + 1) w1).2.db.outbox,
        row.id = event.ID → row.status = OutboxStatusDLQ →
        wk.maxRetries < row.retryCount ∧ ∃ reason, row.dlqReason = some reason ∧ reason ≠ "" := by
    intro w1 h1 hinv
    rcases (MarkAsFailed_db env wk.outboxRepo event.ID (event.RetryCount + 1) w1 h1).2.1
      with h | h
    · rw [h]; exact hinv
    · rw [h]
      exact update_all w1.db event.ID _ _ (fun _ => rfl)
        (fun x _ _ hs => absurd hs (show ¬ OutboxStatusFailed = OutboxStatusDLQ by decide))
  have hinv0 : ∀ row ∈ w.db.outbox, row.id = event.ID → row.status = OutboxStatusDLQ →
      wk.maxRetries < row.retryCount ∧ ∃ reason, row.dlqReason = some reason ∧ reason ≠ "" :=
    fun row hrow hid hs => absurd hs (hcur row hrow hid).2
  simp only [OutboxWorker.handlePublishFailure, hw, OutboxWorker.markEventAsFailed]
  by_cases hgt : event.RetryCount + 1 > wk.maxRetries
  · simp only [hgt, if_true]
    have hm := MoveToDLQ_db env wk.outboxRepo event.ID
      (dlqReason (event.RetryCount + 1) publishErr) w htx
    have hinv1 : ∀ row ∈ (wk.outboxRepo.MoveToDLQ env event.ID
          (dlqReason (event.RetryCount + 1) publishErr) w).2.db.outbox,
        row.id = event.ID → row.status = OutboxStatusDLQ →
        wk.maxRetries < row.retryCount ∧
          ∃ reason, row.dlqReason = some reason ∧ reason ≠ "" := by
      rcases hm.2.1 with h | h
      · rw [h]; exact hinv0
      · rw [h]
        refine update_all w.db event.ID _ _ (fun _ => rfl) ?_
        intro x hx hid _
        refine ⟨?_, _, rfl, dlqReason_ne_empty _ _⟩
        show wk.maxRetries < x.retryCount + 1
        rw [(hcur x hx hid).1]
        omega
    rcases hmv : wk.outboxRepo.MoveToDLQ env event.ID
      (dlqReason (event.RetryCount + 1) publishErr) w with ⟨me, w1⟩
    rw [hmv] at hm hinv1
    cases me with
    | none => exact hinv1
    | some e => exact hfailed w1 hm.1 hinv1
  · simp only [hgt, if_false]
    exact hfailed w htx hinv0

/-- Witness of C11: with `max_retries = 0` the fresh row of `worldWithPending`
goes to the DLQ after its first failed publish, with `retry_count = 1`. -/
theorem C11_dlq_invariant_witness :
    (strictDispatcher.handlePublishFailure Env.calm (toPortsOutboxEvent freshRow)
        (.plain "bus unavailable") worldWithPending).db.outbox
      = [deadRow] ∧
    ∀ row ∈ (strictDispatcher.handlePublishFailure Env.calm (toPortsOutboxEvent freshRow)
        (.plain "bus unavailable") worldWithPending).db.outbox,
      row.id = (toPortsOutboxEvent freshRow).ID → row.status = OutboxStatusDLQ →
      strictDispatcher.maxRetries < row.retryCount ∧
        ∃ reason, row.dlqReason = some reason ∧ reason ≠ "" :=
  ⟨by decide,
   C11_dlq_invariant Env.calm strictDispatcher (toPortsOutboxEvent freshRow)
     (.plain "bus unavailable") worldWithPending rfl (by decide) (by decide)⟩

/-- C12: for `0 ≤ max_retries` (below the largest `int`) and a context that is
never cancelled.  If attempt number `n ≤ max_retries` (counted from 0) is the
first to succeed, `publishEventWithRetry` returns nil in the state that attempt
left, having made `n + 1` attempts.  If all of the attempts `0 .. max_retries`
fail, it returns `fmt.Errorf("failed after %d attempts: %w", max_retries + 1, e)`
for the error `e` of the last attempt, having made `max_retries + 1` attempts.
In every case it makes at most `max_retries + 1` attempts. -/
theorem C12_publish_attempts (env : Env) (wk : OutboxWorker) (ctx : Context)
    (event : OutboxEvent) (w : World)
    (hmax : 0 ≤ wk.maxRetries) (hlt : wk.maxRetries < maxInt64) (hctx : ctx.cancelAt = none) :
    (∀ n : Nat, (n : Int) ≤ wk.maxRetries →
      (∀ i < n, (wk.attemptResult env ctx event w i).1 ≠ none) →
      (wk.attemptResult env ctx event w n).1 = none →
      wk.publishEventWithRetry env ctx event w = (none, (wk.attemptResult env ctx event w n).2) ∧
      (wk.publishEventWithRetry env ctx event w).2.trace.countP Call.isAttempt
        = w.trace.countP Call.isAttempt + (n + 1)) ∧
    ((∀ i : Nat, (i : Int) ≤ wk.maxRetries → (wk.attemptResult env ctx event w i).1 ≠ none) →
      ∃ e, (wk.attemptResult env ctx event w wk.maxRetries.toNat).1 = some e ∧
        wk.publishEventWithRetry env ctx event w
          = (some (.wrap ("failed after " ++ toString (wk.maxRetries + 1) ++ " attempts") e),
             (wk.attemptResult env ctx event w wk.maxRetries.toNat).2) ∧
        (Err.wrap ("failed after " ++ toString (wk.maxRetries + 1) ++ " attempts") e).Unwrap
          = some e ∧
        (wk.publishEventWithRetry env ctx event w).2.trace.countP Call.isAttempt
          = w.trace.countP Call.isAttempt + (wk.maxRetries.toNat + 1)) ∧
    (wk.publishEventWithRetry env ctx event w).2.trace.countP Call.isAttempt
      ≤ w.trace.countP Call.isAttempt + (wk.maxRetries.toNat + 1) := by
  have hM : (wk.maxRetries.toNat : Int) = wk.maxRetries := Int.toNat_of_nonneg hmax
  have hfuel : (wk.maxRetries + 1).toNat = wk.maxRetries.toNat + 1 := by omega
  have hw : wrapInt64 (wk.maxRetries + 1) = wk.maxRetries + 1 := by
    apply wrapInt64_id <;> unfold maxInt64 at hlt <;> norm_num at hlt ⊢ <;> omega
  have hfirst : ∀ n : Nat, (n : Int) ≤ wk.maxRetries →
      (∀ i < n, (wk.attemptResult env ctx event w i).1 ≠ none) →
      (wk.attemptResult env ctx event w n).1 = none →
      wk.publishEventWithRetry env ctx event w
        = (none, (wk.attemptResult env ctx event w n).2) := by
    intro n hn hfail hok
    unfold OutboxWorker.publishEventWithRetry
    rw [hfuel, show wk.maxRetries.toNat + 1 = (wk.maxRetries.toNat - n) + (n + 1) by omega]
    exact retryLoop_success env wk ctx event w hctx n _ none hfail hok
  have hall : (∀ i : Nat, (i : Int) ≤ wk.maxRetries →
        (wk.attemptResult env ctx event w i).1 ≠ none) →
      ∃ e, (wk.attemptResult env ctx event w wk.maxRetries.toNat).1 = some e ∧
        wk.publishEventWithRetry env ctx event w
          = (some (.wrap ("failed after " ++ toString (wk.maxRetries + 1) ++ " attempts") e),
             (wk.attemptResult env ctx event w wk.maxRetries.toNat).2) := by
    intro hfail
    have hlast := hfail wk.maxRetries.toNat (by omega)
    unfold OutboxWorker.publishEventWithRetry
    rw [hfuel, show wk.maxRetries.toNat + 1 = 0 + (wk.maxRetries.toNat + 1) by omega,
      retryLoop_unroll env wk ctx event w hctx wk.maxRetries.toNat 0 none
        (fun i hi => hfail i (by omega)), OutboxWorker.retryLoop]
    cases he : (wk.attemptResult env ctx event w wk.maxRetries.toNat).1 with
    | none => exact absurd he hlast
    | some e => exact ⟨e, rfl, by simp [publishExhausted, hw]⟩
  refine ⟨?_, ?_, ?_⟩
  · intro n hn hfail hok
    refine ⟨hfirst n hn hfail hok, ?_⟩
    rw [hfirst n hn hfail hok]
    exact attemptResult_attempts env wk ctx event w n
  · intro hfail
    obtain ⟨e, he, hr⟩ := hall hfail
    refine ⟨e, he, hr, rfl, ?_⟩
    rw [hr]
    exact attemptResult_attempts env wk ctx event w _
  · by_cases hex : ∃ n : Nat, (n : Int) ≤ wk.maxRetries ∧
        (wk.attemptResult env ctx event w n).1 = none
    · have hn := Nat.find_spec hex
      have hmin : ∀ i < Nat.find hex, (wk.attemptResult env ctx event w i).1 ≠ none := by
        intro i hi hnone
        exact Nat.find_min hex hi ⟨by omega, hnone⟩
      rw [hfirst (Nat.find hex) hn.1 hmin hn.2, attemptResult_attempts]
      omega
    · push_neg at hex
      obtain ⟨e, _, hr⟩ := hall hex
      rw [hr, attemptResult_attempts]

/-- Witness of C12: the default dispatcher (`max_retries = 3`) against a bus
that always fails makes four attempts; against a calm bus it makes one. -/
theorem C12_publish_attempts_witness :
    ((dispatcher fixedAdapter).publishEventWithRetry busDown .background
        (toPortsOutboxEvent freshRow) worldWithPending).1
      = some (.wrap "failed after 4 attempts" (.plain "bus unavailable")) ∧
    ((dispatcher fixedAdapter).publishEventWithRetry busDown .background
        (toPortsOutboxEvent freshRow) worldWithPending).2.trace.countP Call.isAttempt = 4 ∧
    (dispatcher fixedAdapter).publishEventWithRetry Env.calm .background
        (toPortsOutboxEvent freshRow) worldWithPending
      = (none, ((dispatcher fixedAdapter).attemptResult Env.calm .background
          (toPortsOutboxEvent freshRow) worldWithPending 0).2) ∧
    ((dispatcher fixedAdapter).publishEventWithRetry slowBus .background
        (toPortsOutboxEvent freshRow) worldWithPending).2.trace.countP Call.isAttempt
      ≤ worldWithPending.trace.countP Call.isAttempt
          + ((dispatcher fixedAdapter).maxRetries.toNat + 1) :=
  ⟨by decide, by decide,
   ((C12_publish_attempts Env.calm (dispatcher fixedAdapter) .background
      (toPortsOutboxEvent freshRow) worldWithPending (by decide) (by decide) rfl).1 0
      (by decide) (fun i hi => absurd hi (Nat.not_lt_zero i)) (by decide)).1,
   (C12_publish_attempts slowBus (dispatcher fixedAdapter) .background
      (toPortsOutboxEvent freshRow) worldWithPending (by decide) (by decide) rfl).2.2⟩

/-- C13 (counterexample): the bus takes 1000 ns to accept the event and the
deadline of the context passes meanwhile.  The publish succeeds, and
`processEvent` returns without calling `MarkAsPublished`: the row stays
`pending`. -/
theorem C13_cancelled_after_publish_counterexample :
    ((dispatcher fixedAdapter).publishEventWithRetry slowBus deadline2500
        (toPortsOutboxEvent freshRow) worldWithPending).1 = none ∧
    ((dispatcher fixedAdapter).processEvent slowBus deadline2500
        (toPortsOutboxEvent freshRow) worldWithPending).trace
      = [.publishProductCreated 1 (some 1000), .adaptEvent 1] ∧
    ((dispatcher fixedAdapter).processEvent slowBus deadline2500
        (toPortsOutboxEvent freshRow) worldWithPending).db.outbox = [freshRow] := by
  decide

/-- C13 (amended): when the context is live at the start and the publish
succeeds, `processEvent` calls `MarkAsPublished` for the id of the event
exactly when the context is still live at the instant the publish returns (the
call and its statement are the last two calls made); when the context is
cancelled by then, `processEvent` ends in the state the publish left, with no
call to the store. -/
theorem C13_mark_published_unless_cancelled (env : Env) (wk : OutboxWorker) (ctx : Context)
    (event : OutboxEvent) (w : World)
    (hstart : ctx.Err w.now = none)
    (hpub : (wk.publishEventWithRetry env ctx event w).1 = none) :
    (ctx.Err (wk.publishEventWithRetry env ctx event w).2.now = none →
      wk.processEvent env ctx event w
        = (wk.outboxRepo.MarkAsPublished env event.ID
            (wk.publishEventWithRetry env ctx event w).2).2 ∧
      (wk.processEvent env ctx event w).trace
        = .sql (wk.outboxRepo.inTx (wk.publishEventWithRetry env ctx event w).2)
              (.markAsPublished OutboxStatusPublished event.ID)
            :: .markAsPublished event.ID
            :: (wk.publishEventWithRetry env ctx event w).2.trace) ∧
    (ctx.Err (wk.publishEventWithRetry env ctx event w).2.now ≠ none →
      wk.processEvent env ctx event w = (wk.publishEventWithRetry env ctx event w).2) := by
  rcases hp : wk.publishEventWithRetry env ctx event w with ⟨r, w1⟩
  rw [hp] at hpub
  simp only at hpub
  subst hpub
  simp only [OutboxWorker.processEvent, hstart, hp]
  constructor
  · intro hlive
    simp only [hlive, OutboxWorker.markEventAsPublished, true_and]
    unfold OutboxRepo.MarkAsPublished perform note
    cases h : env.fault (.sql (wk.outboxRepo.inTx w1)
        (.markAsPublished OutboxStatusPublished event.ID) :: .markAsPublished event.ID
          :: w1.trace) <;>
      simp [h, World.write_trace, OutboxRepo.inTx]
  · intro hdone
    cases hc : ctx.Err w1.now with
    | none => exact absurd hc hdone
    | some e => rfl

/-- Witness of C13: with a calm bus and no deadline the fresh row is published
and marked; with the slow bus and the deadline it is published and left. -/
theorem C13_mark_published_unless_cancelled_witness :
    ((dispatcher fixedAdapter).processEvent Env.calm .background
        (toPortsOutboxEvent freshRow) worldWithPending).trace
      = [.sql false (.markAsPublished OutboxStatusPublished 1), .markAsPublished 1,
         .publishProductCreated 1 (some 1000), .adaptEvent 1] ∧
    (dispatcher fixedAdapter).processEvent slowBus deadline2500
        (toPortsOutboxEvent freshRow) worldWithPending
      = ((dispatcher fixedAdapter).publishEventWithRetry slowBus deadline2500
          (toPortsOutboxEvent freshRow) worldWithPending).2 :=
  ⟨((C13_mark_published_unless_cancelled Env.calm (dispatcher fixedAdapter) .background
      (toPortsOutboxEvent freshRow) worldWithPending rfl (by decide)).1 (by decide)).2,
   (C13_mark_published_unless_cancelled slowBus (dispatcher fixedAdapter) deadline2500
      (toPortsOutboxEvent freshRow) worldWithPending (by decide) (by decide)).2 (by decide)⟩

/-- C14 (counterexample): `MarkAsFailed` on the id of a published row turns the
row into `failed`; `MoveToDLQ` on it turns it into `dlq`; and `MarkAsPublished`
on a row in `dlq` turns it into `published`. -/
theorem C14_published_row_rewritten_counterexample :
    worldWithPublished.db.outbox = [publishedRow] ∧
    publishedRow.status = OutboxStatusPublished ∧
    ((dispatcher fixedAdapter).outboxRepo.MarkAsFailed Env.calm 1 1
        worldWithPublished).2.db.outbox
      = [{ publishedRow with status := OutboxStatusFailed, retryCount := 1 }] ∧
    ((dispatcher fixedAdapter).outboxRepo.MoveToDLQ Env.calm 1 "late"
        worldWithPublished).2.db.outbox
      = [{ publishedRow with status := OutboxStatusDLQ, retryCount := 1,
                             dlqReason := some "late" }] ∧
    (((dispatcher fixedAdapter).outboxRepo.MarkAsPublished Env.calm 1
        ((dispatcher fixedAdapter).outboxRepo.MoveToDLQ Env.calm 1 "late"
          worldWithPublished).2).2.db.outbox.map (fun x => x.status))
      = [OutboxStatusPublished] := by
  decide

/-- C14 (amended): outside a transaction, each of `MarkAsPublished`,
`MarkAsFailed` and `MoveToDLQ` whose statement the driver runs leaves every row
of the given id in status `published`, `failed`, `dlq` respectively, whatever
the status of the row was: the statements select by id alone.  What keeps the
dispatcher from rows in `published` or `dlq` is the poll: every event
`GetPendingEvents` returns has status `pending`. -/
theorem C14_updates_select_by_id_alone (env : Env) (r : OutboxRepo) (id rc : Int)
    (reason : String) (w : World) (htx : w.tx = none)
    (hpublished : env.fault (.sql false (.markAsPublished OutboxStatusPublished id)
        :: .markAsPublished id :: w.trace) = none)
    (hfailed : env.fault (.sql false (.markAsFailed OutboxStatusFailed rc id)
        :: .markAsFailed id rc :: w.trace) = none)
    (hdlq : env.fault (.sql false (.moveToDLQ OutboxStatusDLQ id reason)
        :: .moveToDLQ id reason :: w.trace) = none) :
    (∀ row ∈ (r.MarkAsPublished env id w).2.db.outbox, row.id = id →
      row.status = OutboxStatusPublished) ∧
    (∀ row ∈ (r.MarkAsFailed env id rc w).2.db.outbox, row.id = id →
      row.status = OutboxStatusFailed) ∧
    (∀ row ∈ (r.MoveToDLQ env id reason w).2.db.outbox, row.id = id →
      row.status = OutboxStatusDLQ) ∧
    (∀ limit events, (r.GetPendingEvents env limit w).1 = .ok events →
      ∀ e ∈ events, e.Status = OutboxStatusPending) := by
  refine ⟨?_, ?_, ?_, ?_⟩
  · obtain ⟨now, h⟩ := (MarkAsPublished_db env r id w htx).2.2 hpublished
    rw [h]
    exact update_all w.db id _ (fun x => x.status = OutboxStatusPublished) (fun _ => rfl)
      (fun _ _ _ => rfl)
  · rw [(MarkAsFailed_db env r id rc w htx).2.2 hfailed]
    exact update_all w.db id _ (fun x => x.status = OutboxStatusFailed) (fun _ => rfl)
      (fun _ _ _ => rfl)
  · rw [(MoveToDLQ_db env r id reason w htx).2.2 hdlq]
    exact update_all w.db id _ (fun x => x.status = OutboxStatusDLQ) (fun _ => rfl)
      (fun _ _ _ => rfl)
  · intro limit events hev e he
    unfold OutboxRepo.GetPendingEvents perform at hev
    cases hf : env.fault (.sql (r.inTx w) (.getPendingEvents OutboxStatusPending limit)
        :: w.trace) with
    | some err => simp [hf] at hev
    | none =>
        simp only [hf] at hev
        by_cases hl : limit < 0
        · simp [hl] at hev
        · simp only [hl, if_false] at hev
          injection hev with hev
          subst hev
          obtain ⟨row, hrow, rfl⟩ := List.mem_map.mp he
          exact selectPending_status _ limit row hrow

/-- Witness of C14: the published row of `worldWithPublished` under each of the
three operations, and the poll of that store, which returns no event. -/
theorem C14_updates_select_by_id_alone_witness :
    (((dispatcher fixedAdapter).outboxRepo.MarkAsFailed Env.calm 1 1
        worldWithPublished).2.db.outbox.map (fun x => (x.id, x.status)))
      = [(1, OutboxStatusFailed)] ∧
    (∀ row ∈ ((dispatcher fixedAdapter).outboxRepo.MoveToDLQ Env.calm 1 "late"
        worldWithPublished).2.db.outbox, row.id = 1 → row.status = OutboxStatusDLQ) ∧
    ((dispatcher fixedAdapter).outboxRepo.GetPendingEvents Env.calm 50 worldWithPublished).1
      = .ok [] :=
  ⟨by decide,
   (C14_updates_select_by_id_alone Env.calm (dispatcher fixedAdapter).outboxRepo 1 1 "late"
      worldWithPublished rfl rfl rfl rfl).2.2.1,
   rfl⟩

/-- C15: with at least one attempt configured, a context that is never
cancelled and a closure `fn` that fails on every call, `Do` calls `fn` exactly
`MaxAttempts` times (the counter next to the closure ends at `MaxAttempts`; the
state returned is the one call number `MaxAttempts - 1`, counted from 0, left,
with no sleep after it) and returns
`fmt.Errorf("failed after %d attempts: %w", MaxAttempts, e)` for the error `e`
of that last call: `Unwrap` gives `e` and the message carries `MaxAttempts`. -/
theorem C15_do_exhausted {κ : Type} (ctx : Context) (cfg : Config)
    (fn : κ → World → Option Err × κ × World) (k : κ) (w : World)
    (hmax : 1 ≤ cfg.MaxAttempts) (hctx : ctx.cancelAt = none)
    (hfail : ∀ k1 w1, (fn k1 w1).1 ≠ none) :
    (Do ctx cfg (counting fn) (0, k) w).2.1.1 = cfg.MaxAttempts.toNat ∧
    ∃ e, (Do.call ctx cfg fn k w (cfg.MaxAttempts.toNat - 1)).1 = some e ∧
      Do ctx cfg fn k w
        = (some (.wrap ("failed after " ++ toString cfg.MaxAttempts ++ " attempts") e),
           (Do.call ctx cfg fn k w (cfg.MaxAttempts.toNat - 1)).2) ∧
      (Err.wrap ("failed after " ++ toString cfg.MaxAttempts ++ " attempts") e).Unwrap
        = some e ∧
      (Err.wrap ("failed after " ++ toString cfg.MaxAttempts ++ " attempts") e).Error
        = "failed after " ++ toString cfg.MaxAttempts ++ " attempts" ++ ": " ++ e.Error := by
  have hM : (cfg.MaxAttempts.toNat : Int) = cfg.MaxAttempts := Int.toNat_of_nonneg (by omega)
  constructor
  · obtain ⟨e, _, h2⟩ := Do_all_fail ctx cfg (counting fn) (0, k) w hctx hmax
      (fun i _ => hfail _ _)
    rw [h2, counting_call]
    show cfg.MaxAttempts.toNat - 1 + 1 = cfg.MaxAttempts.toNat
    omega
  · obtain ⟨e, h1, h2⟩ := Do_all_fail ctx cfg fn k w hctx hmax (fun i _ => hfail _ _)
    exact ⟨e, h1, h2, rfl, rfl⟩

/-- Witness of C15: the default configuration (five attempts) and a closure
that always fails with "connection refused". -/
theorem C15_do_exhausted_witness :
    (Do Context.background DefaultConfig (counting alwaysFails) (0, ()) emptyWorld).2.1.1 = 5 ∧
    (Do Context.background DefaultConfig alwaysFails () emptyWorld).1
      = some (.wrap "failed after 5 attempts" (.plain "connection refused")) :=
  ⟨(C15_do_exhausted Context.background DefaultConfig alwaysFails () emptyWorld
      (by decide) rfl (fun _ _ => by simp [alwaysFails])).1, by decide⟩

/-- C16: with a context that is never cancelled, `Do` returns nil exactly when
one of the first `MaxAttempts` calls of `fn` succeeds.  If call number `j`
(counted from 0) is the first to succeed, `Do` returns what that call left, `fn`
has been called `j + 1` times (the counter next to the closure), and when `fn`
itself does not sleep the sleeps taken are `calculateBackoff cfg 0`, ...,
`calculateBackoff cfg (j - 1)` in this order (the list of sleeps is latest
first). -/
theorem C16_do_success_iff {κ : Type} (ctx : Context) (cfg : Config)
    (fn : κ → World → Option Err × κ × World) (k : κ) (w : World)
    (hctx : ctx.cancelAt = none) :
    ((Do ctx cfg fn k w).1 = none ↔
      ∃ j < cfg.MaxAttempts.toNat, (∀ i < j, (Do.call ctx cfg fn k w i).1 ≠ none) ∧
        (Do.call ctx cfg fn k w j).1 = none) ∧
    (∀ j < cfg.MaxAttempts.toNat, (∀ i < j, (Do.call ctx cfg fn k w i).1 ≠ none) →
      (Do.call ctx cfg fn k w j).1 = none →
      Do ctx cfg fn k w = (none, (Do.call ctx cfg fn k w j).2) ∧
      (Do ctx cfg (counting fn) (0, k) w).2.1.1 = j + 1 ∧
      ((∀ k1 w1, sleepsOf (fn k1 w1).2.2.trace = sleepsOf w1.trace) →
        sleepsOf (Do ctx cfg fn k w).2.2.trace
          = ((List.range j).map (fun i : Nat => calculateBackoff cfg i)).reverse
              ++ sleepsOf w.trace)) := by
  have hsucc : ∀ j < cfg.MaxAttempts.toNat,
      (∀ i < j, (Do.call ctx cfg fn k w i).1 ≠ none) → (Do.call ctx cfg fn k w j).1 = none →
      Do ctx cfg fn k w = (none, (Do.call ctx cfg fn k w j).2) :=
    fun j hj hf hok => Do_first_success ctx cfg fn k w hctx j hj hf hok
  refine ⟨⟨?_, ?_⟩, ?_⟩
  · intro hnone
    by_contra hne
    push_neg at hne
    have hall : ∀ i < cfg.MaxAttempts.toNat, (Do.call ctx cfg fn k w i).1 ≠ none := by
      intro i
      induction i using Nat.strong_induction_on with
      | _ i ih => exact fun hi => hne i hi (fun m hm => ih m hm (by omega))
    by_cases hmax : 1 ≤ cfg.MaxAttempts
    · obtain ⟨e, _, h2⟩ := Do_all_fail ctx cfg fn k w hctx hmax hall
      rw [h2] at hnone
      exact absurd hnone (by simp)
    · have hz : cfg.MaxAttempts.toNat = 0 := Int.toNat_eq_zero.mpr (by omega)
      simp [Do, hz, Do.loop] at hnone
  · rintro ⟨j, hj, hf, hok⟩
    rw [hsucc j hj hf hok]
  · intro j hj hf hok
    refine ⟨hsucc j hj hf hok, ?_, ?_⟩
    · rw [Do_first_success ctx cfg (counting fn) (0, k) w hctx j hj
        (fun i hi => by rw [counting_call]; exact hf i hi) (by rw [counting_call]; exact hok),
        counting_call]
    · intro hfn
      rw [hsucc j hj hf hok]
      show sleepsOf (Do.call ctx cfg fn k w j).2.2.trace = _
      unfold Do.call
      rw [hfn, Do_before_sleeps ctx cfg fn k w hfn]

/-- Witness of C16: the default configuration and a closure that succeeds on
its third call: three calls, and the sleeps 100 ms and then 1 s. -/
theorem C16_do_success_iff_witness :
    (Do Context.background DefaultConfig failsTwice 0 emptyWorld).1 = none ∧
    (Do Context.background DefaultConfig (counting failsTwice) (0, 0) emptyWorld).2.1.1 = 3 ∧
    sleepsOf (Do Context.background DefaultConfig failsTwice 0 emptyWorld).2.2.trace
      = [1 * second, 100 * millisecond] :=
  ⟨by decide,
   ((C16_do_success_iff Context.background DefaultConfig failsTwice 0 emptyWorld rfl).2 2
      (by decide) (by decide) (by decide)).2.1,
   by decide⟩

/-- C17 (code defect): the product `BaseBackoff * (1 << (attempt - 1))` is taken
in 64 bits and the cap is applied after it.  With the default configuration
(base 1 s, cap 30 s) the delay at attempt 0 is the initial delay and at attempt
34 the cap, but at attempt 35 the product `10^9 * 2^34` wraps to a negative
duration, which is below the cap and is returned, where the capped geometric
law gives 30 s; from attempt 65 on the shift gives 0 and the delay is 0. -/
theorem C17_backoff_wraps :
    calculateBackoff DefaultConfig 0 = DefaultConfig.InitialDelay ∧
    calculateBackoff DefaultConfig 34 = 30 * second ∧
    calculateBackoff DefaultConfig 35 = -1266874889709551616 ∧
    min (DefaultConfig.BaseBackoff * 2 ^ (35 - 1)) DefaultConfig.MaxBackoff = 30 * second ∧
    calculateBackoff DefaultConfig 65 = 0 ∧
    min (DefaultConfig.BaseBackoff * 2 ^ (65 - 1)) DefaultConfig.MaxBackoff = 30 * second := by
  decide

/-- C18: when the calls before number `j` failed and their sleeps ran to their
end, call number `j` fails, it is not the last attempt, and the context is
cancelled at an instant `t` during the sleep that follows (after the sleep
began and before `calculateBackoff cfg j` has passed), `Do` returns the error
of the context at the instant `t`; the captured state is the one call `j`
left, and the only call added after it is the interrupted sleep: `fn` is not
called again. -/
theorem C18_cancel_during_sleep {κ : Type} (ctx : Context) (cfg : Config)
    (fn : κ → World → Option Err × κ × World) (k : κ) (w : World) (j : Nat) (t : Int)
    (hprev : ∀ i < j, ctx.Err (Do.before ctx cfg fn k w i).2.now = none ∧
      (Do.call ctx cfg fn k w i).1 ≠ none ∧
      (sleepOrDone ctx (calculateBackoff cfg i) (Do.call ctx cfg fn k w i).2.2).1 = false)
    (hj : (j : Int) < cfg.MaxAttempts - 1)
    (hstart : ctx.Err (Do.before ctx cfg fn k w j).2.now = none)
    (hfail : (Do.call ctx cfg fn k w j).1 ≠ none)
    (ht : ctx.cancelAt = some t)
    (hafter : (Do.call ctx cfg fn k w j).2.2.now < t)
    (hbefore : t < (Do.call ctx cfg fn k w j).2.2.now + calculateBackoff cfg j) :
    Do ctx cfg fn k w
      = (some ctx.err, (Do.call ctx cfg fn k w j).2.1,
         { (Do.call ctx cfg fn k w j).2.2 with
           trace := .sleep (calculateBackoff cfg j) :: (Do.call ctx cfg fn k w j).2.2.trace,
           now := t }) ∧
    ctx.Err t = some ctx.err := by
  have hM : (cfg.MaxAttempts.toNat : Int) = cfg.MaxAttempts := Int.toNat_of_nonneg (by omega)
  obtain ⟨le, hr⟩ := Do_loop_unroll ctx cfg fn k w j (cfg.MaxAttempts.toNat - j) none
    (fun i hi => ⟨(hprev i hi).1, (hprev i hi).2.1, by omega, (hprev i hi).2.2⟩)
  rw [show cfg.MaxAttempts.toNat - j + j = cfg.MaxAttempts.toNat by omega] at hr
  refine ⟨?_, by simp [Context.Err, ht]⟩
  unfold Do
  rw [hr]
  obtain ⟨f, hf⟩ : ∃ f, cfg.MaxAttempts.toNat - j = f + 1 :=
    ⟨cfg.MaxAttempts.toNat - j - 1, by omega⟩
  rw [hf, Do.loop]
  simp only [hstart]
  unfold Do.call at hfail hafter hbefore ⊢
  rcases hfn : fn (Do.before ctx cfg fn k w j).1 (Do.before ctx cfg fn k w j).2
    with ⟨r, k1, w1⟩
  rw [hfn] at hfail hafter hbefore
  simp only at hafter hbefore
  cases r with
  | none => exact absurd rfl hfail
  | some e =>
      have hl : (j : Int) ≠ cfg.MaxAttempts - 1 := by omega
      have hnot : ¬ t ≤ w1.now := by omega
      simp [hl, sleepOrDone, ht, note, hnot, hbefore]

/-- Witness of C18: the default configuration, a closure that always fails, and
a context cancelled 5 ns into the first sleep of 100 ms: one call, and the
error of the context. -/
theorem C18_cancel_during_sleep_witness :
    (Do cancelledSoon DefaultConfig (counting alwaysFails) (0, ()) emptyWorld).1
      = some ctxCanceled ∧
    (Do cancelledSoon DefaultConfig (counting alwaysFails) (0, ()) emptyWorld).2.1.1 = 1 ∧
    (Do cancelledSoon DefaultConfig (counting alwaysFails) (0, ()) emptyWorld).2.2.trace
      = [.sleep (100 * millisecond)] :=
  ⟨congrArg Prod.fst (C18_cancel_during_sleep cancelledSoon DefaultConfig
      (counting alwaysFails) (0, ()) emptyWorld 0 1005 (fun i hi => absurd hi (Nat.not_lt_zero i))
      (by decide) (by decide) (by decide) rfl (by decide) (by decide)).1,
   by decide, by decide⟩

/-- C19: for an event with a non-empty idempotency key whose insert runs and
meets a row with the same key (the statement returns no row), `SaveEvent`
returns nil, leaves the event as it was (`ID` and `CreatedAt` included), and
writes nothing: tables, pending writes and the sequence are unchanged. -/
theorem C19_duplicate_save_is_success (env : Env) (r : OutboxRepo) (event : OutboxEvent)
    (w : World) (hkey : event.IdempotencyKey ≠ "")
    (hrun : env.fault (.sql (r.inTx w) (.saveOutboxEvent event.saveArgs) :: w.trace) = none)
    (hdup : (w.view (r.inTx w)).outbox.any
      (fun x => x.idempotencyKey = some event.IdempotencyKey) = true) :
    (r.SaveEvent env event w).1 = none ∧ (r.SaveEvent env event w).2.1 = event ∧
    (r.SaveEvent env event w).2.1.ID = event.ID ∧
    (r.SaveEvent env event w).2.1.CreatedAt = event.CreatedAt ∧
    (r.SaveEvent env event w).2.2.db = w.db ∧ (r.SaveEvent env event w).2.2.tx = w.tx ∧
    (r.SaveEvent env event w).2.2.outboxSeq = w.outboxSeq := by
  have hview : ∀ b, World.view { w with
      trace := Call.sql (r.inTx w) (.saveOutboxEvent event.saveArgs) :: w.trace,
      now := w.now + env.latency (Call.sql (r.inTx w) (.saveOutboxEvent event.saveArgs)
        :: w.trace) } b = w.view b := fun b => rfl
  unfold OutboxEvent.saveArgs at hrun hview
  have hE : errorsIs sqlErrNoRows sqlErrNoRows = true := by decide
  simp only [OutboxRepo.SaveEvent, perform, hrun, hview, insertOutboxRows, hdup, if_true, hE,
    Bool.true_and, decide_eq_true_eq, if_pos hkey]
  refine ⟨trivial, trivial, trivial, trivial, ?_, ?_, trivial⟩
  · unfold World.write
    split <;> simp [Tables.applyAll]
  · unfold World.write
    split
    · next h => simpa using h.symm
    · rfl

/-- Witness of C19: the key `k3` of the pending row of `worldWithPending`. -/
theorem C19_duplicate_save_is_success_witness :
    (OutboxRepo.SaveEvent Env.calm (dispatcher fixedAdapter).outboxRepo duplicateEvent
        worldWithPending).1 = none ∧
    (OutboxRepo.SaveEvent Env.calm (dispatcher fixedAdapter).outboxRepo duplicateEvent
        worldWithPending).2.1 = duplicateEvent ∧
    (OutboxRepo.SaveEvent Env.calm (dispatcher fixedAdapter).outboxRepo duplicateEvent
        worldWithPending).2.1.ID = 0 :=
  have h := C19_duplicate_save_is_success Env.calm (dispatcher fixedAdapter).outboxRepo
    duplicateEvent worldWithPending (by decide) rfl (by decide)
  ⟨h.1, h.2.1, h.2.2.1⟩

/-- C20: for `maxBatchSize ≥ 1` and a driver that runs every prepare and every
batch insert, `SaveEventsBatch` returns nil for every list of events (the loop
ends), and the batch inserts it issues, in order, number
`⌈N / maxBatchSize⌉`, each carry between 1 and `maxBatchSize` rows, and
together carry the rows of the input events in their order. -/
theorem C20_batch_chunks (env : Env) (r : OutboxRepo) (events : List OutboxEvent) (w : World)
    (hm : 1 ≤ r.maxBatchSize)
    (hprep : ∀ tr, env.fault (.sqlPrepare true :: tr) = none)
    (hins : ∀ b rows tr, env.fault (.sql b (.saveEventsBatch rows) :: tr) = none) :
    (r.SaveEventsBatch env events w).1 = none ∧
    ∃ chunks : List (List OutboxInsert),
      batchesIssued (r.SaveEventsBatch env events w).2.2.trace
        = batchesIssued w.trace ++ chunks ∧
      chunks.length
        = (events.length + r.maxBatchSize.toNat - 1) / r.maxBatchSize.toNat ∧
      (∀ c ∈ chunks, 1 ≤ c.length ∧ (c.length : Int) ≤ r.maxBatchSize) ∧
      chunks.flatten = events.map OutboxEvent.insertArgs := by
  have hM : (r.maxBatchSize.toNat : Int) = r.maxBatchSize := Int.toNat_of_nonneg (by omega)
  have hm1 : 1 ≤ r.maxBatchSize.toNat := by omega
  unfold OutboxRepo.SaveEventsBatch
  by_cases h0 : events.length = 0
  · simp only [h0, if_true]
    refine ⟨trivial, [], by simp, ?_, by simp, ?_⟩
    · rw [Nat.div_eq_of_lt (by omega)]
      rfl
    · rw [List.length_eq_zero.mp h0]
      rfl
  · simp only [h0, if_false]
    by_cases hgt : (events.length : Int) > r.maxBatchSize
    · simp only [hgt, if_true, OutboxRepo.saveEventsBatchInChunks,
        show ¬ r.maxBatchSize < 0 by omega, if_false]
      obtain ⟨h1, chunks, hb, hc, hf, hl⟩ := chunkLoop_ok env r r.maxBatchSize.toNat hm1 hprep
        hins events.length 0 events w (by
          have := Nat.le_mul_of_pos_right events.length (by omega : 0 < r.maxBatchSize.toNat)
          omega)
      refine ⟨h1, chunks, hb, ?_, ?_, ?_⟩
      · rw [hl, Nat.sub_zero]
      · intro c hcm
        have := hc c hcm
        omega
      · rw [hf, List.drop_zero]
    · simp only [hgt, if_false]
      have hne : events ≠ [] := fun h => h0 (by rw [h]; rfl)
      obtain ⟨s1, _, _, s4⟩ := saveEventsBatchSingle_ok env r events w hne hprep hins
      refine ⟨s1, [events.map OutboxEvent.insertArgs], s4, ?_, ?_, by simp⟩
      · rw [show events.length + r.maxBatchSize.toNat - 1
            = (events.length - 1) + r.maxBatchSize.toNat by omega,
          Nat.add_div_right _ (by omega : 0 < r.maxBatchSize.toNat),
          Nat.div_eq_of_lt (by omega)]
        rfl
      · intro c hcm
        rw [List.mem_singleton.mp hcm, List.length_map]
        omega

/-- Witness of C20: five events and `maxBatchSize = 2` give three statements,
of 2, 2 and 1 rows. -/
theorem C20_batch_chunks_witness :
    (smallBatchRepo.SaveEventsBatch Env.calm fiveEvents emptyWorld).1 = none ∧
    (batchesIssued (smallBatchRepo.SaveEventsBatch Env.calm fiveEvents emptyWorld).2.2.trace).map
        List.length = [2, 2, 1] ∧
    (batchesIssued
        (smallBatchRepo.SaveEventsBatch Env.calm fiveEvents emptyWorld).2.2.trace).flatten
      = fiveEvents.map OutboxEvent.insertArgs :=
  ⟨(C20_batch_chunks Env.calm smallBatchRepo fiveEvents emptyWorld (by decide)
      (fun _ => rfl) (fun _ _ _ => rfl)).1, by decide, by decide⟩

/-- C21: `Begin` on an active unit of work returns nil and leaves the unit of
work (and with it the repositories it hands out) as it is; `Commit` and
`Rollback` on a unit of work that is not active return nil and leave it as it
is.  In each case the world is unchanged but for the record of the method
call: no `BeginTx`, `Commit` or `Rollback` reaches the driver.  And whatever
a `Commit` or a `Rollback` returned, a `Commit` or `Rollback` that follows it
is such a no-op. -/
theorem C21_uow_boundaries (env : Env) (u : UnitOfWork) (w : World) :
    (u.inTransaction = true →
      u.Begin env w = (none, u, note .uowBegin w) ∧
      (u.Begin env w).2.1.ProductRepository = u.ProductRepository ∧
      (u.Begin env w).2.1.OutboxRepository = u.OutboxRepository) ∧
    (u.inTransaction = false →
      u.Commit env w = (none, u, note .uowCommit w) ∧
      u.Rollback env w = (none, u, note .uowRollback w)) ∧
    (u.Commit env w).2.1.Commit env (u.Commit env w).2.2
      = (none, (u.Commit env w).2.1, note .uowCommit (u.Commit env w).2.2) ∧
    (u.Commit env w).2.1.Rollback env (u.Commit env w).2.2
      = (none, (u.Commit env w).2.1, note .uowRollback (u.Commit env w).2.2) ∧
    (u.Rollback env w).2.1.Commit env (u.Rollback env w).2.2
      = (none, (u.Rollback env w).2.1, note .uowCommit (u.Rollback env w).2.2) ∧
    (u.Rollback env w).2.1.Rollback env (u.Rollback env w).2.2
      = (none, (u.Rollback env w).2.1, note .uowRollback (u.Rollback env w).2.2) := by
  have hidle : ∀ (v : UnitOfWork) (x : World), v.inTransaction = false ∨ v.hasTx = false →
      v.Commit env x = (none, v, note .uowCommit x) ∧
      v.Rollback env x = (none, v, note .uowRollback x) := by
    intro v x h
    rcases h with h | h
    · simp [UnitOfWork.Commit, UnitOfWork.Rollback, h]
    · cases hv : v.inTransaction <;> simp [UnitOfWork.Commit, UnitOfWork.Rollback, h, hv]
  have hc : (u.Commit env w).2.1.inTransaction = false ∨ (u.Commit env w).2.1.hasTx = false := by
    unfold UnitOfWork.Commit
    cases hi : u.inTransaction
    · exact Or.inl (by simp [hi])
    · cases ht : u.hasTx
      · exact Or.inr (by simp [ht])
      · rcases hp : perform env .sqlCommit (note .uowCommit w) with ⟨e, w1⟩
        cases e <;> exact Or.inl (by simp [hp])
  have hr : (u.Rollback env w).2.1.inTransaction = false ∨
      (u.Rollback env w).2.1.hasTx = false := by
    unfold UnitOfWork.Rollback
    cases hi : u.inTransaction
    · exact Or.inl (by simp [hi])
    · cases ht : u.hasTx
      · exact Or.inr (by simp [ht])
      · exact Or.inl (by simp)
  refine ⟨?_, fun h => hidle u w (Or.inl h), (hidle _ _ hc).1, (hidle _ _ hc).2,
    (hidle _ _ hr).1, (hidle _ _ hr).2⟩
  intro h
  have hb : u.Begin env w = (none, u, note .uowBegin w) := by simp [UnitOfWork.Begin, h]
  rw [hb]
  exact ⟨rfl, rfl, rfl⟩

/-- Witness of C21: a second `Begin` on the active unit of work, and a
`Commit` on a fresh one. -/
theorem C21_uow_boundaries_witness :
    activeUoW.Begin commitFails worldInTx = (none, activeUoW, note .uowBegin worldInTx) ∧
    UoWFactory.production.CreateUnitOfWork.Commit commitFails emptyWorld
      = (none, UoWFactory.production.CreateUnitOfWork, note .uowCommit emptyWorld) ∧
    (activeUoW.Commit commitFails worldInTx).1 = some (.plain "driver: bad connection") ∧
    ((activeUoW.Commit commitFails worldInTx).2.1.Rollback commitFails
        (activeUoW.Commit commitFails worldInTx).2.2).1 = none :=
  ⟨((C21_uow_boundaries commitFails activeUoW worldInTx).1 rfl).1,
   ((C21_uow_boundaries commitFails UoWFactory.production.CreateUnitOfWork emptyWorld).2.1
      rfl).1,
   by decide, by decide⟩

/-- C22 (code defect): the smart adapter reads the payload as an
`InfrastructureEvent` first and returns it as soon as it has a type, so the
check of `product_id` in the domain adapter is never reached for a payload of
type `PRODUCT_CREATED` or `PRODUCT_DELETED`: with `product_id` 0 or absent it
returns the event with product id 0 and no error, where the domain adapter
alone returns "missing product_id in product event".  The dispatcher then
publishes product 0 and marks the row published. -/
theorem C22_smart_adapter_skips_product_id_check :
    smartAdaptEvent (eventWith zeroIdPayload) 2000 = .ok ("PRODUCT_CREATED", 0, 1000) ∧
    smartAdaptEvent (eventWith noIdPayload) 2000 = .ok ("PRODUCT_DELETED", 0, 1000) ∧
    domainAdaptEvent (eventWith zeroIdPayload) 2000
      = .error (.plain "missing product_id in product event") ∧
    domainAdaptEvent (eventWith noIdPayload) 2000
      = .error (.plain "missing product_id in product event") ∧
    (productionDispatcher.processEvent Env.calm .background (eventWith zeroIdPayload)
        worldWithPending).trace
      = [.sql false (.markAsPublished OutboxStatusPublished 1), .markAsPublished 1,
         .publishProductCreated 0 (some 1000), .adaptEvent 1] := by
  refine ⟨rfl, rfl, rfl, rfl, ?_⟩
  decide

/-- C23 (code defect): the bound of 255 is applied to `len(name)`, the number
of bytes, while the error it raises speaks of characters.  A name of 128
Cyrillic letters has 128 characters after trimming, and is rejected because it
takes 256 bytes.  For names of one-byte characters the bound is on characters:
255 pass, 256 fail; surrounding space is trimmed, and a blank name fails with
`ErrInvalidProductName`. -/
theorem C23_name_bound_counts_bytes :
    (TrimSpace cyrillicName).length = 128 ∧
    len (TrimSpace cyrillicName) = 256 ∧
    NewProductName cyrillicName
      = .error (.plain "product name cannot exceed 255 characters") ∧
    NewProductName "  Test Product  " = .ok "Test Product" ∧
    NewProductName "   " = .error ErrInvalidProductName ∧
    NewProductName "" = .error ErrInvalidProductName ∧
    NewProductName longName = .error (.plain "product name cannot exceed 255 characters") ∧
    NewProductName (String.mk (List.replicate 255 'a'))
      = .ok (String.mk (List.replicate 255 'a')) := by
  refine ⟨?_, ?_, rfl, rfl, rfl, rfl, rfl, rfl⟩ <;> decide

/-- C24 (code defect): both comparisons of `NewPrice` are false for NaN, so
`NewPrice(NaN)` succeeds with a value that is not greater than zero, and
`NewProduct` builds a product with that price.  Zero, negative values and
minus infinity fail with `ErrInvalidProductPrice`; 1e15 passes and values
above it fail. -/
theorem C24_nan_price_accepted :
    NewPrice .nan = .ok .nan ∧
    Float64.gt .nan (.finite 0) = false ∧
    (∃ product, NewProduct "Widget" .nan 1000 = .ok product ∧ product.Price = .nan) ∧
    NewPrice (.finite 0) = .error ErrInvalidProductPrice ∧
    NewPrice (.finite (-1)) = .error ErrInvalidProductPrice ∧
    NewPrice .negInf = .error ErrInvalidProductPrice ∧
    NewPrice (.finite 1000000000000000) = .ok (.finite 1000000000000000) ∧
    NewPrice (.finite 1000000000000001) = .error (.plain "product price cannot exceed 1e15") ∧
    NewPrice .posInf = .error (.plain "product price cannot exceed 1e15") :=
  ⟨rfl, rfl, ⟨_, rfl, rfl⟩, rfl, rfl, rfl, rfl, rfl, rfl⟩

/-- C25 (code defect): a request with a name of 256 letters and a valid price
passes `ValidateCreateProductRequest`, which has no bound on the name, and is
rejected by `NewProductName` with an error made on the spot; that error is not
`ErrInvalidProductName`, no branch of `MapToHTTPError` knows it, and the
answer is 500 with code `INTERNAL_ERROR`.  An empty or blank name and a
non-positive price are answered with 400. -/
theorem C25_long_name_answered_500 :
    ValidateCreateProductRequest { Name := longName, Price := .finite 10 } = none ∧
    (CreateProduct Env.calm productionService .background longName (.finite 10) "k"
        emptyWorld).2.1
      = some (.wrap "failed to create product"
          (.plain "product name cannot exceed 255 characters")) ∧
    MapToHTTPError (.wrap "failed to create product"
        (.plain "product name cannot exceed 255 characters")) .background 1000
      = (StatusInternalServerError, "INTERNAL_ERROR") ∧
    (HTTPCreateProduct Env.calm productionService .background
        (some { Name := longName, Price := .finite 10 }) "k" emptyWorld).1 = 500 ∧
    (HTTPCreateProduct Env.calm productionService .background
        (some { Name := "", Price := .finite 10 }) "k" emptyWorld).1 = 400 ∧
    (HTTPCreateProduct Env.calm productionService .background
        (some { Name := "   ", Price := .finite 10 }) "k" emptyWorld).1 = 400 ∧
    (HTTPCreateProduct Env.calm productionService .background
        (some { Name := "Widget", Price := .finite 0 }) "k" emptyWorld).1 = 400 ∧
    (HTTPCreateProduct Env.calm productionService .background
        (some { Name := "Widget", Price := .finite 10 }) "k" emptyWorld).1 = 201 := by
  refine ⟨?_, ?_, ?_, ?_, ?_, ?_, ?_, ?_⟩ <;> decide

/-- C26: `handleMessage` makes exactly one call on each delivery.  It is
`Nack(false, false)`, without requeue, exactly when `json.Unmarshal` of the
body fails; when the body decodes it is `Ack(false)`, for the types
`PRODUCT_CREATED` and `PRODUCT_DELETED` and for every other type alike. -/
theorem C26_one_settlement_per_message (body : Body) :
    (handleMessage body).length = 1 ∧
    (handleMessage body = [.nack false false] ↔ ∃ err, unmarshalBody body = .error err) ∧
    (∀ event, unmarshalBody body = .ok event → handleMessage body = [.ack false]) ∧
    (handleMessage body = [.nack false false] ∨ handleMessage body = [.ack false]) := by
  unfold handleMessage
  cases h : unmarshalBody body with
  | error err => simp
  | ok event =>
      simp only [ite_self]
      simp

/-- Witness of C26: a body that is not JSON, an object whose `type` is a
number, a created event, an event of an unknown type, and `null`. -/
theorem C26_one_settlement_per_message_witness :
    handleMessage .notJSON = [.nack false false] ∧
    handleMessage (.object [("type", .num 1)]) = [.nack false false] ∧
    handleMessage (.object [("product_id", .num 7), ("type", .str "PRODUCT_CREATED")])
      = [.ack false] ∧
    handleMessage (.object [("type", .str "PRICE_CHANGED")]) = [.ack false] ∧
    handleMessage .null = [.ack false] :=
  ⟨by decide, by decide,
   (C26_one_settlement_per_message
      (.object [("product_id", .num 7), ("type", .str "PRODUCT_CREATED")])).2.2.1
      { Type_ := "PRODUCT_CREATED", ProductID := 7, Timestamp := zeroTime } rfl,
   by decide, by decide⟩

/-- C27 (code defect): the dispatcher computes its backoff with the expression
of the retry engine, and the two agree: against a bus that is down the sleeps
of `publishEventWithRetry` are `calculateBackoff(cfg, 1)`, `(cfg, 2)`,
`(cfg, 3)` (1 s, 2 s, 4 s), none before attempt 0.  Both leave the schedule
`min(base_backoff * 2^(n-1), max_backoff)` where the 64-bit product wraps:
with base 1 s and cap 30 s the backoff before retry 35 is a negative duration
in both, where the schedule gives 30 s. -/
theorem C27_backoff_agrees_and_wraps :
    sleepsOf (productionDispatcher.publishEventWithRetry busDown .background
        (toPortsOutboxEvent freshRow) worldWithPending).2.trace
      = [calculateBackoff DefaultConfig 3, calculateBackoff DefaultConfig 2,
         calculateBackoff DefaultConfig 1] ∧
    sleepsOf (productionDispatcher.publishEventWithRetry Env.calm .background
        (toPortsOutboxEvent freshRow) worldWithPending).2.trace = [] ∧
    productionDispatcher.backoff 34 = backoffSchedule (1 * second) (30 * second) 34 ∧
    productionDispatcher.backoff 35 = calculateBackoff DefaultConfig 35 ∧
    productionDispatcher.backoff 35 = -1266874889709551616 ∧
    backoffSchedule (1 * second) (30 * second) 35 = 30 * second := by
  refine ⟨?_, ?_, ?_, ?_, ?_, ?_⟩ <;> decide

/-- C28: for an event whose `MarshalJSON` succeeds, whose product id is an
`int` and whose timestamp is not the zero time, the smart adapter applied to
an outbox event that carries the marshalled object returns, without error, the
type of the event, its product id and its timestamp; when the product id is
not 0 the domain adapter alone returns the same. -/
theorem C28_marshal_adapt_round_trip (e : DomainEvent) (data : JsonObject)
    (outboxEvent : OutboxEvent) (now : Int)
    (hdata : e.MarshalJSON = .ok data)
    (hevent : outboxEvent.EventData = some data)
    (hid : -(2 ^ 63) ≤ e.ProductID ∧ e.ProductID < 2 ^ 63)
    (htime : e.Timestamp ≠ zeroTime) :
    smartAdaptEvent outboxEvent now = .ok (e.EventType, e.ProductID, e.Timestamp) ∧
    (e.ProductID ≠ 0 →
      domainAdaptEvent outboxEvent now = .ok (e.EventType, e.ProductID, e.Timestamp)) := by
  have hu := unmarshal_MarshalJSON e data hdata hid
  have hne := EventType_ne_empty e
  constructor
  · simp [smartAdaptEvent, hevent, hu, hne, htime]
  · intro hnz
    simp [domainAdaptEvent, hevent, hu, hne, htime, hnz]

/-- Witness of C28: a created event of product 7. -/
theorem C28_marshal_adapt_round_trip_witness :
    createdSeven.MarshalJSON
      = .ok [("product_id", .num 7), ("timestamp", .time 1500),
             ("type", .str "PRODUCT_CREATED")] ∧
    smartAdaptEvent (eventWith [("product_id", .num 7), ("timestamp", .time 1500),
        ("type", .str "PRODUCT_CREATED")]) 2000 = .ok ("PRODUCT_CREATED", 7, 1500) :=
  ⟨rfl, (C28_marshal_adapt_round_trip createdSeven _ (eventWith _) 2000 rfl rfl (by decide)
      (by decide)).1⟩

/-- C29 (code defect): the first request of a client, or the first after
`cleanup` has dropped its entry, is admitted without a look at the limit, so
with limit 0 (or below) requests are admitted; the branch for a client with an
entry compares with the limit and refuses.  (With limit 1 and a window of one
minute, requests at an instant and exactly one minute later are both admitted:
an instant counts while it is after `now - window`.) -/
theorem C29_first_request_ignores_limit :
    ((NewRateLimiter 0 (60 * second)).allow 1000 "10.0.0.1").1 = true ∧
    (NewRateLimiter 0 (60 * second)).answers [(1000, "10.0.0.1"), (2000, "10.0.0.1")]
      = [true, false] ∧
    ((((NewRateLimiter 0 (60 * second)).allow 1000 "10.0.0.1").2.cleanup
        (1000 + 60 * second)).allow (1001 + 60 * second) "10.0.0.1").1 = true ∧
    ((NewRateLimiter (-1) (60 * second)).allow 1000 "10.0.0.1").1 = true ∧
    (NewRateLimiter 1 (60 * second)).answers
        [(1000, "10.0.0.1"), (1000 + 60 * second, "10.0.0.1")] = [true, true] ∧
    (NewRateLimiter 2 (60 * second)).answers
        [(1000, "10.0.0.1"), (1000, "10.0.0.2"), (1001, "10.0.0.1"), (1002, "10.0.0.1")]
      = [true, true, true, false] := by
  refine ⟨?_, ?_, ?_, ?_, ?_, ?_⟩ <;> decide

/-- C30 (code defect): the dispatcher polls through a repository that is not
bound to a transaction, so the row locks of `FOR UPDATE SKIP LOCKED` end with
the statement: no row is locked when `GetPendingEvents` has returned.  While
dispatcher A is between the publish of the event it received and
`MarkAsPublished`, the poll of dispatcher B returns the same event; the event
is then published twice and marked published twice. -/
theorem C30_poll_does_not_claim :
    (productionDispatcher.outboxRepo.GetPendingEvents Env.calm 50 worldWithPending).1
      = .ok [pendingEvent] ∧
    productionDispatcher.outboxRepo.lockedAfterPoll 50 worldWithPending = [] ∧
    midPublishA.trace
      = [.publishProductCreated 1 (some 1000), .adaptEvent 1,
         .sql false (.getPendingEvents OutboxStatusPending 50)] ∧
    (productionDispatcher.outboxRepo.GetPendingEvents Env.calm 50 midPublishA).1
      = .ok [pendingEvent] ∧
    afterBoth.trace.filter Call.isPublish
      = [.publishProductCreated 1 (some 1000), .publishProductCreated 1 (some 1000)] ∧
    afterBoth.trace.filter Call.isOutcome = [.markAsPublished 1, .markAsPublished 1] := by
  refine ⟨rfl, ?_, ?_, rfl, ?_, ?_⟩ <;> decide

end ProductSvc
